import Mathlib

/-!
# gFur: spring-damper physics and LOD selection

A shallow embedding of `Source/GFur/Private/FurComponent.cpp`:

* `UGFurComponent::updateFur` with its `Physics` lambda (lines 660-897),
* the LOD selection and mesh submission of
  `FFurSceneProxy::GetDynamicMeshElements` (lines 64-177),
* `UGFurComponent::UpdateMasterBoneMap` (lines 936-963),
* `UGFurComponent::CreateMorphRemapTable` (lines 965-1093).

Numbers. The C++ code computes in `float`. The embedding computes in an
arbitrary linear ordered field `K` (exact arithmetic, no rounding, no NaN and
no infinity; `a / 0 = 0` as in every Lean field).  The transcendental library
functions `sinf`, `cosf`, `sqrtf`, `powf` and the constant `PI` are the fields
of `FMath K`; theorems that need facts about them take those facts as the
hypothesis `FMath.Laws`, which the real functions satisfy.  Where a divisor of
the source can be zero (`Stiffness`), the theorems that depend on the quotient
assume it is not.  A failing `check` is the result `none`.

Engine types. `FMatrix` and `FQuat` are engine types whose code is not part of
the repository: they are the type parameters `M` and `Q`, and the engine
functions used on them are the fields of `FEngine K M Q`.
-/

namespace GFur

/-! ## FVector -/

/-- Engine type `FVector`: three scalar components. -/
structure FVector (K : Type) where
  X : K
  Y : K
  Z : K
deriving DecidableEq, Repr

namespace FVector

variable {K : Type} [LinearOrderedField K]

/-- The vector `FVector(0, 0, 0)`, as stored by `Set(0.0f, 0.0f, 0.0f)`. -/
def zero : FVector K := ⟨0, 0, 0⟩

instance : Add (FVector K) := ⟨fun a b => ⟨a.X + b.X, a.Y + b.Y, a.Z + b.Z⟩⟩
instance : Sub (FVector K) := ⟨fun a b => ⟨a.X - b.X, a.Y - b.Y, a.Z - b.Z⟩⟩
instance : HMul (FVector K) K (FVector K) := ⟨fun a s => ⟨a.X * s, a.Y * s, a.Z * s⟩⟩
instance : HDiv (FVector K) K (FVector K) := ⟨fun a s => ⟨a.X / s, a.Y / s, a.Z / s⟩⟩

/-- Engine function `FVector::DotProduct`. -/
def DotProduct (a b : FVector K) : K := a.X * b.X + a.Y * b.Y + a.Z * b.Z

end FVector

/-! ## Library functions and engine functions taken as parameters -/

/-- The C library and `FMath` functions used by `updateFur`. -/
structure FMath (K : Type) where
  Sin : K → K
  Cos : K → K
  Sqrt : K → K
  Powf : K → K → K
  PI : K

/-- Engine function `FVector::Size`: the square root of the squared length. -/
def FVector.Size {K : Type} [LinearOrderedField K] (F : FMath K) (a : FVector K) : K :=
  F.Sqrt (a.X * a.X + a.Y * a.Y + a.Z * a.Z)

/-- The facts about the library functions that the theorems rely on. They hold
for the real sine, cosine, square root and power. -/
structure FMath.Laws {K : Type} [LinearOrderedField K] (F : FMath K) : Prop where
  sin_sq_add_cos_sq : ∀ x, F.Sin x * F.Sin x + F.Cos x * F.Cos x = 1
  sqrt_nonneg : ∀ a, 0 ≤ F.Sqrt a
  sqrt_mul_self : ∀ a, 0 ≤ a → F.Sqrt a * F.Sqrt a = a
  powf_nonneg : ∀ b t, 0 ≤ b → 0 ≤ F.Powf b t
  powf_le_one : ∀ b t, 0 ≤ b → b ≤ 1 → 0 ≤ t → F.Powf b t ≤ 1
  powf_one_base : ∀ t, F.Powf 1 t = 1

/-- The engine functions on `FMatrix` (type `M`) and `FQuat` (type `Q`) that
`updateFur` calls. Their code is engine code. -/
structure FEngine (K M Q : Type) where
  -- engine function FMatrix::GetOrigin
  GetOrigin : M → FVector K
  -- engine function FMatrix::ToQuat
  ToQuat : M → Q
  -- engine function FQuat::operator*
  QuatMul : Q → Q → Q
  -- engine function FQuat::Inverse
  QuatInverse : Q → Q
  -- engine function FQuat::ToAxisAndAngle: the axis and the angle it writes
  ToAxisAndAngle : Q → FVector K × K
  -- engine function FMatrix::Identity
  Identity : M
  -- engine function FMatrix::operator*
  MatMul : M → M → M
  -- engine function FMatrix::RemoveScaling, as the matrix it leaves
  RemoveScaling : M → M
  -- engine function FMatrix::Inverse
  Inverse : M → M
  -- engine function FMatrix::ApplyScale(0.f)
  ApplyScaleZero : M → M

/-! ## Component data -/

/-- The struct `FFurLod`, with the members `FurComponent.cpp` reads. -/
structure FFurLod (K : Type) where
  ScreenSize : K
  LayerCount : Int
  Lod : Int
  PhysicsEnabled : Bool
  DisableMorphTargets : Bool

/-- The physics properties of `UGFurComponent` read by `updateFur`, with
`LastDeltaTime`. -/
structure FurPhysicsSettings (K : Type) where
  PhysicsEnabled : Bool
  ForceDistribution : K
  Stiffness : K
  Damping : K
  ConstantForce : FVector K
  MaxForce : K
  MaxForceTorqueFactor : K
  ReferenceHairBias : K
  LastDeltaTime : K

/-- What `updateFur` reads from `Scene->GetFurData()`: the values returned by
`GetCurrentMaxFurLength`, `GetCurrentMinFurLength` and
`GetMaxVertexBoneDistance`. -/
structure FurDataLengths (K : Type) where
  CurrentMaxFurLength : K
  CurrentMinFurLength : K
  MaxVertexBoneDistance : K

/-- The local variables that `updateFur` computes before the `Physics` lambda
(lines 670-681) and that the lambda captures. -/
structure PhysicsLocals (K : Type) where
  DeltaTime : K
  ReferenceFurLength : K
  ForceFactor : K
  DampingClamped : K
  DampingFactor : K
  MaxForceFinal : K
  MaxTorque : K
  FurForceFinal : FVector K
  x : K

section Physics

variable {K M Q : Type} [LinearOrderedField K]

/-- Lines 670-681 of `updateFur`. -/
def physicsLocals (F : FMath K) (C : FurPhysicsSettings K) (D : FurDataLengths K) :
    PhysicsLocals K :=
  let DeltaTime := min C.LastDeltaTime 1
  let ReferenceFurLength :=
    max (1 / 100000) (D.CurrentMaxFurLength * C.ReferenceHairBias
      + D.CurrentMinFurLength * (1 - C.ReferenceHairBias))
  let ForceFactor := 1 / F.Powf ReferenceFurLength C.ForceDistribution
  let DampingClamped := max C.Damping (1 / 1000000)
  let DampingFactor := F.Powf (1 - (DampingClamped / (DampingClamped + 1))) DeltaTime
  let MaxForceFinal := (C.MaxForce * ReferenceFurLength) / F.Powf ReferenceFurLength C.ForceDistribution
  let MaxTorque := C.MaxForceTorqueFactor * MaxForceFinal / D.MaxVertexBoneDistance
  let FurForceFinal := C.ConstantForce * ReferenceFurLength * ForceFactor / C.Stiffness
  let x := DeltaTime * C.Stiffness
  ⟨DeltaTime, ReferenceFurLength, ForceFactor, DampingClamped, DampingFactor, MaxForceFinal,
    MaxTorque, FurForceFinal, x⟩

/-- The five references the `Physics` lambda reads and writes: one tracked
rigid frame. -/
structure RigidFrame (K M : Type) where
  Transformation : M
  LinearOffset : FVector K
  LinearVelocity : FVector K
  AngularOffset : FVector K
  AngularVelocity : FVector K

/-- Lines 687-689: the linear offset after the displacement of the frame has
been subtracted. -/
def linearForced (E : FEngine K M Q) (P : PhysicsLocals K) (NewTransformation : M)
    (s : RigidFrame K M) : FVector K :=
  let d := E.GetOrigin NewTransformation - E.GetOrigin s.Transformation
  let d := d * P.ForceFactor
  s.LinearOffset - d

/-- Lines 692-693: `newOffset` and `newVelocity` of the linear channel, from the
offset of `linearForced` and the velocity. -/
def linearHarmonic (F : FMath K) (P : PhysicsLocals K) (LinearOffset LinearVelocity : FVector K) :
    FVector K × FVector K :=
  let newOffset := (LinearVelocity * F.Sin P.x + (LinearOffset - P.FurForceFinal) * F.Cos P.x)
    * P.DampingFactor + P.FurForceFinal
  let newVelocity := (LinearVelocity * F.Cos P.x - (LinearOffset - P.FurForceFinal) * F.Sin P.x)
    * P.DampingFactor
  (newOffset, newVelocity)

/-- Lines 698-704: the clamp of the linear offset to `MaxForceFinal`, with the
removal of the velocity component along the offset when `k > 0`. -/
def linearClamp (F : FMath K) (P : PhysicsLocals K) (LinearOffset LinearVelocity : FVector K) :
    FVector K × FVector K :=
  if LinearOffset.Size F > P.MaxForceFinal then
    let LinearOffset := LinearOffset * (P.MaxForceFinal / LinearOffset.Size F)
    let k := FVector.DotProduct LinearOffset LinearVelocity
      / FVector.DotProduct LinearOffset LinearOffset
    if k > 0 then (LinearOffset, LinearVelocity - LinearOffset * k)
    else (LinearOffset, LinearVelocity)
  else (LinearOffset, LinearVelocity)

/-- Lines 706-712: the angular offset after the rotation of the frame has been
subtracted. -/
def angularForced (F : FMath K) (E : FEngine K M Q) (P : PhysicsLocals K) (NewTransformation : M)
    (s : RigidFrame K M) : FVector K :=
  let rdiff := E.QuatMul (E.ToQuat NewTransformation) (E.QuatInverse (E.ToQuat s.Transformation))
  let d := (E.ToAxisAndAngle rdiff).1
  let angle := (E.ToAxisAndAngle rdiff).2
  let angle := if angle > F.PI then angle - 2 * F.PI else angle
  let d := d * (-angle * P.ForceFactor)
  s.AngularOffset - d

/-- Lines 713-714: `newOffset` and `newVelocity` of the angular channel. -/
def angularHarmonic (F : FMath K) (P : PhysicsLocals K) (AngularOffset AngularVelocity : FVector K) :
    FVector K × FVector K :=
  let newOffset := (AngularVelocity * F.Sin P.x + AngularOffset * F.Cos P.x) * P.DampingFactor
  let newVelocity := (AngularVelocity * F.Cos P.x - AngularOffset * F.Sin P.x) * P.DampingFactor
  (newOffset, newVelocity)

/-- Lines 717-718: the clamp of the angular offset to `MaxTorque`. -/
def angularClamp (F : FMath K) (P : PhysicsLocals K) (AngularOffset : FVector K) : FVector K :=
  if AngularOffset.Size F > P.MaxTorque then AngularOffset * (P.MaxTorque / AngularOffset.Size F)
  else AngularOffset

/-- The lambda `Physics` of `updateFur` (lines 685-721). The two `check`
calls of lines 694-695 test for NaN; in exact arithmetic they always pass. -/
def Physics (F : FMath K) (E : FEngine K M Q) (P : PhysicsLocals K) (NewTransformation : M)
    (s : RigidFrame K M) : RigidFrame K M :=
  let LinearOffset := linearForced E P NewTransformation s
  let newLinear := linearHarmonic F P LinearOffset s.LinearVelocity
  let clamped := linearClamp F P newLinear.1 newLinear.2
  let AngularOffset := angularForced F E P NewTransformation s
  let newAngular := angularHarmonic F P AngularOffset s.AngularVelocity
  ⟨NewTransformation, clamped.1, clamped.2, angularClamp F P newAngular.1, newAngular.2⟩

end Physics

/-! ## updateFur -/

/-- A counted `for` loop `for (i = 0; i < n; i++) body`: the body runs for
`i = 0, 1, ..., n - 1` in this order. -/
def forLoop {σ : Type} (n : Nat) (body : Nat → σ → σ) (init : σ) : σ :=
  match n with
  | 0 => init
  | k + 1 => body k (forLoop k body init)

/-- What `updateFur` reads from the skeletal mesh `SkeletalGrowMesh`. -/
structure SkeletalMeshData (M : Type) where
  -- ThisMesh->RefBasesInvMatrix
  RefBasesInvMatrix : List M
  -- ThisMesh->RefSkeleton.GetNum()
  RefSkeletonNum : Nat
  -- ThisMesh->RefSkeleton.GetParentIndex, INDEX_NONE is -1
  GetParentIndex : Nat → Int
  -- LODRenderData[l].ActiveBoneIndices for every mesh LOD l
  ActiveBoneIndices : List (List Nat)

/-- What `updateFur` reads from the master pose component. -/
structure MasterPose (M : Type) where
  -- GetComponentSpaceTransforms(), each transform as its ToMatrixWithScale()
  ComponentSpaceTransforms : List M
  -- GetBoneVisibilityStates(), true for BVS_Visible
  BoneVisibilityStates : List Bool
  -- GetBoneTransformRevisionNumber(), a uint32
  BoneTransformRevisionNumber : Nat

/-- The members of `UGFurComponent` that `updateFur` reads and writes. -/
structure UGFurComponent (K M : Type) extends FurPhysicsSettings K where
  LODs : List (FFurLod K)
  MasterBoneMap : List Int
  ReferenceToLocal : List M
  Transformations : List M
  LinearVelocities : List (FVector K)
  AngularVelocities : List (FVector K)
  LinearOffsets : List (FVector K)
  AngularOffsets : List (FVector K)
  StaticTransformation : M
  StaticLinearOffset : FVector K
  StaticLinearVelocity : FVector K
  StaticAngularOffset : FVector K
  StaticAngularVelocity : FVector K
  OldPositionValid : Bool
  LastRevisionNumber : Nat

/-- The surroundings of one call of `updateFur`: the scene proxy, the meshes,
the master pose and the component transform. `uninitM` and `uninitV` give the
contents of memory that the code leaves uninitialized (`AddUninitialized`). -/
structure TickInput (K M : Type) where
  -- SceneProxy != nullptr
  HasSceneProxy : Bool
  -- Scene->GetCurrentFurLodLevel()
  CurrentFurLodLevel : Int
  -- Scene->GetCurrentMeshLodLevel()
  CurrentMeshLodLevel : Int
  -- the three lengths read from Scene->GetFurData()
  FurLengths : FurDataLengths K
  -- GetComponentTransform().ToMatrixNoScale()
  ToWorld : M
  SkeletalGrowMesh : Option (SkeletalMeshData M)
  -- StaticGrowMesh != nullptr
  StaticGrowMesh : Bool
  -- MasterPoseComponent.Get(), none when the weak pointer is not valid
  MasterPoseComponent : Option (MasterPose M)
  uninitM : Nat → M
  uninitV : Nat → FVector K

section UpdateFur

variable {K M Q : Type} [LinearOrderedField K]

/-- Line 668: `PhysicsEnabled && (FurLodLevel == 0 || LODs[FurLodLevel - 1].PhysicsEnabled)`.
The read of `LODs` is in range when the level comes from a proxy built from
these `LODs`; out of range it counts as false here. -/
def LodPhysicsEnabled (C : UGFurComponent K M) (FurLodLevel : Int) : Bool :=
  C.PhysicsEnabled && (FurLodLevel == 0 ||
    (match C.LODs[(FurLodLevel - 1).toNat]? with
     | some lod => lod.PhysicsEnabled
     | none => false))

/-- The array resize of lines 735-746: `Reset()` then `AddUninitialized(n)` on
the six tracked arrays, and line 747. -/
def resetArrays (I : TickInput K M) (n : Nat) (C : UGFurComponent K M) : UGFurComponent K M :=
  { C with
    Transformations := (List.range n).map I.uninitM
    ReferenceToLocal := (List.range n).map I.uninitM
    LinearVelocities := (List.range n).map I.uninitV
    AngularVelocities := (List.range n).map I.uninitV
    LinearOffsets := (List.range n).map I.uninitV
    AngularOffsets := (List.range n).map I.uninitV
    OldPositionValid := false }

/-- The pair `TempMatrices`, `ValidTempMatrices` after `AddUninitialized(Count)`
and `AddDefaulted(Count)`. -/
def growTemp (I : TickInput K M) (T : List M × List Bool) (Count : Nat) : List M × List Bool :=
  (T.1 ++ (List.range Count).map (fun j => I.uninitM (T.1.length + j)),
   T.2 ++ List.replicate Count false)

/-- The body of the loop of lines 770-815 for one `BoneIndex`. Reads of
`MasterBoneMap`, `GetBoneVisibilityStates()` and `TempMatrices[ParentIndex]`
are in range by the invariants of the engine. -/
def fillBone (E : FEngine K M Q) (I : TickInput K M) (ThisMesh : SkeletalMeshData M)
    (MasterBoneMap : List Int) (RequiredBoneIndices : List Nat) (bIsMasterCompValid : Bool)
    (BoneIndex : Nat) (T : List M × List Bool) : List M × List Bool :=
  let ThisBoneIndex := RequiredBoneIndices.getD BoneIndex 0
  let T := if ThisBoneIndex ≥ T.2.length then growTemp I T (ThisBoneIndex - T.2.length + 1) else T
  if ThisBoneIndex < ThisMesh.RefBasesInvMatrix.length then
    let T := (T.1.set ThisBoneIndex E.Identity, T.2)
    if bIsMasterCompValid then
      match I.MasterPoseComponent with
      | none => T
      | some MasterComp =>
        let MasterBoneIndex : Int := MasterBoneMap.getD ThisBoneIndex (-1)
        if 0 ≤ MasterBoneIndex ∧ MasterBoneIndex < MasterComp.ComponentSpaceTransforms.length then
          let ParentIndex := ThisMesh.GetParentIndex ThisBoneIndex
          let bNeedToHideBone := !(MasterComp.BoneVisibilityStates.getD MasterBoneIndex.toNat true)
          if bNeedToHideBone ∧ ParentIndex ≠ -1 then
            (T.1.set ThisBoneIndex
              (E.ApplyScaleZero (T.1.getD ParentIndex.toNat (I.uninitM ParentIndex.toNat))),
             T.2.set ThisBoneIndex true)
          else
            (T.1.set ThisBoneIndex
              (MasterComp.ComponentSpaceTransforms.getD MasterBoneIndex.toNat E.Identity),
             T.2.set ThisBoneIndex true)
        else T
    else
      (T.1.set ThisBoneIndex
        (E.Inverse (ThisMesh.RefBasesInvMatrix.getD ThisBoneIndex E.Identity)),
       T.2.set ThisBoneIndex true)
  else T

/-- Lines 750-816: `TempMatrices` and `ValidTempMatrices`, from
`ReferenceToLocal.Num()` and `MasterBoneMap`. The loop over `RequiredBoneSets`
runs once, for `LOD.ActiveBoneIndices`. -/
def fillTempMatrices (E : FEngine K M Q) (I : TickInput K M) (ThisMesh : SkeletalMeshData M)
    (ReferenceToLocalNum : Nat) (MasterBoneMap : List Int) : List M × List Bool :=
  let T : List M × List Bool := growTemp I ([], []) ReferenceToLocalNum
  let bIsMasterCompValid : Bool :=
    I.MasterPoseComponent.isSome && MasterBoneMap.length == ThisMesh.RefSkeletonNum
  let RequiredBoneIndices := ThisMesh.ActiveBoneIndices.getD I.CurrentMeshLodLevel.toNat []
  let Cnt := max RequiredBoneIndices.length
    (if RequiredBoneIndices.length ≠ 0 then RequiredBoneIndices.getLastD 0 + 1 else 0)
  let T := if Cnt > T.2.length then growTemp I T (Cnt - T.2.length) else T
  forLoop RequiredBoneIndices.length
    (fillBone E I ThisMesh MasterBoneMap RequiredBoneIndices bIsMasterCompValid) T

/-- The local `NewTransformation` of lines 822-833 for one bone: the bone
matrix in world space without scaling, or the identity for a bone without a
valid matrix. -/
def boneNewTransformation (E : FEngine K M Q) (I : TickInput K M) (T : List M × List Bool)
    (ThisBoneIndex : Nat) : M :=
  if T.2.getD ThisBoneIndex false then
    E.RemoveScaling (E.MatMul (T.1.getD ThisBoneIndex E.Identity) I.ToWorld)
  else E.Identity

/-- The body of the loop of lines 820-837 (continuity established and physics
enabled) for one bone. -/
def physicsBone (F : FMath K) (E : FEngine K M Q) (P : PhysicsLocals K) (I : TickInput K M)
    (ThisMesh : SkeletalMeshData M) (T : List M × List Bool) (ThisBoneIndex : Nat)
    (C : UGFurComponent K M) : UGFurComponent K M :=
  let RefToLocal :=
    if T.2.getD ThisBoneIndex false then
      E.MatMul (ThisMesh.RefBasesInvMatrix.getD ThisBoneIndex E.Identity)
        (T.1.getD ThisBoneIndex E.Identity)
    else E.Identity
  let NewTransformation := boneNewTransformation E I T ThisBoneIndex
  let r := Physics F E P NewTransformation
    ⟨C.Transformations.getD ThisBoneIndex (I.uninitM ThisBoneIndex),
     C.LinearOffsets.getD ThisBoneIndex (I.uninitV ThisBoneIndex),
     C.LinearVelocities.getD ThisBoneIndex (I.uninitV ThisBoneIndex),
     C.AngularOffsets.getD ThisBoneIndex (I.uninitV ThisBoneIndex),
     C.AngularVelocities.getD ThisBoneIndex (I.uninitV ThisBoneIndex)⟩
  { C with
    ReferenceToLocal := C.ReferenceToLocal.set ThisBoneIndex RefToLocal
    Transformations := C.Transformations.set ThisBoneIndex r.Transformation
    LinearOffsets := C.LinearOffsets.set ThisBoneIndex r.LinearOffset
    LinearVelocities := C.LinearVelocities.set ThisBoneIndex r.LinearVelocity
    AngularOffsets := C.AngularOffsets.set ThisBoneIndex r.AngularOffset
    AngularVelocities := C.AngularVelocities.set ThisBoneIndex r.AngularVelocity }

/-- The body of the loop of lines 841-860 (reset) for one bone. -/
def resetBone (E : FEngine K M Q) (I : TickInput K M) (ThisMesh : SkeletalMeshData M)
    (T : List M × List Bool) (ThisBoneIndex : Nat) (C : UGFurComponent K M) :
    UGFurComponent K M :=
  let RefToLocal :=
    if T.2.getD ThisBoneIndex false then
      E.MatMul (ThisMesh.RefBasesInvMatrix.getD ThisBoneIndex E.Identity)
        (T.1.getD ThisBoneIndex E.Identity)
    else E.Identity
  let Transformation :=
    if T.2.getD ThisBoneIndex false then
      E.RemoveScaling (E.MatMul (T.1.getD ThisBoneIndex E.Identity) I.ToWorld)
    else E.Identity
  { C with
    ReferenceToLocal := C.ReferenceToLocal.set ThisBoneIndex RefToLocal
    Transformations := C.Transformations.set ThisBoneIndex Transformation
    LinearOffsets := C.LinearOffsets.set ThisBoneIndex ⟨0, 0, 0⟩
    AngularOffsets := C.AngularOffsets.set ThisBoneIndex ⟨0, 0, 0⟩
    LinearVelocities := C.LinearVelocities.set ThisBoneIndex ⟨0, 0, 0⟩
    AngularVelocities := C.AngularVelocities.set ThisBoneIndex ⟨0, 0, 0⟩ }

/-- Lines 723-863: the skinned path. The result is `none` when the `check` of
line 732 fails. -/
def updateFurSkinned (F : FMath K) (E : FEngine K M Q) (P : PhysicsLocals K) (I : TickInput K M)
    (ThisMesh : SkeletalMeshData M) (C : UGFurComponent K M) : Option (UGFurComponent K M) :=
  if ThisMesh.RefBasesInvMatrix.length = 0 then none
  else
    let C :=
      if C.ReferenceToLocal.length ≠ ThisMesh.RefBasesInvMatrix.length then
        resetArrays I ThisMesh.RefBasesInvMatrix.length C
      else C
    let T := fillTempMatrices E I ThisMesh C.ReferenceToLocal.length C.MasterBoneMap
    if C.OldPositionValid && LodPhysicsEnabled C I.CurrentFurLodLevel then
      some (forLoop C.ReferenceToLocal.length (physicsBone F E P I ThisMesh T) C)
    else
      let C := forLoop C.ReferenceToLocal.length (resetBone E I ThisMesh T) C
      some { C with OldPositionValid := true }

/-- Lines 864-883: the static path. The result is `none` when the `check` of
line 866 fails. -/
def updateFurStatic (F : FMath K) (E : FEngine K M Q) (P : PhysicsLocals K) (I : TickInput K M)
    (C : UGFurComponent K M) : Option (UGFurComponent K M) :=
  if !I.StaticGrowMesh then none
  else if C.OldPositionValid && LodPhysicsEnabled C I.CurrentFurLodLevel then
    let r := Physics F E P I.ToWorld
      ⟨C.StaticTransformation, C.StaticLinearOffset, C.StaticLinearVelocity,
       C.StaticAngularOffset, C.StaticAngularVelocity⟩
    some { C with
      StaticTransformation := r.Transformation
      StaticLinearOffset := r.LinearOffset
      StaticLinearVelocity := r.LinearVelocity
      StaticAngularOffset := r.AngularOffset
      StaticAngularVelocity := r.AngularVelocity }
  else
    some { C with
      StaticTransformation := I.ToWorld
      StaticLinearOffset := ⟨0, 0, 0⟩
      StaticAngularOffset := ⟨0, 0, 0⟩
      StaticLinearVelocity := ⟨0, 0, 0⟩
      StaticAngularVelocity := ⟨0, 0, 0⟩
      OldPositionValid := true }

/-- The function `UGFurComponent::updateFur` (lines 660-897). The result is
`none` when a `check` fails; otherwise it is the component after the call,
with the flag `Discontinuous` of the render command that the call enqueues
(`none` when the call returns at line 663 and enqueues nothing). The revision
numbers are `uint32`: the difference of line 887 wraps modulo `2 ^ 32`. -/
def updateFur (F : FMath K) (E : FEngine K M Q) (I : TickInput K M) (C : UGFurComponent K M) :
    Option (UGFurComponent K M × Option Bool) :=
  if !I.HasSceneProxy || (I.SkeletalGrowMesh.isNone && !I.StaticGrowMesh) then some (C, none)
  else
    let P := physicsLocals F C.toFurPhysicsSettings I.FurLengths
    let stepped :=
      match I.SkeletalGrowMesh with
      | some ThisMesh => updateFurSkinned F E P I ThisMesh C
      | none => updateFurStatic F E P I C
    match stepped with
    | none => none
    | some C =>
      let RevisionNumber :=
        match I.MasterPoseComponent with
        | some MasterComp => MasterComp.BoneTransformRevisionNumber
        | none => 0
      let Discontinuous : Bool :=
        decide ((RevisionNumber + 2 ^ 32 - C.LastRevisionNumber) % 2 ^ 32 > 1)
      some ({ C with LastRevisionNumber := RevisionNumber }, some Discontinuous)

end UpdateFur

/-! ## FFurSceneProxy::GetDynamicMeshElements -/

/-- What the proxy reads of a section `FFurData::FSection`. -/
structure FSection where
  NumTriangles : Nat
  MaterialIndex : Nat
deriving DecidableEq, Repr

/-- What the proxy reads of one `FFurData`: `GetLod()` and
`GetSections_RenderThread()`. -/
structure FurDataInfo where
  Lod : Int
  Sections : List FSection
deriving DecidableEq, Repr

/-- A mesh batch handed to `Collector.AddMesh`: the view it is added for, and
the fur LOD level, section and vertex factory index it is built from. -/
structure FMeshBatch where
  ViewIndex : Nat
  FurLodLevel : Int
  SectionIdx : Nat
  VertexFactoryIndex : Int
  NumPrimitives : Nat
deriving DecidableEq, Repr

/-- The members of `FFurSceneProxy` used by `GetDynamicMeshElements`.
`FurMorphObjects` holds, per fur LOD level, `none` for a null morph object and
otherwise whether its vertex buffer is initialized. -/
structure FFurSceneProxy (K : Type) where
  FurData : List FurDataInfo
  FurLods : List (FFurLod K)
  FurMorphObjects : List (Option Bool)
  CurrentFurLodLevel : Int
  CurrentMeshLodLevel : Int
  SectionOffset : Int

section Lod

variable {K : Type} [LinearOrderedField K]

/-- Engine function `FMath::Square`. -/
def Square (a : K) : K := a * a

/-- Line 82: `VisibilityMap & (1 << ViewIndex)`. -/
def viewVisible (VisibilityMap : Nat) (ViewIndex : Nat) : Bool :=
  VisibilityMap &&& (1 <<< ViewIndex) != 0

/-- The loop of lines 92-104, entered with `LODLevel`: it walks down from
`LODLevel` to 1 and stops at the first level whose `ScreenSize` passes the test
of line 98 (`some` of that level, `Found` is true); `none` when the loop ends
with `Found` false. The read `FurLods[LODLevel - 1]` is in range because the
proxy has one `FFurData` more than `FFurLod`s. -/
def scanLods (FurLods : List (FFurLod K)) (ScreenRadiusSquared : K) : Nat → Option Nat
  | 0 => none
  | n + 1 =>
    match FurLods[n]? with
    | some lod =>
      if Square (lod.ScreenSize * (1 / 2)) > ScreenRadiusSquared then some (n + 1)
      else scanLods FurLods ScreenRadiusSquared n
    | none => scanLods FurLods ScreenRadiusSquared n

/-- The loop over the views of lines 80-117, from view `ViewIndex` on with the
current value of `NewLodLevel`. `Views` holds for each remaining view the value
`ScreenRadiusSquared` of line 87 (computed by the engine from the bounds, the
view and a console variable). The `break` of line 109 ends the loop with 0. -/
def lodViews (MinScreenSize : K) (FurLods : List (FFurLod K)) (FurDataNum : Nat)
    (VisibilityMap : Nat) : List K → Nat → Int → Int
  | [], _, NewLodLevel => NewLodLevel
  | ScreenRadiusSquared :: rest, ViewIndex, NewLodLevel =>
    if viewVisible VisibilityMap ViewIndex then
      if Square (MinScreenSize * (1 / 2)) < ScreenRadiusSquared then
        match scanLods FurLods ScreenRadiusSquared (FurDataNum - 1) with
        | some LODLevel =>
          lodViews MinScreenSize FurLods FurDataNum VisibilityMap rest (ViewIndex + 1)
            (min NewLodLevel LODLevel)
        | none => 0
      else
        lodViews MinScreenSize FurLods FurDataNum VisibilityMap rest (ViewIndex + 1)
          (min NewLodLevel 0x7fffffff)
    else
      lodViews MinScreenSize FurLods FurDataNum VisibilityMap rest (ViewIndex + 1) NewLodLevel

/-- Lines 79-118: the value of `NewLodLevel` after line 118. -/
def selectLod (p : FFurSceneProxy K) (MinScreenSize : K) (Views : List K)
    (VisibilityMap : Nat) : Int :=
  let NewLodLevel := lodViews MinScreenSize p.FurLods p.FurData.length VisibilityMap Views 0
    0x7fffffff
  min NewLodLevel ((p.FurData.length : Int) - 1)

/-- Lines 119-126: the bookkeeping done when the level changes. -/
def applyLod (p : FFurSceneProxy K) (NewLodLevel : Int) : FFurSceneProxy K :=
  if NewLodLevel ≠ p.CurrentFurLodLevel then
    { p with
      CurrentFurLodLevel := NewLodLevel
      CurrentMeshLodLevel := (p.FurData.getD NewLodLevel.toNat ⟨0, []⟩).Lod
      SectionOffset := forLoop NewLodLevel.toNat
        (fun i SectionOffset => SectionOffset + ((p.FurData.getD i ⟨0, []⟩).Sections.length : Int))
        0 }
  else p

/-- Lines 128-176: the mesh batches added to the collector, in the order of
the calls of `AddMesh`. -/
def submitBatches (p : FFurSceneProxy K) (NumViews : Nat) (VisibilityMap : Nat) :
    List FMeshBatch :=
  if p.CurrentFurLodLevel < (p.FurData.length : Int) then
    let Sections := (p.FurData.getD p.CurrentFurLodLevel.toNat ⟨0, []⟩).Sections
    forLoop Sections.length
      (fun sectionIdx batches =>
        let section_ := Sections.getD sectionIdx ⟨0, 0⟩
        if section_.NumTriangles = 0 then batches
        else
          forLoop NumViews
            (fun ViewIndex batches =>
              if viewVisible VisibilityMap ViewIndex then
                let MorphObject := p.FurMorphObjects.getD p.CurrentFurLodLevel.toNat none
                if MorphObject = some false then batches
                else
                  batches ++ [⟨ViewIndex, p.CurrentFurLodLevel, sectionIdx,
                    p.SectionOffset + (sectionIdx : Int), section_.NumTriangles⟩]
              else batches)
            batches)
      []
  else []

/-- The function `FFurSceneProxy::GetDynamicMeshElements` (lines 64-177): the
proxy after the call (its three `mutable` members may change) and the mesh
batches added to the collector. `MinScreenSize` is
`FurComponent->MinScreenSize`. -/
def GetDynamicMeshElements (p : FFurSceneProxy K) (MinScreenSize : K) (Views : List K)
    (VisibilityMap : Nat) : FFurSceneProxy K × List FMeshBatch :=
  let p := applyLod p (selectLod p MinScreenSize Views VisibilityMap)
  (p, submitBatches p Views.length VisibilityMap)

end Lod

/-! ## Notions used to state the properties -/

section SpecNotions

variable {K : Type} [LinearOrderedField K]

/-- The values `ScreenRadiusSquared` of the visible views among `Views`, in
view order; `ViewIndex` is the index of the first view of the list. -/
def visibleRadii (VisibilityMap : Nat) : List K → Nat → List K
  | [], _ => []
  | r :: rest, ViewIndex =>
    if viewVisible VisibilityMap ViewIndex then r :: visibleRadii VisibilityMap rest (ViewIndex + 1)
    else visibleRadii VisibilityMap rest (ViewIndex + 1)

/-- The test of line 98 for fur LOD level `LODLevel`: the level has an entry
`FurLods[LODLevel - 1]` and the square of half its `ScreenSize` is above
`ScreenRadiusSquared`. -/
def lodPasses (FurLods : List (FFurLod K)) (ScreenRadiusSquared : K) (LODLevel : Nat) : Prop :=
  1 ≤ LODLevel ∧ ∃ lod, FurLods[LODLevel - 1]? = some lod ∧
    Square (lod.ScreenSize * (1 / 2)) > ScreenRadiusSquared

/-- An engine in which a matrix is only a translation: `FMatrix` is its origin
and every rotation is the identity. It serves to evaluate the physics on
concrete inputs. -/
def translationEngine : FEngine K (FVector K) Unit where
  GetOrigin := fun m => m
  ToQuat := fun _ => ()
  QuatMul := fun _ _ => ()
  QuatInverse := fun _ => ()
  ToAxisAndAngle := fun _ => (⟨1, 0, 0⟩, 0)
  Identity := ⟨0, 0, 0⟩
  MatMul := fun a b => a + b
  RemoveScaling := fun m => m
  Inverse := fun m => (⟨0, 0, 0⟩ : FVector K) - m
  ApplyScaleZero := fun m => m

/-- The default physics settings of the constructor (lines 274-281) with the
given `LastDeltaTime`. -/
def defaultSettings (LastDeltaTime : K) : FurPhysicsSettings K where
  PhysicsEnabled := true
  ForceDistribution := 2
  Stiffness := 5
  Damping := 5
  ConstantForce := ⟨0, 0, -(98 / 10)⟩
  MaxForce := 10
  MaxForceTorqueFactor := 3 / 4
  ReferenceHairBias := 8 / 10
  LastDeltaTime := LastDeltaTime

end SpecNotions

section ExampleData

variable {K : Type} [LinearOrderedField K]

/-- Fur data with maximal and minimal fur length 1 and maximal distance of a
vertex to its bone 1: the reference fur length is 1 for every bias. -/
def unitLengths : FurDataLengths K := ⟨1, 1, 1⟩

/-- The default settings with zero constant force and the given
`LastDeltaTime`. -/
def zeroForceSettings (LastDeltaTime : K) : FurPhysicsSettings K where
  PhysicsEnabled := true
  ForceDistribution := 2
  Stiffness := 5
  Damping := 5
  ConstantForce := ⟨0, 0, 0⟩
  MaxForce := 10
  MaxForceTorqueFactor := 3 / 4
  ReferenceHairBias := 8 / 10
  LastDeltaTime := LastDeltaTime

/-- A frame at the origin with zero offsets and velocities. -/
def restFrame : RigidFrame K (FVector K) :=
  ⟨⟨0, 0, 0⟩, ⟨0, 0, 0⟩, ⟨0, 0, 0⟩, ⟨0, 0, 0⟩, ⟨0, 0, 0⟩⟩

end ExampleData

section TickData

variable {K M : Type} [LinearOrderedField K]

/-- The six tracked arrays of the component have the same length. The code
only ever resizes them together (lines 735-746). -/
def UGFurComponent.TrackedSameLength (C : UGFurComponent K M) : Prop :=
  C.Transformations.length = C.ReferenceToLocal.length
  ∧ C.LinearVelocities.length = C.ReferenceToLocal.length
  ∧ C.AngularVelocities.length = C.ReferenceToLocal.length
  ∧ C.LinearOffsets.length = C.ReferenceToLocal.length
  ∧ C.AngularOffsets.length = C.ReferenceToLocal.length

/-- A component as the constructor leaves it: default settings, no LODs, empty
tracked arrays, continuity not established. -/
def freshComponent : UGFurComponent K (FVector K) where
  toFurPhysicsSettings := defaultSettings 1
  LODs := []
  MasterBoneMap := []
  ReferenceToLocal := []
  Transformations := []
  LinearVelocities := []
  AngularVelocities := []
  LinearOffsets := []
  AngularOffsets := []
  StaticTransformation := ⟨0, 0, 0⟩
  StaticLinearOffset := ⟨0, 0, 0⟩
  StaticLinearVelocity := ⟨0, 0, 0⟩
  StaticAngularOffset := ⟨0, 0, 0⟩
  StaticAngularVelocity := ⟨0, 0, 0⟩
  OldPositionValid := false
  LastRevisionNumber := 0

/-- A skeletal mesh with two bones, both active at mesh LOD 0. -/
def twoBoneMesh : SkeletalMeshData (FVector K) where
  RefBasesInvMatrix := [⟨0, 0, 0⟩, ⟨-1, 0, 0⟩]
  RefSkeletonNum := 2
  GetParentIndex := fun i => (i : Int) - 1
  ActiveBoneIndices := [[0, 1]]

/-- A tick of the skinned path: a proxy at fur LOD level 0, the mesh
`twoBoneMesh`, no master pose component, the component at `(0, 0, 1)`. -/
def skinnedInput : TickInput K (FVector K) where
  HasSceneProxy := true
  CurrentFurLodLevel := 0
  CurrentMeshLodLevel := 0
  FurLengths := unitLengths
  ToWorld := ⟨0, 0, 1⟩
  SkeletalGrowMesh := some twoBoneMesh
  StaticGrowMesh := false
  MasterPoseComponent := none
  uninitM := fun _ => ⟨7, 7, 7⟩
  uninitV := fun _ => ⟨7, 7, 7⟩

/-- A tick of the static path: a proxy at fur LOD level 0, a static mesh, the
component at `(0, 0, 1)`. -/
def staticInput : TickInput K (FVector K) where
  HasSceneProxy := true
  CurrentFurLodLevel := 0
  CurrentMeshLodLevel := 0
  FurLengths := unitLengths
  ToWorld := ⟨0, 0, 1⟩
  SkeletalGrowMesh := none
  StaticGrowMesh := true
  MasterPoseComponent := none
  uninitM := fun _ => ⟨7, 7, 7⟩
  uninitV := fun _ => ⟨7, 7, 7⟩

end TickData

section LodData

variable {K : Type} [LinearOrderedField K]

/-- The fur data of a proxy with four fur LOD levels, one section of one
triangle each, on the mesh LODs 0 to 3. -/
def fourLevelFurData : List FurDataInfo :=
  [⟨0, [⟨1, 0⟩]⟩, ⟨1, [⟨1, 0⟩]⟩, ⟨2, [⟨1, 0⟩]⟩, ⟨3, [⟨1, 0⟩]⟩]

/-- Three `FFurLod`s with the screen sizes `0.5`, `0.2` and `0.05` for the fur
LOD levels 1, 2 and 3. -/
def threeFurLods : List (FFurLod K) :=
  [⟨1 / 2, 16, 1, true, false⟩, ⟨1 / 5, 8, 2, true, false⟩, ⟨1 / 20, 4, 3, true, false⟩]

/-- A proxy with four fur LOD levels and no morph objects, as constructed:
current level 0. -/
def fourLevelProxy : FFurSceneProxy K :=
  ⟨fourLevelFurData, threeFurLods, [none, none, none, none], 0, 0, 0⟩

/-- The proxy `fourLevelProxy` after a frame that selected level 3. -/
def fourLevelProxyAtThree : FFurSceneProxy K :=
  ⟨fourLevelFurData, threeFurLods, [none, none, none, none], 3, 3, 3⟩

end LodData

section SpecLod

variable {K : Type} [LinearOrderedField K]

/-- The final LOD index as the specification states it: the minimum of
`FurData.Num() - 1` and, over the visible views whose squared radius is above
the floor `(0.5 * MinScreenSize)^2`, of the index selected for that view alone
(the selection for a single visible view with that radius). A view below the
floor contributes no candidate, and there is no early exit. -/
def specFinalLod (p : FFurSceneProxy K) (MinScreenSize : K) (Views : List K)
    (VisibilityMap : Nat) : Int :=
  ((visibleRadii VisibilityMap Views 0).filter
      (fun r => decide (Square (MinScreenSize * (1 / 2)) < r))).foldr
    (fun r acc => min (selectLod p MinScreenSize [r] 1) acc)
    ((p.FurData.length : Int) - 1)

end SpecLod

section ClampData

variable {K : Type} [LinearOrderedField K]

end ClampData

section TickNotions

variable {K M Q : Type} [LinearOrderedField K]

/-- The matrix stored in `ReferenceToLocal[ThisBoneIndex]` by lines 825/831 and
845/851. -/
def boneReferenceToLocal (E : FEngine K M Q) (ThisMesh : SkeletalMeshData M)
    (T : List M × List Bool) (ThisBoneIndex : Nat) : M :=
  if T.2.getD ThisBoneIndex false then
    E.MatMul (ThisMesh.RefBasesInvMatrix.getD ThisBoneIndex E.Identity)
      (T.1.getD ThisBoneIndex E.Identity)
  else E.Identity

/-- A master pose with two bones, both visible, at revision 7. -/
def twoBoneMaster : MasterPose (FVector K) where
  ComponentSpaceTransforms := [⟨0, 0, 0⟩, ⟨1, 0, 0⟩]
  BoneVisibilityStates := [true, true]
  BoneTransformRevisionNumber := 7

/-- A tick of the skinned path with the master pose `twoBoneMaster`. -/
def masterInput : TickInput K (FVector K) where
  HasSceneProxy := true
  CurrentFurLodLevel := 0
  CurrentMeshLodLevel := 0
  FurLengths := unitLengths
  ToWorld := ⟨0, 0, 1⟩
  SkeletalGrowMesh := some twoBoneMesh
  StaticGrowMesh := false
  MasterPoseComponent := some twoBoneMaster
  uninitM := fun _ => ⟨7, 7, 7⟩
  uninitV := fun _ => ⟨7, 7, 7⟩

/-- A component whose bone map sends bone 0 to master bone 0 and leaves bone 1
unmapped; two tracked bones at rest, continuity established, last revision 6. -/
def halfMappedComponent : UGFurComponent K (FVector K) where
  toFurPhysicsSettings := defaultSettings 1
  LODs := []
  MasterBoneMap := [0, -1]
  ReferenceToLocal := [⟨0, 0, 0⟩, ⟨0, 0, 0⟩]
  Transformations := [⟨0, 0, 1⟩, ⟨1, 0, 1⟩]
  LinearVelocities := [⟨0, 0, 0⟩, ⟨0, 0, 0⟩]
  AngularVelocities := [⟨0, 0, 0⟩, ⟨0, 0, 0⟩]
  LinearOffsets := [⟨0, 0, 0⟩, ⟨0, 0, 0⟩]
  AngularOffsets := [⟨0, 0, 0⟩, ⟨0, 0, 0⟩]
  StaticTransformation := ⟨0, 0, 0⟩
  StaticLinearOffset := ⟨0, 0, 0⟩
  StaticLinearVelocity := ⟨0, 0, 0⟩
  StaticAngularOffset := ⟨0, 0, 0⟩
  StaticAngularVelocity := ⟨0, 0, 0⟩
  OldPositionValid := true
  LastRevisionNumber := 6

end TickNotions

/-! ## UpdateMasterBoneMap -/

/-- Engine type `FName`, as an entry of the name table. -/
abbrev FName := Nat

/-- What `UpdateMasterBoneMap` reads of a `USkeletalMesh`: the object itself
(its address, compared at line 946) and the bone names of its `RefSkeleton`,
in bone order. -/
structure SkeletalMeshSkeleton where
  Object : Nat
  BoneNames : List FName
deriving DecidableEq, Repr

/-- Engine function `FReferenceSkeleton::FindBoneIndex`: the index of the bone
with the given name, `INDEX_NONE = -1` when the skeleton has no such bone. (The
bone names of a skeleton are distinct.) -/
def FindBoneIndex (BoneNames : List FName) (BoneName : FName) : Int :=
  if BoneName ∈ BoneNames then (BoneNames.indexOf BoneName : Int) else -1

section MasterBoneMap

variable {K M : Type}

/-- The function `UGFurComponent::UpdateMasterBoneMap` (lines 936-963).
`SkeletalGrowMesh` is `none` for a null pointer; `MasterPoseComponent` is `none`
when the weak pointer is not valid and `some none` when the component has no
skeletal mesh. `uninit` is the content left by `AddUninitialized`. -/
def UpdateMasterBoneMap (SkeletalGrowMesh : Option SkeletalMeshSkeleton)
    (MasterPoseComponent : Option (Option SkeletalMeshSkeleton)) (uninit : Nat → Int)
    (C : UGFurComponent K M) : UGFurComponent K M :=
  let MasterBoneMap : List Int :=
    match SkeletalGrowMesh, MasterPoseComponent with
    | some GrowMesh, some (some ParentMesh) =>
      let MasterBoneMap : List Int := (List.range GrowMesh.BoneNames.length).map uninit
      if GrowMesh.Object = ParentMesh.Object then
        forLoop MasterBoneMap.length (fun i MasterBoneMap => MasterBoneMap.set i (i : Int))
          MasterBoneMap
      else
        forLoop MasterBoneMap.length
          (fun i MasterBoneMap =>
            let BoneName := GrowMesh.BoneNames.getD i 0
            MasterBoneMap.set i (FindBoneIndex ParentMesh.BoneNames BoneName))
          MasterBoneMap
    | _, _ => []
  { C with MasterBoneMap := MasterBoneMap }

end MasterBoneMap

/-- A skeleton of three bones named 10, 11, 12. -/
def growSkeleton : SkeletalMeshSkeleton := ⟨1, [10, 11, 12]⟩

/-- Another mesh, with three bones named 11, 10, 13. -/
def masterSkeleton : SkeletalMeshSkeleton := ⟨2, [11, 10, 13]⟩

/-! ## CreateMorphRemapTable -/

/-- Engine type `FVector4`. -/
structure FVector4 (K : Type) where
  X : K
  Y : K
  Z : K
  W : K
deriving DecidableEq, Repr

/-- What `CreateMorphRemapTable` reads of one vertex of a LOD: its position in
the position vertex buffer, its three tangent vectors and its UV channels in
the static mesh vertex buffer. -/
structure SkelVertex (K : Type) where
  Position : FVector K
  TangentX : FVector4 K
  TangentY : FVector4 K
  TangentZ : FVector4 K
  UVs : List (K × K)
deriving DecidableEq, Repr

/-- What `CreateMorphRemapTable` reads of a render section
`FSkelMeshRenderSection`. -/
structure FSkelMeshRenderSection where
  MaterialIndex : Nat
  BaseVertexIndex : Nat
  NumVertices : Nat
deriving DecidableEq, Repr

/-- What `CreateMorphRemapTable` reads of a `FSkeletalMeshLODRenderData`: the
render sections, the vertices (`GetNumVertices()` is their number) and
`GetNumTexCoords()`. -/
structure LodRenderData (K : Type) where
  RenderSections : List FSkelMeshRenderSection
  Vertices : List (SkelVertex K)
  NumTexCoords : Nat

/-- Engine class `FHashTable`, as the list of the pairs (key, index) added to
it, the last added first. -/
structure FHashTable where
  Entries : List (Nat × Nat)
deriving DecidableEq, Repr

/-- Engine function `FHashTable::Add`. -/
def FHashTable.Add (h : FHashTable) (Key Index : Nat) : FHashTable :=
  ⟨(Key, Index) :: h.Entries⟩

/-- The indices visited by the loop
`for (Idx = First(Key); IsValid(Idx); Idx = Next(Idx))` over an `FHashTable`:
the indices added under `Key`, the last added first. -/
def FHashTable.chain (h : FHashTable) (Key : Nat) : List Nat :=
  (h.Entries.filter (fun e => e.1 == Key)).map (fun e => e.2)

section MorphRemap

variable {K : Type} [LinearOrderedField K]

/-- The vertex `Index` of a LOD. The sections of a LOD lie inside its vertex
buffers; outside them the read yields a zero vertex here. -/
def LodRenderData.vertex (L : LodRenderData K) (Index : Nat) : SkelVertex K :=
  L.Vertices.getD Index ⟨⟨0, 0, 0⟩, ⟨0, 0, 0, 0⟩, ⟨0, 0, 0, 0⟩, ⟨0, 0, 0, 0⟩, []⟩

/-- Lines 991-1011: the bounding box `Min`, `Max` of the vertices of the
sections of the fur LOD. `FLT_MAX` is the constant of the C library. -/
def morphBounds (FLT_MAX : K) (LodModel : LodRenderData K) : FVector K × FVector K :=
  LodModel.RenderSections.foldl
    (fun B Section =>
      forLoop Section.NumVertices
        (fun t B =>
          let Position := (LodModel.vertex (Section.BaseVertexIndex + t)).Position
          let Min := B.1
          let Max := B.2
          let Min : FVector K := ⟨if Position.X < Min.X then Position.X else Min.X, Min.Y, Min.Z⟩
          let Min : FVector K := ⟨Min.X, if Position.Y < Min.Y then Position.Y else Min.Y, Min.Z⟩
          let Min : FVector K := ⟨Min.X, Min.Y, if Position.Z < Min.Z then Position.Z else Min.Z⟩
          let Max : FVector K := ⟨if Position.X > Max.X then Position.X else Max.X, Max.Y, Max.Z⟩
          let Max : FVector K := ⟨Max.X, if Position.Y > Max.Y then Position.Y else Max.Y, Max.Z⟩
          let Max : FVector K := ⟨Max.X, Max.Y, if Position.Z > Max.Z then Position.Z else Max.Z⟩
          (Min, Max))
        B)
    (⟨FLT_MAX, FLT_MAX, FLT_MAX⟩, ⟨-FLT_MAX, -FLT_MAX, -FLT_MAX⟩)

/-- The lambda `Hash` of lines 1014-1017. `V` is the quotient of the two
vectors, coordinate by coordinate; `toUInt16` is the conversion `(uint16)` of a
`float`. -/
def morphHash (toUInt16 : K → Nat) (Min Max Position : FVector K) : Nat :=
  let V : FVector K :=
    ⟨(Position.X - Min.X) / (Max.X - Min.X), (Position.Y - Min.Y) / (Max.Y - Min.Y),
     (Position.Z - Min.Z) / (Max.Z - Min.Z)⟩
  toUInt16 (V.X * (64 * 1024) + V.Y * (64 * 1024) + V.Y * (64 * 1024))

/-- The test of the lambda `Compare` of lines 1046-1062 for the master vertex
`i` and the fur vertex `Index`: equal position, equal tangents, and equal UVs
in the channels below `UVCount`. -/
def morphCompare (UVCount : Nat) (MasterLodModel LodModel : LodRenderData K) (i Index : Nat) :
    Bool :=
  let mv := MasterLodModel.vertex i
  let v := LodModel.vertex Index
  if mv.Position = v.Position ∧ mv.TangentX = v.TangentX ∧ mv.TangentY = v.TangentY
      ∧ mv.TangentZ = v.TangentZ then
    (List.range UVCount).all (fun k => decide (mv.UVs.getD k (0, 0) = v.UVs.getD k (0, 0)))
  else false

/-- The loop of lines 1064-1068 for the master vertex `i` over the indices of a
chain of the hash table: the first index that passes `Compare` is stored in
`MorphRemapTable[i]` and ends the loop. -/
def morphTryChain (UVCount : Nat) (MasterLodModel LodModel : LodRenderData K) (i : Nat) :
    List Nat → List Int → List Int
  | [], MorphRemapTable => MorphRemapTable
  | Idx :: rest, MorphRemapTable =>
    if morphCompare UVCount MasterLodModel LodModel i Idx then MorphRemapTable.set i (Idx : Int)
    else morphTryChain UVCount MasterLodModel LodModel i rest MorphRemapTable

/-- Lines 1019-1029: one hash table for each section of the fur LOD, holding
the indices of the vertices of the section under the hash of their position. -/
def morphHashTables (Hash : FVector K → Nat) (LodModel : LodRenderData K) : List FHashTable :=
  LodModel.RenderSections.map (fun Section =>
    forLoop Section.NumVertices
      (fun t hashTable =>
        hashTable.Add (Hash (LodModel.vertex (Section.BaseVertexIndex + t)).Position)
          (Section.BaseVertexIndex + t))
      ⟨[]⟩)

/-- Lines 985-1092: the table built for one LOD, from an empty table. `uninit`
is the content left by `AddUninitialized`. -/
def buildMorphRemapTable (FLT_MAX : K) (toUInt16 : K → Nat) (uninit : Nat → Int)
    (MasterLodModel LodModel : LodRenderData K) : List Int :=
  let MorphRemapTable : List Int := (List.range MasterLodModel.Vertices.length).map uninit
  let MorphRemapTable :=
    forLoop MasterLodModel.Vertices.length (fun i table => table.set i (-1)) MorphRemapTable
  let UVCount := min MasterLodModel.NumTexCoords LodModel.NumTexCoords
  let B := morphBounds FLT_MAX LodModel
  let Hash := morphHash toUInt16 B.1 B.2
  let HashTables := morphHashTables Hash LodModel
  MasterLodModel.RenderSections.foldl
    (fun MorphRemapTable MasterSection =>
      forLoop LodModel.RenderSections.length
        (fun SectionIndex MorphRemapTable =>
          let Section := LodModel.RenderSections.getD SectionIndex ⟨0, 0, 0⟩
          if MasterSection.MaterialIndex = Section.MaterialIndex then
            let hashTable := HashTables.getD SectionIndex ⟨[]⟩
            forLoop MasterSection.NumVertices
              (fun t MorphRemapTable =>
                let i := MasterSection.BaseVertexIndex + t
                morphTryChain UVCount MasterLodModel LodModel i
                  (hashTable.chain (Hash (MasterLodModel.vertex i).Position)) MorphRemapTable)
              MorphRemapTable
          else MorphRemapTable)
        MorphRemapTable)
    MorphRemapTable

/-- The function `UGFurComponent::CreateMorphRemapTable` (lines 965-1093), on
the member `MorphRemapTables`. `MasterMesh` is the render resource of the mesh
of the master component (`none` for a null pointer: the `check` of line 972
fails and the result is `none`), `Mesh` that of the fur mesh; both as the list
of their `LODRenderData`. -/
def CreateMorphRemapTable (FLT_MAX : K) (toUInt16 : K → Nat) (uninit : Nat → Int)
    (MasterMesh : Option (List (LodRenderData K))) (Mesh : List (LodRenderData K))
    (InLod : Nat) (MorphRemapTables : List (List Int)) : Option (List (List Int)) :=
  let MorphRemapTable := MorphRemapTables.getD InLod []
  if MorphRemapTable.length > 0 then some MorphRemapTables
  else
    match MasterMesh with
    | none => none
    | some MasterLODRenderData =>
      let MasterLodModel := MasterLODRenderData.getD InLod ⟨[], [], 0⟩
      let LodModel := Mesh.getD InLod ⟨[], [], 0⟩
      some (MorphRemapTables.set InLod
        (buildMorphRemapTable FLT_MAX toUInt16 uninit MasterLodModel LodModel))

/-- The master vertex `i` and the fur vertex `j` agree in position, in the
three tangent vectors and in the UV channels below `UVCount`. -/
def verticesMatch (UVCount : Nat) (MasterLodModel LodModel : LodRenderData K) (i j : Nat) :
    Prop :=
  (MasterLodModel.vertex i).Position = (LodModel.vertex j).Position
  ∧ (MasterLodModel.vertex i).TangentX = (LodModel.vertex j).TangentX
  ∧ (MasterLodModel.vertex i).TangentY = (LodModel.vertex j).TangentY
  ∧ (MasterLodModel.vertex i).TangentZ = (LodModel.vertex j).TangentZ
  ∧ ∀ k, k < UVCount →
      (MasterLodModel.vertex i).UVs.getD k (0, 0) = (LodModel.vertex j).UVs.getD k (0, 0)

/-- The vertex index `i` lies in the section `S`. -/
def FSkelMeshRenderSection.contains (S : FSkelMeshRenderSection) (i : Nat) : Prop :=
  S.BaseVertexIndex ≤ i ∧ i < S.BaseVertexIndex + S.NumVertices

/-- An entry `v` of the table at the master vertex `i` is sound: it is `-1`, or
the index of a fur vertex that matches the master vertex and lies in a fur
section with the material index of a master section that contains `i`. -/
def entrySound (MasterLodModel LodModel : LodRenderData K) (i : Nat) (v : Int) : Prop :=
  v = -1 ∨ ∃ j : Nat, v = (j : Int)
    ∧ verticesMatch (min MasterLodModel.NumTexCoords LodModel.NumTexCoords)
        MasterLodModel LodModel i j
    ∧ ∃ MasterSection ∈ MasterLodModel.RenderSections, ∃ Section ∈ LodModel.RenderSections,
        MasterSection.MaterialIndex = Section.MaterialIndex
        ∧ MasterSection.contains i ∧ Section.contains j

end MorphRemap

section MorphData

variable {K : Type} [LinearOrderedField K]

/-- A vertex at `(x, 0, 0)` with fixed tangents and one UV channel. -/
def sampleVertex (x : K) : SkelVertex K :=
  ⟨⟨x, 0, 0⟩, ⟨1, 0, 0, 0⟩, ⟨0, 1, 0, 0⟩, ⟨0, 0, 1, 1⟩, [(0, 0)]⟩

/-- A master LOD with one section of material 0 and the vertices at `x = 0`,
`x = 1` and `x = 5`. -/
def sampleMasterLod : LodRenderData K :=
  ⟨[⟨0, 0, 3⟩], [sampleVertex 0, sampleVertex 1, sampleVertex 5], 1⟩

/-- A fur LOD with one section of material 0 and the vertices at `x = 1` and
`x = 0`. -/
def sampleFurLod : LodRenderData K :=
  ⟨[⟨0, 0, 2⟩], [sampleVertex 1, sampleVertex 0], 1⟩

end MorphData

section BookkeepingNotions

variable {K : Type} [LinearOrderedField K]

/-- The sum of the section counts of the fur LOD levels with index below
`level`. -/
def sectionsBelow (FurData : List FurDataInfo) (level : Int) : Int :=
  ((FurData.take level.toNat).map (fun d => (d.Sections.length : Int))).sum

/-- The bookkeeping of the proxy is consistent: the current fur LOD level is an
index of `FurData`, `SectionOffset` is the sum of the section counts of the
levels below it, and `CurrentMeshLodLevel` is the mesh LOD of its fur data. -/
def lodBookkeeping (p : FFurSceneProxy K) : Prop :=
  0 ≤ p.CurrentFurLodLevel ∧ p.CurrentFurLodLevel < (p.FurData.length : Int)
  ∧ p.SectionOffset = sectionsBelow p.FurData p.CurrentFurLodLevel
  ∧ ∃ d, p.FurData[p.CurrentFurLodLevel.toNat]? = some d ∧ p.CurrentMeshLodLevel = d.Lod

/-- The proxy after successive calls of `GetDynamicMeshElements`, one per frame;
a frame gives `MinScreenSize`, the values `ScreenRadiusSquared` of the views and
the visibility map. -/
def renderFrames (p : FFurSceneProxy K) : List (K × List K × Nat) → FFurSceneProxy K
  | [] => p
  | frame :: rest =>
    renderFrames (GetDynamicMeshElements p frame.1 frame.2.1 frame.2.2).1 rest

end BookkeepingNotions

section AngularNotions

variable {K M Q : Type} [LinearOrderedField K]

/-- Lines 706-710: the axis and the angle of the rotation from the stored
transformation to the new one, the angle lowered by `2 * PI` when it is above
`PI`. -/
def relativeAxisAngle (F : FMath K) (E : FEngine K M Q) (NewTransformation : M)
    (s : RigidFrame K M) : FVector K × K :=
  let rdiff := E.QuatMul (E.ToQuat NewTransformation) (E.QuatInverse (E.ToQuat s.Transformation))
  let d := (E.ToAxisAndAngle rdiff).1
  let angle := (E.ToAxisAndAngle rdiff).2
  (d, if angle > F.PI then angle - 2 * F.PI else angle)

/-- The locals with which the linear channel is read as an angular channel: no
external force, and `MaxTorque` in place of `MaxForceFinal`. -/
def torqueLocals (P : PhysicsLocals K) : PhysicsLocals K :=
  { P with FurForceFinal := ⟨0, 0, 0⟩, MaxForceFinal := P.MaxTorque }

/-- The angular update as the specification states it: the update of the linear
channel (the forcing term subtracted from the offset, the harmonic step, the
clamp with the removal of the outward velocity) with the forcing term
`a * angle * ForceFactor`, no external force and `MaxTorque` as the bound. -/
def specAngularUpdate (F : FMath K) (P : PhysicsLocals K) (a : FVector K) (angle : K)
    (AngularOffset AngularVelocity : FVector K) : FVector K × FVector K :=
  let forced := AngularOffset - a * (angle * P.ForceFactor)
  let new := linearHarmonic F (torqueLocals P) forced AngularVelocity
  linearClamp F (torqueLocals P) new.1 new.2

/-- The angular update stated through the linear channel with the sign and the
clamp of the code: the forcing term subtracted is `a * (-angle * ForceFactor)`,
the harmonic step is the one of the linear channel with no external force, the
offset is the clamped offset of the linear channel with `MaxTorque` as the
bound, and the velocity is the one of the harmonic step. -/
def mirroredAngularUpdate (F : FMath K) (P : PhysicsLocals K) (a : FVector K) (angle : K)
    (AngularOffset AngularVelocity : FVector K) : FVector K × FVector K :=
  let forced := AngularOffset - a * (-angle * P.ForceFactor)
  let new := linearHarmonic F (torqueLocals P) forced AngularVelocity
  ((linearClamp F (torqueLocals P) new.1 new.2).1, new.2)

/-- An engine in which a matrix is a translation and a rotation about the X
axis, given by its origin and its angle; a quaternion is the angle. It serves
to evaluate the angular channel on concrete inputs. -/
def axisEngine : FEngine K (FVector K × K) K where
  GetOrigin := fun m => m.1
  ToQuat := fun m => m.2
  QuatMul := fun a b => a + b
  QuatInverse := fun a => -a
  ToAxisAndAngle := fun q => (⟨1, 0, 0⟩, q)
  Identity := (⟨0, 0, 0⟩, 0)
  MatMul := fun a b => (a.1 + b.1, a.2 + b.2)
  RemoveScaling := fun m => m
  Inverse := fun m => ((⟨0, 0, 0⟩ : FVector K) - m.1, -m.2)
  ApplyScaleZero := fun m => m

/-- A frame of `axisEngine` at the origin, not rotated, with zero offsets and
velocities. -/
def axisRestFrame : RigidFrame K (FVector K × K) :=
  ⟨(⟨0, 0, 0⟩, 0), ⟨0, 0, 0⟩, ⟨0, 0, 0⟩, ⟨0, 0, 0⟩, ⟨0, 0, 0⟩⟩

/-- A frame of `axisEngine` at the origin, not rotated, with angular offset
`(20, 0, 0)` and angular velocity `(1, 0, 0)`. -/
def axisSpinningFrame : RigidFrame K (FVector K × K) :=
  ⟨(⟨0, 0, 0⟩, 0), ⟨0, 0, 0⟩, ⟨0, 0, 0⟩, ⟨20, 0, 0⟩, ⟨1, 0, 0⟩⟩

end AngularNotions

/-! # Theorems -/

/-! ## Lemmas on vectors and library functions -/

section VectorLemmas

variable {K : Type} [LinearOrderedField K]

theorem FVector.add_def (a b : FVector K) : a + b = ⟨a.X + b.X, a.Y + b.Y, a.Z + b.Z⟩ := rfl
theorem FVector.sub_def (a b : FVector K) : a - b = ⟨a.X - b.X, a.Y - b.Y, a.Z - b.Z⟩ := rfl
theorem FVector.mul_def (a : FVector K) (s : K) : a * s = ⟨a.X * s, a.Y * s, a.Z * s⟩ := rfl
theorem FVector.div_def (a : FVector K) (s : K) : a / s = ⟨a.X / s, a.Y / s, a.Z / s⟩ := rfl

theorem FVector.dot_self_nonneg (a : FVector K) : 0 ≤ FVector.DotProduct a a := by
  unfold FVector.DotProduct
  nlinarith [mul_self_nonneg a.X, mul_self_nonneg a.Y, mul_self_nonneg a.Z]

theorem FVector.size_mul_self {F : FMath K} (hF : F.Laws) (a : FVector K) :
    a.Size F * a.Size F = FVector.DotProduct a a :=
  hF.sqrt_mul_self _ (FVector.dot_self_nonneg a)

end VectorLemmas

section PhysicsTheorems

variable {K M Q : Type} [LinearOrderedField K]

end PhysicsTheorems

section RealMath

/-- The real sine, cosine, square root and power satisfy `FMath.Laws`. -/
theorem real_laws :
    FMath.Laws (⟨Real.sin, Real.cos, Real.sqrt, fun a b => a ^ b, Real.pi⟩ : FMath ℝ) where
  sin_sq_add_cos_sq := fun x => by
    have := Real.sin_sq_add_cos_sq x
    simpa [sq] using this
  sqrt_nonneg := fun a => Real.sqrt_nonneg a
  sqrt_mul_self := fun a ha => Real.mul_self_sqrt ha
  powf_nonneg := fun b t hb => Real.rpow_nonneg hb t
  powf_le_one := fun b t hb hb1 ht => Real.rpow_le_one hb hb1 ht
  powf_one_base := fun t => Real.one_rpow t

end RealMath

section PhysicsTheorems2

variable {K M Q : Type} [LinearOrderedField K]

end PhysicsTheorems2

section PhysicsTheorems3

variable {K M Q : Type} [LinearOrderedField K]

end PhysicsTheorems3

section ScenarioOne

variable {K M Q : Type} [LinearOrderedField K]

/-- The cosine of the library is at most 1 in absolute value. -/
theorem FMath.Laws.cos_mem {F : FMath K} (hF : F.Laws) (x : K) :
    -1 ≤ F.Cos x ∧ F.Cos x ≤ 1 := by
  have h := hF.sin_sq_add_cos_sq x
  constructor <;> nlinarith [mul_self_nonneg (F.Sin x), mul_self_nonneg (F.Cos x)]

/-- C6. Scenario 1: stiffness 5, damping 5, delta time `1/60`, constant force
`(0, 0, -9.8)`, max force 10, reference fur length 1, zero linear offset and
velocity, frame origin unmoved. Then the external force is `(0, 0, -1.96)`,
`x = 1/12`, the damping factor is `(1/6)^(1/60)`, `MaxForceFinal = 10`, the
clamp does not fire, and one physics step yields the linear offset
`externalForce * (1 - dampingFactor * cos x)`. -/
theorem C6_scenario_one (F : FMath K) (hF : F.Laws) (E : FEngine K M Q)
    (C : FurPhysicsSettings K) (L : FurDataLengths K) (NewTransformation : M)
    (s : RigidFrame K M)
    (hS : C.Stiffness = 5) (hD : C.Damping = 5) (hdt : C.LastDeltaTime = 1 / 60)
    (hCF : C.ConstantForce = ⟨0, 0, -(98 / 10)⟩) (hMF : C.MaxForce = 10)
    (hRef : L.CurrentMaxFurLength * C.ReferenceHairBias
      + L.CurrentMinFurLength * (1 - C.ReferenceHairBias) = 1)
    (hstill : E.GetOrigin NewTransformation = E.GetOrigin s.Transformation)
    (ho : s.LinearOffset = ⟨0, 0, 0⟩) (hv : s.LinearVelocity = ⟨0, 0, 0⟩) :
    (physicsLocals F C L).FurForceFinal = ⟨0, 0, -(196 / 100)⟩
    ∧ (physicsLocals F C L).x = 1 / 12
    ∧ (physicsLocals F C L).DampingFactor = F.Powf (1 / 6) (1 / 60)
    ∧ (physicsLocals F C L).MaxForceFinal = 10
    ∧ ¬ ((linearHarmonic F (physicsLocals F C L)
          (linearForced E (physicsLocals F C L) NewTransformation s) s.LinearVelocity).1.Size F
        > (physicsLocals F C L).MaxForceFinal)
    ∧ (Physics F E (physicsLocals F C L) NewTransformation s).LinearOffset
      = (⟨0, 0, -(196 / 100)⟩ : FVector K) * (1 - F.Powf (1 / 6) (1 / 60) * F.Cos (1 / 12)) := by
  have hP : physicsLocals F C L
      = ⟨1 / 60, 1, 1, 5, F.Powf (1 / 6) (1 / 60), 10,
          C.MaxForceTorqueFactor * 10 / L.MaxVertexBoneDistance, ⟨0, 0, -(196 / 100)⟩, 1 / 12⟩ := by
    have e1 : min (1 / 60 : K) 1 = 1 / 60 := min_eq_left (by norm_num)
    have e2 : max (1 / 100000 : K) 1 = 1 := max_eq_right (by norm_num)
    have e3 : max (5 : K) (1 / 1000000) = 5 := max_eq_left (by norm_num)
    have e4 : (1 : K) - 5 / (5 + 1) = 1 / 6 := by norm_num
    simp only [physicsLocals, hS, hD, hdt, hCF, hMF, hRef, e1, e2, e3, e4, hF.powf_one_base,
      FVector.mul_def, FVector.div_def]
    norm_num
  have hD01 : 0 ≤ F.Powf (1 / 6) (1 / 60) ∧ F.Powf (1 / 6) (1 / 60) ≤ 1 :=
    ⟨hF.powf_nonneg _ _ (by norm_num), hF.powf_le_one _ _ (by norm_num) (by norm_num) (by norm_num)⟩
  obtain ⟨hc0, hc1⟩ := hF.cos_mem (1 / 12)
  have hnew : (linearHarmonic F (physicsLocals F C L)
      (linearForced E (physicsLocals F C L) NewTransformation s) s.LinearVelocity).1
      = (⟨0, 0, -(196 / 100)⟩ : FVector K) * (1 - F.Powf (1 / 6) (1 / 60) * F.Cos (1 / 12)) := by
    rw [hP]
    simp only [linearHarmonic, linearForced, hstill, ho, hv, FVector.sub_def, FVector.mul_def,
      FVector.add_def]
    congr 1 <;> ring
  have hsize : ¬ ((linearHarmonic F (physicsLocals F C L)
      (linearForced E (physicsLocals F C L) NewTransformation s) s.LinearVelocity).1.Size F
      > (physicsLocals F C L).MaxForceFinal) := by
    rw [hnew, hP]
    intro hgt
    have hsq := FVector.size_mul_self hF
      ((⟨0, 0, -(196 / 100)⟩ : FVector K) * (1 - F.Powf (1 / 6) (1 / 60) * F.Cos (1 / 12)))
    simp only [FVector.DotProduct, FVector.mul_def] at hsq
    have hgt2 : (10 : K) < FVector.Size F ((⟨0, 0, -(196 / 100)⟩ : FVector K)
        * (1 - F.Powf (1 / 6) (1 / 60) * F.Cos (1 / 12))) := hgt
    simp only [FVector.mul_def] at hgt2
    have hb : -1 ≤ F.Powf (1 / 6) (1 / 60) * F.Cos (1 / 12)
        ∧ F.Powf (1 / 6) (1 / 60) * F.Cos (1 / 12) ≤ 1 := by
      constructor <;> nlinarith
    nlinarith [hb.1, hb.2]
  refine ⟨by rw [hP], by rw [hP], by rw [hP], by rw [hP], hsize, ?_⟩
  simp only [Physics, linearClamp, if_neg hsize]
  exact hnew

/-- Witness of C6 over the reals, with the default settings of the constructor
and an engine of pure translations. -/
theorem C6_scenario_one_witness :
    (defaultSettings (1 / 60) : FurPhysicsSettings ℝ).Stiffness = 5
    ∧ (defaultSettings (1 / 60) : FurPhysicsSettings ℝ).Damping = 5
    ∧ (defaultSettings (1 / 60) : FurPhysicsSettings ℝ).LastDeltaTime = 1 / 60
    ∧ (defaultSettings (1 / 60) : FurPhysicsSettings ℝ).ConstantForce = ⟨0, 0, -(98 / 10)⟩
    ∧ (defaultSettings (1 / 60) : FurPhysicsSettings ℝ).MaxForce = 10
    ∧ (unitLengths : FurDataLengths ℝ).CurrentMaxFurLength
          * (defaultSettings (1 / 60) : FurPhysicsSettings ℝ).ReferenceHairBias
        + (unitLengths : FurDataLengths ℝ).CurrentMinFurLength
          * (1 - (defaultSettings (1 / 60) : FurPhysicsSettings ℝ).ReferenceHairBias) = 1
    ∧ (Physics (⟨Real.sin, Real.cos, Real.sqrt, fun a b => a ^ b, Real.pi⟩ : FMath ℝ)
          translationEngine
          (physicsLocals (⟨Real.sin, Real.cos, Real.sqrt, fun a b => a ^ b, Real.pi⟩ : FMath ℝ)
            (defaultSettings (1 / 60)) unitLengths)
          ⟨0, 0, 0⟩ restFrame).LinearOffset
        = (⟨0, 0, -(196 / 100)⟩ : FVector ℝ)
          * (1 - (1 / 6 : ℝ) ^ (1 / 60 : ℝ) * Real.cos (1 / 12)) :=
  have hRef : (unitLengths : FurDataLengths ℝ).CurrentMaxFurLength
        * (defaultSettings (1 / 60) : FurPhysicsSettings ℝ).ReferenceHairBias
      + (unitLengths : FurDataLengths ℝ).CurrentMinFurLength
        * (1 - (defaultSettings (1 / 60) : FurPhysicsSettings ℝ).ReferenceHairBias) = 1 := by
    simp [unitLengths, defaultSettings]
  ⟨rfl, rfl, rfl, rfl, rfl, hRef,
    (C6_scenario_one _ real_laws translationEngine (defaultSettings (1 / 60)) unitLengths
      ⟨0, 0, 0⟩ restFrame rfl rfl rfl rfl rfl hRef rfl rfl rfl).2.2.2.2.2⟩

end ScenarioOne

section LoopLemmas

/-- A loop whose body stores `val i` at index `i` of a list keeps its length. -/
theorem forLoop_set_length {σ α : Type} (get : σ → List α) (body : Nat → σ → σ)
    (val : Nat → α) (hbody : ∀ i s, get (body i s) = (get s).set i (val i)) (n : Nat) (s : σ) :
    (get (forLoop n body s)).length = (get s).length := by
  induction n with
  | zero => rfl
  | succ k ih => simp only [forLoop, hbody, List.length_set, ih]

/-- A loop whose body stores `val i` at index `i` of a list: the entries after
`n` iterations. -/
theorem forLoop_set_getElem? {σ α : Type} (get : σ → List α) (body : Nat → σ → σ)
    (val : Nat → α) (hbody : ∀ i s, get (body i s) = (get s).set i (val i)) (n : Nat) (s : σ)
    (j : Nat) :
    (get (forLoop n body s))[j]?
      = if j < n then (if j < (get s).length then some (val j) else none) else (get s)[j]? := by
  induction n with
  | zero => simp [forLoop]
  | succ k ih =>
    simp only [forLoop, hbody, List.getElem?_set, forLoop_set_length get body val hbody, ih]
    by_cases hkj : k = j
    · subst hkj; simp
    · simp only [if_neg hkj]
      by_cases hjk : j < k
      · simp [hjk, Nat.lt_succ_of_lt hjk]
      · have : ¬ j < k + 1 := by omega
        simp [hjk, this]

/-- A loop over all the indices of a list whose body stores `val i` at index
`i` leaves the list of the values `val 0, ..., val (n - 1)`. -/
theorem forLoop_set_all {σ α : Type} (get : σ → List α) (body : Nat → σ → σ)
    (val : Nat → α) (hbody : ∀ i s, get (body i s) = (get s).set i (val i)) (n : Nat) (s : σ)
    (hlen : (get s).length = n) :
    get (forLoop n body s) = (List.range n).map val := by
  apply List.ext_getElem?
  intro j
  rw [forLoop_set_getElem? get body val hbody, hlen, List.getElem?_map]
  by_cases hj : j < n
  · simp [hj, List.getElem?_range hj]
  · have h1 : (get s)[j]? = none := List.getElem?_eq_none (by omega)
    have h2 : (List.range n)[j]? = none := List.getElem?_eq_none (by simp; omega)
    simp [hj, h1, h2]

end LoopLemmas

section ResetTheorems

variable {K M Q : Type} [LinearOrderedField K]

/-- The reset loop of lines 841-860 over all the bones: every offset and
velocity is zero, every transformation is the new transformation of its bone,
and the array of reference-to-local matrices keeps its length. -/
theorem resetLoop_spec (E : FEngine K M Q) (I : TickInput K M) (ThisMesh : SkeletalMeshData M)
    (T : List M × List Bool) (C : UGFurComponent K M) (h : C.TrackedSameLength) :
    (forLoop C.ReferenceToLocal.length (resetBone E I ThisMesh T) C).LinearOffsets
        = List.replicate C.ReferenceToLocal.length ⟨0, 0, 0⟩
    ∧ (forLoop C.ReferenceToLocal.length (resetBone E I ThisMesh T) C).LinearVelocities
        = List.replicate C.ReferenceToLocal.length ⟨0, 0, 0⟩
    ∧ (forLoop C.ReferenceToLocal.length (resetBone E I ThisMesh T) C).AngularOffsets
        = List.replicate C.ReferenceToLocal.length ⟨0, 0, 0⟩
    ∧ (forLoop C.ReferenceToLocal.length (resetBone E I ThisMesh T) C).AngularVelocities
        = List.replicate C.ReferenceToLocal.length ⟨0, 0, 0⟩
    ∧ (forLoop C.ReferenceToLocal.length (resetBone E I ThisMesh T) C).Transformations
        = (List.range C.ReferenceToLocal.length).map (boneNewTransformation E I T)
    ∧ (forLoop C.ReferenceToLocal.length (resetBone E I ThisMesh T) C).ReferenceToLocal.length
        = C.ReferenceToLocal.length := by
  obtain ⟨hT, hLV, hAV, hLO, hAO⟩ := h
  have hconst : ∀ n : Nat, (List.range n).map (fun _ => (⟨0, 0, 0⟩ : FVector K))
      = List.replicate n ⟨0, 0, 0⟩ := by
    intro n; simp [List.map_const']
  refine ⟨?_, ?_, ?_, ?_, ?_, ?_⟩
  · rw [← hconst]
    exact forLoop_set_all UGFurComponent.LinearOffsets _ _ (fun _ _ => rfl) _ _ hLO
  · rw [← hconst]
    exact forLoop_set_all UGFurComponent.LinearVelocities _ _ (fun _ _ => rfl) _ _ hLV
  · rw [← hconst]
    exact forLoop_set_all UGFurComponent.AngularOffsets _ _ (fun _ _ => rfl) _ _ hAO
  · rw [← hconst]
    exact forLoop_set_all UGFurComponent.AngularVelocities _ _ (fun _ _ => rfl) _ _ hAV
  · exact forLoop_set_all UGFurComponent.Transformations _ _ (fun _ _ => rfl) _ _ hT
  · exact forLoop_set_length UGFurComponent.ReferenceToLocal _
      (fun i => if T.2.getD i false then
          E.MatMul (ThisMesh.RefBasesInvMatrix.getD i E.Identity) (T.1.getD i E.Identity)
        else E.Identity)
      (fun _ _ => rfl) _ _

/-- The skinned path on a tick that resizes the arrays, or that starts without
continuity and with arrays of equal length: the tick succeeds, marks
continuity, and leaves every bone with zero offsets and velocities and its new
transformation. -/
theorem updateFurSkinned_reset (F : FMath K) (E : FEngine K M Q) (P : PhysicsLocals K)
    (I : TickInput K M) (ThisMesh : SkeletalMeshData M) (C : UGFurComponent K M)
    (hN : ThisMesh.RefBasesInvMatrix.length ≠ 0)
    (h : C.ReferenceToLocal.length ≠ ThisMesh.RefBasesInvMatrix.length
      ∨ (C.OldPositionValid = false ∧ C.TrackedSameLength)) :
    ∃ C1, updateFurSkinned F E P I ThisMesh C = some C1
      ∧ C1.OldPositionValid = true
      ∧ C1.LinearOffsets = List.replicate ThisMesh.RefBasesInvMatrix.length ⟨0, 0, 0⟩
      ∧ C1.LinearVelocities = List.replicate ThisMesh.RefBasesInvMatrix.length ⟨0, 0, 0⟩
      ∧ C1.AngularOffsets = List.replicate ThisMesh.RefBasesInvMatrix.length ⟨0, 0, 0⟩
      ∧ C1.AngularVelocities = List.replicate ThisMesh.RefBasesInvMatrix.length ⟨0, 0, 0⟩
      ∧ C1.Transformations = (List.range ThisMesh.RefBasesInvMatrix.length).map
          (boneNewTransformation E I
            (fillTempMatrices E I ThisMesh ThisMesh.RefBasesInvMatrix.length C.MasterBoneMap))
      ∧ C1.ReferenceToLocal.length = ThisMesh.RefBasesInvMatrix.length := by
  by_cases hm : C.ReferenceToLocal.length ≠ ThisMesh.RefBasesInvMatrix.length
  · -- the arrays are resized and continuity is dropped
    have hlen : (resetArrays I ThisMesh.RefBasesInvMatrix.length C).ReferenceToLocal.length
        = ThisMesh.RefBasesInvMatrix.length := by simp [resetArrays]
    have hwf : (resetArrays I ThisMesh.RefBasesInvMatrix.length C).TrackedSameLength := by
      simp [UGFurComponent.TrackedSameLength, resetArrays]
    obtain ⟨h1, h2, h3, h4, h5, h6⟩ := resetLoop_spec E I ThisMesh
      (fillTempMatrices E I ThisMesh ThisMesh.RefBasesInvMatrix.length C.MasterBoneMap)
      (resetArrays I ThisMesh.RefBasesInvMatrix.length C) hwf
    rw [hlen] at h1 h2 h3 h4 h5 h6
    refine ⟨{ forLoop ThisMesh.RefBasesInvMatrix.length
        (resetBone E I ThisMesh
          (fillTempMatrices E I ThisMesh ThisMesh.RefBasesInvMatrix.length C.MasterBoneMap))
        (resetArrays I ThisMesh.RefBasesInvMatrix.length C) with OldPositionValid := true },
      ?_, rfl, h1, h2, h3, h4, h5, h6⟩
    simp only [updateFurSkinned, if_neg hN, if_pos hm, hlen]
    simp [resetArrays]
  · have hm2 : C.ReferenceToLocal.length = ThisMesh.RefBasesInvMatrix.length := not_not.mp hm
    rcases h with h | ⟨hv, hwf⟩
    · exact absurd h hm
    · obtain ⟨h1, h2, h3, h4, h5, h6⟩ := resetLoop_spec E I ThisMesh
        (fillTempMatrices E I ThisMesh ThisMesh.RefBasesInvMatrix.length C.MasterBoneMap) C hwf
      rw [hm2] at h1 h2 h3 h4 h5 h6
      refine ⟨{ forLoop ThisMesh.RefBasesInvMatrix.length
          (resetBone E I ThisMesh
            (fillTempMatrices E I ThisMesh ThisMesh.RefBasesInvMatrix.length C.MasterBoneMap))
          C with OldPositionValid := true },
        ?_, rfl, h1, h2, h3, h4, h5, h6⟩
      unfold updateFurSkinned
      rw [if_neg hN, if_neg hm]
      simp only [hv, Bool.false_and, hm2]
      simp

end ResetTheorems

section TickTheorems

variable {K M Q : Type} [LinearOrderedField K]

/-- A call of `updateFur` with a scene proxy and a skeletal mesh is the skinned
path followed by the update of the revision number. -/
theorem updateFur_skinned (F : FMath K) (E : FEngine K M Q) (I : TickInput K M)
    (C C1 : UGFurComponent K M) (ThisMesh : SkeletalMeshData M)
    (hproxy : I.HasSceneProxy = true) (hmesh : I.SkeletalGrowMesh = some ThisMesh)
    (h : updateFurSkinned F E (physicsLocals F C.toFurPhysicsSettings I.FurLengths) I ThisMesh C
      = some C1) :
    ∃ (r : Nat) (d : Option Bool),
      updateFur F E I C = some ({ C1 with LastRevisionNumber := r }, d) := by
  simp only [updateFur, hproxy, hmesh, h]
  simp

/-- C4. Discontinuity reset. On a tick that starts with `OldPositionValid`
false (whatever the settings, the LOD level and the prior state):
in the skinned path (mesh with at least one bone, as line 732 asserts, tracked
arrays of equal length) every bone ends with linear offset, linear velocity,
angular offset and angular velocity zero and with the new transformation of
the tick as its stored transformation; in the static path the same holds for
the single frame, whose stored transformation is `ToWorld`; no spring step
enters the result, and `OldPositionValid` is true afterwards. -/
theorem C4_discontinuity_reset (F : FMath K) (E : FEngine K M Q) (I : TickInput K M)
    (C : UGFurComponent K M) (hproxy : I.HasSceneProxy = true)
    (hvalid : C.OldPositionValid = false) :
    (∀ ThisMesh, I.SkeletalGrowMesh = some ThisMesh →
      ThisMesh.RefBasesInvMatrix.length ≠ 0 → C.TrackedSameLength →
      ∃ C1 d, updateFur F E I C = some (C1, d)
        ∧ C1.OldPositionValid = true
        ∧ C1.LinearOffsets = List.replicate ThisMesh.RefBasesInvMatrix.length ⟨0, 0, 0⟩
        ∧ C1.LinearVelocities = List.replicate ThisMesh.RefBasesInvMatrix.length ⟨0, 0, 0⟩
        ∧ C1.AngularOffsets = List.replicate ThisMesh.RefBasesInvMatrix.length ⟨0, 0, 0⟩
        ∧ C1.AngularVelocities = List.replicate ThisMesh.RefBasesInvMatrix.length ⟨0, 0, 0⟩
        ∧ C1.Transformations = (List.range ThisMesh.RefBasesInvMatrix.length).map
            (boneNewTransformation E I
              (fillTempMatrices E I ThisMesh ThisMesh.RefBasesInvMatrix.length C.MasterBoneMap)))
    ∧ (I.SkeletalGrowMesh = none → I.StaticGrowMesh = true →
      ∃ C1 d, updateFur F E I C = some (C1, d)
        ∧ C1.OldPositionValid = true
        ∧ C1.StaticLinearOffset = ⟨0, 0, 0⟩
        ∧ C1.StaticLinearVelocity = ⟨0, 0, 0⟩
        ∧ C1.StaticAngularOffset = ⟨0, 0, 0⟩
        ∧ C1.StaticAngularVelocity = ⟨0, 0, 0⟩
        ∧ C1.StaticTransformation = I.ToWorld) := by
  constructor
  · intro ThisMesh hmesh hN hwf
    obtain ⟨C1, hC1, hv, h1, h2, h3, h4, h5, _⟩ := updateFurSkinned_reset F E
      (physicsLocals F C.toFurPhysicsSettings I.FurLengths) I ThisMesh C hN (Or.inr ⟨hvalid, hwf⟩)
    obtain ⟨r, d, hr⟩ := updateFur_skinned F E I C C1 ThisMesh hproxy hmesh hC1
    exact ⟨_, d, hr, hv, h1, h2, h3, h4, h5⟩
  · intro hmesh hstatic
    simp only [updateFur, hproxy, hmesh, hstatic, updateFurStatic, hvalid]
    simp

/-- Witness of C4: the first tick of a fresh component, once on the skinned
path with a mesh of two bones and once on the static path. -/
theorem C4_discontinuity_reset_witness :
    (∃ C1 d, updateFur (⟨Real.sin, Real.cos, Real.sqrt, fun a b => a ^ b, Real.pi⟩ : FMath ℝ)
        translationEngine skinnedInput freshComponent = some (C1, d)
      ∧ C1.OldPositionValid = true
      ∧ C1.LinearOffsets = [⟨0, 0, 0⟩, ⟨0, 0, 0⟩]
      ∧ C1.LinearVelocities = [⟨0, 0, 0⟩, ⟨0, 0, 0⟩]
      ∧ C1.AngularOffsets = [⟨0, 0, 0⟩, ⟨0, 0, 0⟩]
      ∧ C1.AngularVelocities = [⟨0, 0, 0⟩, ⟨0, 0, 0⟩])
    ∧ (∃ C1 d, updateFur (⟨Real.sin, Real.cos, Real.sqrt, fun a b => a ^ b, Real.pi⟩ : FMath ℝ)
        translationEngine staticInput freshComponent = some (C1, d)
      ∧ C1.OldPositionValid = true
      ∧ C1.StaticLinearOffset = ⟨0, 0, 0⟩
      ∧ C1.StaticLinearVelocity = ⟨0, 0, 0⟩
      ∧ C1.StaticAngularOffset = ⟨0, 0, 0⟩
      ∧ C1.StaticAngularVelocity = ⟨0, 0, 0⟩
      ∧ C1.StaticTransformation = ⟨0, 0, 1⟩) := by
  constructor
  · obtain ⟨C1, d, h, hv, h1, h2, h3, h4, _⟩ :=
      (C4_discontinuity_reset (⟨Real.sin, Real.cos, Real.sqrt, fun a b => a ^ b, Real.pi⟩ : FMath ℝ)
        translationEngine skinnedInput freshComponent rfl rfl).1 twoBoneMesh rfl
        (by simp [twoBoneMesh])
        (by simp [UGFurComponent.TrackedSameLength, freshComponent])
    exact ⟨C1, d, h, hv, h1, h2, h3, h4⟩
  · exact (C4_discontinuity_reset
      (⟨Real.sin, Real.cos, Real.sqrt, fun a b => a ^ b, Real.pi⟩ : FMath ℝ)
      translationEngine staticInput freshComponent rfl rfl).2 rfl rfl

/-- C5. Topology mismatch. On a skinned tick (mesh with at least one bone, as
line 732 asserts) that starts with `ReferenceToLocal.Num()` different from the
bone count, the call succeeds and afterwards the six tracked arrays have the
length of the bone count and every linear and angular offset and velocity is
zero, whatever the physics settings and the LOD level. -/
theorem C5_topology_mismatch_reset (F : FMath K) (E : FEngine K M Q) (I : TickInput K M)
    (C : UGFurComponent K M) (ThisMesh : SkeletalMeshData M)
    (hproxy : I.HasSceneProxy = true) (hmesh : I.SkeletalGrowMesh = some ThisMesh)
    (hN : ThisMesh.RefBasesInvMatrix.length ≠ 0)
    (hmis : C.ReferenceToLocal.length ≠ ThisMesh.RefBasesInvMatrix.length) :
    ∃ C1 d, updateFur F E I C = some (C1, d)
      ∧ C1.Transformations.length = ThisMesh.RefBasesInvMatrix.length
      ∧ C1.ReferenceToLocal.length = ThisMesh.RefBasesInvMatrix.length
      ∧ C1.LinearOffsets = List.replicate ThisMesh.RefBasesInvMatrix.length ⟨0, 0, 0⟩
      ∧ C1.AngularOffsets = List.replicate ThisMesh.RefBasesInvMatrix.length ⟨0, 0, 0⟩
      ∧ C1.LinearVelocities = List.replicate ThisMesh.RefBasesInvMatrix.length ⟨0, 0, 0⟩
      ∧ C1.AngularVelocities = List.replicate ThisMesh.RefBasesInvMatrix.length ⟨0, 0, 0⟩ := by
  obtain ⟨C1, hC1, _, h1, h2, h3, h4, h5, h6⟩ := updateFurSkinned_reset F E
    (physicsLocals F C.toFurPhysicsSettings I.FurLengths) I ThisMesh C hN (Or.inl hmis)
  obtain ⟨r, d, hr⟩ := updateFur_skinned F E I C C1 ThisMesh hproxy hmesh hC1
  refine ⟨_, d, hr, ?_, h6, h1, h3, h2, h4⟩
  show C1.Transformations.length = _
  rw [h5]; simp

/-- Witness of C5: the first tick of a fresh component (no tracked bone) with a
mesh of two bones. -/
theorem C5_topology_mismatch_reset_witness :
    (freshComponent : UGFurComponent ℝ (FVector ℝ)).ReferenceToLocal.length
        ≠ (twoBoneMesh : SkeletalMeshData (FVector ℝ)).RefBasesInvMatrix.length
    ∧ ∃ C1 d, updateFur (⟨Real.sin, Real.cos, Real.sqrt, fun a b => a ^ b, Real.pi⟩ : FMath ℝ)
        translationEngine skinnedInput freshComponent = some (C1, d)
      ∧ C1.Transformations.length = 2
      ∧ C1.ReferenceToLocal.length = 2
      ∧ C1.LinearOffsets = [⟨0, 0, 0⟩, ⟨0, 0, 0⟩]
      ∧ C1.AngularOffsets = [⟨0, 0, 0⟩, ⟨0, 0, 0⟩]
      ∧ C1.LinearVelocities = [⟨0, 0, 0⟩, ⟨0, 0, 0⟩]
      ∧ C1.AngularVelocities = [⟨0, 0, 0⟩, ⟨0, 0, 0⟩] :=
  ⟨by simp [freshComponent, twoBoneMesh],
    C5_topology_mismatch_reset (⟨Real.sin, Real.cos, Real.sqrt, fun a b => a ^ b, Real.pi⟩ : FMath ℝ)
      translationEngine skinnedInput freshComponent twoBoneMesh rfl rfl
      (by simp [twoBoneMesh]) (by simp [freshComponent, twoBoneMesh])⟩

end TickTheorems

section LodTheorems

/-- After `applyLod` the current fur LOD level is the new level. -/
theorem applyLod_level {K : Type} (p : FFurSceneProxy K) (NewLodLevel : Int) :
    (applyLod p NewLodLevel).CurrentFurLodLevel = NewLodLevel := by
  unfold applyLod
  split_ifs with h
  · rfl
  · exact (not_not.mp h).symm

variable {K : Type} [LinearOrderedField K]

/-- The scan of the LOD thresholds reads only the screen sizes. -/
theorem scanLods_congr (L1 L2 : List (FFurLod K))
    (h : L1.map FFurLod.ScreenSize = L2.map FFurLod.ScreenSize) (r : K) (n : Nat) :
    scanLods L1 r n = scanLods L2 r n := by
  induction n with
  | zero => rfl
  | succ k ih =>
    have hk : (L1[k]?).map FFurLod.ScreenSize = (L2[k]?).map FFurLod.ScreenSize := by
      rw [← List.getElem?_map, ← List.getElem?_map, h]
    unfold scanLods
    cases h1 : L1[k]? <;> cases h2 : L2[k]? <;> simp [h1, h2] at hk ⊢
    · exact ih
    · rw [hk, ih]

/-- Views that are not visible do not change the result of the loop over the
views. -/
theorem lodViews_no_visible (MinScreenSize : K) (L : List (FFurLod K)) (N V : Nat)
    (Views : List K) (i : Nat) (New : Int) (h : visibleRadii V Views i = []) :
    lodViews MinScreenSize L N V Views i New = New := by
  induction Views generalizing i with
  | nil => rfl
  | cons r rest ih =>
    unfold visibleRadii at h
    unfold lodViews
    split_ifs at h with hv
    · simp only [if_neg hv]
      exact ih (i + 1) h

/-- The loop over the views reads only the radii of the visible views and the
screen sizes of the LODs. -/
theorem lodViews_congr (MinScreenSize : K) (L1 L2 : List (FFurLod K))
    (hL : L1.map FFurLod.ScreenSize = L2.map FFurLod.ScreenSize) (N V1 V2 : Nat)
    (Views1 Views2 : List K) (i1 i2 : Nat) (New : Int)
    (h : visibleRadii V1 Views1 i1 = visibleRadii V2 Views2 i2) :
    lodViews MinScreenSize L1 N V1 Views1 i1 New = lodViews MinScreenSize L2 N V2 Views2 i2 New := by
  induction Views1 generalizing i1 Views2 i2 New with
  | nil =>
    have h2 : visibleRadii V2 Views2 i2 = [] := by rw [← h]; rfl
    rw [lodViews_no_visible MinScreenSize L2 N V2 Views2 i2 New h2]
    rfl
  | cons r rest ih =>
    by_cases hv : viewVisible V1 i1 = true
    · induction Views2 generalizing i2 with
      | nil => simp [visibleRadii, hv] at h
      | cons r2 rest2 ih2 =>
        by_cases hv2 : viewVisible V2 i2 = true
        · simp only [visibleRadii, hv, hv2, if_true, List.cons.injEq] at h
          obtain ⟨hr, hrest⟩ := h
          subst hr
          simp only [lodViews, hv, hv2, if_true, scanLods_congr L1 L2 hL]
          split_ifs
          · cases scanLods L2 r (N - 1) with
            | none => rfl
            | some l => exact ih _ _ _ _ hrest
          · exact ih _ _ _ _ hrest
        · have h' : visibleRadii V1 (r :: rest) i1 = visibleRadii V2 rest2 (i2 + 1) := by
            rw [h]; simp [visibleRadii, hv2]
          rw [ih2 (i2 + 1) h']
          simp [lodViews, hv2]
    · have h' : visibleRadii V1 rest (i1 + 1) = visibleRadii V2 Views2 i2 := by
        rw [← h]; simp [visibleRadii, hv]
      rw [← ih Views2 (i1 + 1) i2 New h']
      simp [lodViews, hv]

/-- C7. The LOD selection has no hysteresis: two evaluations with the same
`MinScreenSize`, the same screen sizes of the LODs, the same number of fur LOD
levels and the same radii of the visible views leave the same current fur LOD
level, whatever the previously selected levels (and the other members of the
two proxies, and the views that are not visible). -/
theorem C7_lod_deterministic (p1 p2 : FFurSceneProxy K) (MinScreenSize : K)
    (Views1 Views2 : List K) (V1 V2 : Nat)
    (hlods : p1.FurLods.map FFurLod.ScreenSize = p2.FurLods.map FFurLod.ScreenSize)
    (hnum : p1.FurData.length = p2.FurData.length)
    (hviews : visibleRadii V1 Views1 0 = visibleRadii V2 Views2 0) :
    (GetDynamicMeshElements p1 MinScreenSize Views1 V1).1.CurrentFurLodLevel
      = (GetDynamicMeshElements p2 MinScreenSize Views2 V2).1.CurrentFurLodLevel := by
  simp only [GetDynamicMeshElements, applyLod_level, selectLod, hnum]
  rw [lodViews_congr MinScreenSize p1.FurLods p2.FurLods hlods _ V1 V2 Views1 Views2 0 0 _ hviews]

/-- Witness of C7: the proxy with four levels at level 0 with one visible view,
and at level 3 with an invisible view before the same visible view. -/
theorem C7_lod_deterministic_witness :
    (fourLevelProxy : FFurSceneProxy ℚ).FurLods.map FFurLod.ScreenSize
        = (fourLevelProxyAtThree : FFurSceneProxy ℚ).FurLods.map FFurLod.ScreenSize
    ∧ (fourLevelProxy : FFurSceneProxy ℚ).FurData.length
        = (fourLevelProxyAtThree : FFurSceneProxy ℚ).FurData.length
    ∧ visibleRadii 1 [(9 / 400 : ℚ)] 0 = visibleRadii 2 [1, 9 / 400] 0
    ∧ (GetDynamicMeshElements fourLevelProxy (1 / 10 : ℚ) [9 / 400] 1).1.CurrentFurLodLevel
      = (GetDynamicMeshElements fourLevelProxyAtThree (1 / 10 : ℚ) [1, 9 / 400]
          2).1.CurrentFurLodLevel :=
  have h3 : visibleRadii 1 [(9 / 400 : ℚ)] 0 = visibleRadii 2 [1, 9 / 400] 0 := by
    simp [visibleRadii, viewVisible]
  ⟨rfl, rfl, h3, C7_lod_deterministic fourLevelProxy fourLevelProxyAtThree (1 / 10)
    [9 / 400] [1, 9 / 400] 1 2 rfl rfl h3⟩

/-- When no visible view is above the floor, the loop over the views leaves
`NewLodLevel` at its initial value `0x7fffffff`. -/
theorem lodViews_below_floor (MinScreenSize : K) (L : List (FFurLod K)) (N V : Nat)
    (Views : List K) (i : Nat)
    (h : ∀ r ∈ visibleRadii V Views i, ¬ (Square (MinScreenSize * (1 / 2)) < r)) :
    lodViews MinScreenSize L N V Views i 0x7fffffff = 0x7fffffff := by
  induction Views generalizing i with
  | nil => rfl
  | cons r rest ih =>
    by_cases hv : viewVisible V i = true
    · have hr : ¬ (Square (MinScreenSize * (1 / 2)) < r) :=
        h r (by simp [visibleRadii, hv])
      have hrest : ∀ r' ∈ visibleRadii V rest (i + 1), ¬ (Square (MinScreenSize * (1 / 2)) < r') :=
        fun r' hr' => h r' (by simp [visibleRadii, hv, hr'])
      simp only [lodViews, hv, if_true, if_neg hr, min_self]
      exact ih (i + 1) hrest
    · have hrest : ∀ r' ∈ visibleRadii V rest (i + 1), ¬ (Square (MinScreenSize * (1 / 2)) < r') :=
        fun r' hr' => h r' (by simp [visibleRadii, hv, hr'])
      simp only [lodViews, hv]
      exact ih (i + 1) hrest

/-- C8. If in every visible view the squared screen radius is not above
`(0.5 * MinScreenSize)^2` (also when no view is visible), the selected LOD level
is the last one, `FurData.Num() - 1`. The number of fur LOD levels is an `int32`. -/
theorem C8_below_floor_selects_last (p : FFurSceneProxy K) (MinScreenSize : K)
    (Views : List K) (V : Nat) (hint32 : p.FurData.length ≤ 0x7fffffff)
    (hbelow : ∀ r ∈ visibleRadii V Views 0, ¬ (Square (MinScreenSize * (1 / 2)) < r)) :
    selectLod p MinScreenSize Views V = (p.FurData.length : Int) - 1
    ∧ (GetDynamicMeshElements p MinScreenSize Views V).1.CurrentFurLodLevel
      = (p.FurData.length : Int) - 1 := by
  have hsel : selectLod p MinScreenSize Views V = (p.FurData.length : Int) - 1 := by
    simp only [selectLod, lodViews_below_floor MinScreenSize p.FurLods _ V Views 0 hbelow]
    apply min_eq_right
    have : (p.FurData.length : Int) ≤ 0x7fffffff := by exact_mod_cast hint32
    linarith
  exact ⟨hsel, by simp only [GetDynamicMeshElements, applyLod_level, hsel]⟩

/-- Witness of C8: the proxy with four levels, one visible view of radius 0 and
`MinScreenSize = 0.1`. -/
theorem C8_below_floor_selects_last_witness :
    (fourLevelProxy : FFurSceneProxy ℚ).FurData.length ≤ 0x7fffffff
    ∧ (∀ r ∈ visibleRadii 1 [(0 : ℚ)] 0, ¬ (Square ((1 / 10 : ℚ) * (1 / 2)) < r))
    ∧ selectLod fourLevelProxy (1 / 10 : ℚ) [0] 1 = 3
    ∧ (GetDynamicMeshElements fourLevelProxy (1 / 10 : ℚ) [0] 1).1.CurrentFurLodLevel = 3 :=
  have h1 : (fourLevelProxy : FFurSceneProxy ℚ).FurData.length ≤ 0x7fffffff := by
    simp [fourLevelProxy, fourLevelFurData]
  have h2 : ∀ r ∈ visibleRadii 1 [(0 : ℚ)] 0, ¬ (Square ((1 / 10 : ℚ) * (1 / 2)) < r) := by
    intro r hr
    simp [visibleRadii, viewVisible] at hr
    subst hr
    simp [Square]
  ⟨h1, h2, C8_below_floor_selects_last fourLevelProxy (1 / 10) [0] 1 h1 h2⟩

end LodTheorems

section LodTheorems2

variable {K : Type} [LinearOrderedField K]

/-- C9, the code at the failing input. The proxy with four levels, one visible
view of squared radius 0, `MinScreenSize = 0.1`: the view is below the floor,
and the call still adds a mesh batch, built from the last fur LOD level 3. -/
theorem C9_batch_submitted_below_floor :
    (∀ r ∈ visibleRadii 1 [(0 : ℚ)] 0, ¬ (Square ((1 / 10 : ℚ) * (1 / 2)) < r))
    ∧ (GetDynamicMeshElements fourLevelProxy (1 / 10 : ℚ) [0] 1).2 = [⟨0, 3, 0, 3, 1⟩] := by
  have hbelow : ∀ r ∈ visibleRadii 1 [(0 : ℚ)] 0, ¬ (Square ((1 / 10 : ℚ) * (1 / 2)) < r) := by
    intro r hr
    simp [visibleRadii, viewVisible] at hr
    subst hr
    simp [Square]
  refine ⟨hbelow, ?_⟩
  have hsel : selectLod fourLevelProxy (1 / 10 : ℚ) [0] 1 = 3 := by
    simp only [selectLod, lodViews_below_floor (1 / 10 : ℚ) _ _ 1 [0] 0 hbelow]
    rfl
  have happ : applyLod (fourLevelProxy : FFurSceneProxy ℚ) 3 = fourLevelProxyAtThree := by
    simp [applyLod, fourLevelProxy, fourLevelProxyAtThree, forLoop, fourLevelFurData]
  have hsub : submitBatches (fourLevelProxyAtThree : FFurSceneProxy ℚ) 1 1
      = [⟨0, 3, 0, 3, 1⟩] := by
    simp [submitBatches, fourLevelProxyAtThree, forLoop, fourLevelFurData, viewVisible]
  simp only [GetDynamicMeshElements, hsel, happ, List.length_singleton, hsub]

/-- The scan of the LOD thresholds at level `k + 1`: one iteration of the loop
of lines 92-104. -/
theorem scanLods_succ (L : List (FFurLod K)) (r : K) (k : Nat) :
    scanLods L r (k + 1) =
      match L[k]? with
      | some lod =>
        if Square (lod.ScreenSize * (1 / 2)) > r then some (k + 1) else scanLods L r k
      | none => scanLods L r k := rfl

/-- The result of the scan of the LOD thresholds from level `n` down: the level
found is the highest level up to `n` that passes the test of line 98, and
nothing is found exactly when no level up to `n` passes it. -/
theorem scanLods_spec (L : List (FFurLod K)) (r : K) (n : Nat) :
    (∀ l, scanLods L r n = some l →
      l ≤ n ∧ lodPasses L r l ∧ ∀ l1, l < l1 → l1 ≤ n → ¬ lodPasses L r l1)
    ∧ (scanLods L r n = none → ∀ l1, l1 ≤ n → ¬ lodPasses L r l1) := by
  induction n with
  | zero =>
    refine ⟨fun l h => by simp [scanLods] at h, fun _ l1 hl1 hp => ?_⟩
    have := hp.1
    omega
  | succ k ih =>
    obtain ⟨ih1, ih2⟩ := ih
    have hstep : ¬ lodPasses L r (k + 1) → scanLods L r (k + 1) = scanLods L r k := by
      intro hnp
      rw [scanLods_succ]
      cases hk : L[k]? with
      | none => rfl
      | some lod =>
        have : ¬ (Square (lod.ScreenSize * (1 / 2)) > r) := fun hgt =>
          hnp ⟨by omega, lod, by simpa using hk, hgt⟩
        simp only [if_neg this]
    by_cases hp : lodPasses L r (k + 1)
    · have hfound : scanLods L r (k + 1) = some (k + 1) := by
        obtain ⟨_, lod, hlod, hgt⟩ := hp
        have hk : L[k]? = some lod := by simpa using hlod
        rw [scanLods_succ, hk]
        simp only [if_pos hgt]
      refine ⟨fun l h => ?_, fun h => ?_⟩
      · rw [hfound] at h
        have hl : k + 1 = l := Option.some.inj h
        subst hl
        exact ⟨le_refl _, hp, fun l1 h1 h2 => by omega⟩
      · rw [hfound] at h; cases h
    · rw [hstep hp]
      refine ⟨fun l h => ?_, fun h l1 hl1 => ?_⟩
      · obtain ⟨h1, h2, h3⟩ := ih1 l h
        refine ⟨by omega, h2, fun l1 hl hl1 => ?_⟩
        by_cases he : l1 = k + 1
        · subst he; exact hp
        · exact h3 l1 hl (by omega)
      · by_cases he : l1 = k + 1
        · subst he; exact hp
        · exact ih2 h l1 (by omega)

/-- C10, amended. For one visible view whose squared screen radius is above the
floor, in a proxy with one `FFurData` more than `FFurLod`s: the scan goes from
the coarsest level down and selects the first level it meets that passes the
test of line 98, that is the coarsest (highest) level `l` with
`(0.5 * ScreenSize_l)^2 > ScreenRadiusSquared`; when no level passes the test,
level 0 is selected. -/
theorem C10_coarsest_passing_level (p : FFurSceneProxy K) (MinScreenSize r : K) (V : Nat)
    (hnum : p.FurData.length = p.FurLods.length + 1)
    (hint32 : p.FurData.length ≤ 0x7fffffff)
    (hvis : viewVisible V 0 = true)
    (hfloor : Square (MinScreenSize * (1 / 2)) < r) :
    (∃ l : Nat, selectLod p MinScreenSize [r] V = (l : Int)
        ∧ 1 ≤ l ∧ l < p.FurData.length ∧ lodPasses p.FurLods r l
        ∧ ∀ l1, l < l1 → l1 < p.FurData.length → ¬ lodPasses p.FurLods r l1)
    ∨ (selectLod p MinScreenSize [r] V = 0
        ∧ ∀ l1, l1 < p.FurData.length → ¬ lodPasses p.FurLods r l1) := by
  obtain ⟨hsome, hnone⟩ := scanLods_spec p.FurLods r (p.FurData.length - 1)
  cases hscan : scanLods p.FurLods r (p.FurData.length - 1) with
  | none =>
    right
    refine ⟨?_, fun l1 hl1 => hnone hscan l1 (by omega)⟩
    simp only [selectLod, lodViews, hvis, if_true, if_pos hfloor, hscan]
    apply min_eq_left
    have : (0 : Int) ≤ (p.FurLods.length : Int) := Int.natCast_nonneg _
    rw [hnum]; push_cast; linarith
  | some l =>
    left
    obtain ⟨h1, h2, h3⟩ := hsome l hscan
    refine ⟨l, ?_, h2.1, by omega, h2, fun l1 hl hl1 => h3 l1 hl (by omega)⟩
    simp only [selectLod, lodViews, hvis, if_true, if_pos hfloor, hscan]
    have hl : (l : Int) ≤ (p.FurData.length : Int) - 1 := by
      have : (l : Int) ≤ ((p.FurData.length - 1 : Nat) : Int) := by exact_mod_cast h1
      omega
    have hN : (p.FurData.length : Int) ≤ 0x7fffffff := by exact_mod_cast hint32
    rw [min_eq_right (by linarith : (l : Int) ≤ 0x7fffffff), min_eq_left hl]

/-- Witness of C10: the proxy with four levels, `MinScreenSize = 0.1` and one
visible view of screen size `0.1` (squared radius `1/400`). -/
theorem C10_coarsest_passing_level_witness :
    (fourLevelProxy : FFurSceneProxy ℚ).FurData.length
        = (fourLevelProxy : FFurSceneProxy ℚ).FurLods.length + 1
    ∧ (fourLevelProxy : FFurSceneProxy ℚ).FurData.length ≤ 0x7fffffff
    ∧ viewVisible 1 0 = true
    ∧ Square ((1 / 100 : ℚ) * (1 / 2)) < 1 / 400
    ∧ ((∃ l : Nat, selectLod fourLevelProxy (1 / 100 : ℚ) [1 / 400] 1 = (l : Int)
          ∧ 1 ≤ l ∧ l < (fourLevelProxy : FFurSceneProxy ℚ).FurData.length
          ∧ lodPasses (fourLevelProxy : FFurSceneProxy ℚ).FurLods (1 / 400) l
          ∧ ∀ l1, l < l1 → l1 < (fourLevelProxy : FFurSceneProxy ℚ).FurData.length →
              ¬ lodPasses (fourLevelProxy : FFurSceneProxy ℚ).FurLods (1 / 400) l1)
        ∨ (selectLod fourLevelProxy (1 / 100 : ℚ) [1 / 400] 1 = 0
          ∧ ∀ l1, l1 < (fourLevelProxy : FFurSceneProxy ℚ).FurData.length →
              ¬ lodPasses (fourLevelProxy : FFurSceneProxy ℚ).FurLods (1 / 400) l1)) :=
  have h1 : (fourLevelProxy : FFurSceneProxy ℚ).FurData.length
      = (fourLevelProxy : FFurSceneProxy ℚ).FurLods.length + 1 := rfl
  have h2 : (fourLevelProxy : FFurSceneProxy ℚ).FurData.length ≤ 0x7fffffff := by
    simp [fourLevelProxy, fourLevelFurData]
  have h3 : viewVisible 1 0 = true := by decide
  have h4 : Square ((1 / 100 : ℚ) * (1 / 2)) < 1 / 400 := by
    simp only [Square]; norm_num
  ⟨h1, h2, h3, h4, C10_coarsest_passing_level fourLevelProxy (1 / 100) (1 / 400) 1 h1 h2 h3 h4⟩

/-- C10, as stated, fails. The proxy with the screen sizes `0.5`, `0.2`, `0.05`
for the levels 1, 2, 3, `MinScreenSize = 0.01` and one visible view of screen
size `0.1` (squared radius `1/400`, above the floor): the selected level is 2.
It is not the finest level that passes the test of line 98, since the finer
level 1 passes it as well; and it is not a level whose threshold the radius
exceeds, since `(0.5 * 0.2)^2` is above the radius (the only such level is 3). -/
theorem C10_counterexample :
    viewVisible 1 0 = true
    ∧ Square ((1 / 100 : ℚ) * (1 / 2)) < 1 / 400
    ∧ selectLod fourLevelProxy (1 / 100 : ℚ) [1 / 400] 1 = 2
    ∧ lodPasses (fourLevelProxy : FFurSceneProxy ℚ).FurLods (1 / 400) 1
    ∧ lodPasses (fourLevelProxy : FFurSceneProxy ℚ).FurLods (1 / 400) 2
    ∧ ¬ (Square ((1 / 5 : ℚ) * (1 / 2)) < 1 / 400)
    ∧ Square ((1 / 20 : ℚ) * (1 / 2)) < 1 / 400 := by
  refine ⟨by decide, ?_, ?_, ?_, ?_, ?_, ?_⟩
  · simp only [Square]; norm_num
  · simp [selectLod, lodViews, viewVisible, scanLods, Square, fourLevelProxy, threeFurLods,
      fourLevelFurData]
    norm_num
  · refine ⟨le_refl _, ⟨1 / 2, 16, 1, true, false⟩, rfl, ?_⟩
    simp only [Square]; norm_num
  · refine ⟨by norm_num, ⟨1 / 5, 8, 2, true, false⟩, rfl, ?_⟩
    simp only [Square]; norm_num
  · simp only [Square]; norm_num
  · simp only [Square]; norm_num

end LodTheorems2

section LodTheorems3

variable {K : Type} [LinearOrderedField K]

/-- The candidate of a view above the floor: the level found by the scan, or 0
when the scan finds none. -/
theorem selectLod_single (p : FFurSceneProxy K) (MinScreenSize r : K)
    (hint32 : p.FurData.length ≤ 0x7fffffff) (hN : 1 ≤ p.FurData.length)
    (hfloor : Square (MinScreenSize * (1 / 2)) < r) :
    selectLod p MinScreenSize [r] 1
      = match scanLods p.FurLods r (p.FurData.length - 1) with
        | some l => (l : Int)
        | none => 0 := by
  have hvis : viewVisible 1 0 = true := by decide
  have hN1 : (1 : Int) ≤ (p.FurData.length : Int) := by exact_mod_cast hN
  have hN2 : (p.FurData.length : Int) ≤ 0x7fffffff := by exact_mod_cast hint32
  cases hscan : scanLods p.FurLods r (p.FurData.length - 1) with
  | none =>
    simp only [selectLod, lodViews, hvis, if_true, if_pos hfloor, hscan]
    exact min_eq_left (by linarith)
  | some l =>
    have hl := ((scanLods_spec p.FurLods r (p.FurData.length - 1)).1 l hscan).1
    have hl2 : (l : Int) ≤ (p.FurData.length : Int) - 1 := by omega
    simp only [selectLod, lodViews, hvis, if_true, if_pos hfloor, hscan]
    rw [min_eq_right (by linarith : (l : Int) ≤ 0x7fffffff), min_eq_left hl2]

/-- The candidate of a view above the floor lies between 0 and
`FurData.Num() - 1`. -/
theorem selectLod_single_range (p : FFurSceneProxy K) (MinScreenSize r : K)
    (hint32 : p.FurData.length ≤ 0x7fffffff) (hN : 1 ≤ p.FurData.length)
    (hfloor : Square (MinScreenSize * (1 / 2)) < r) :
    0 ≤ selectLod p MinScreenSize [r] 1
      ∧ selectLod p MinScreenSize [r] 1 ≤ (p.FurData.length : Int) - 1 := by
  have hs := selectLod_single p MinScreenSize r hint32 hN hfloor
  have hN1 : (1 : Int) ≤ (p.FurData.length : Int) := by exact_mod_cast hN
  cases hscan : scanLods p.FurLods r (p.FurData.length - 1) with
  | none =>
    simp only [hscan] at hs
    rw [hs]
    exact ⟨le_refl _, by omega⟩
  | some l =>
    have hl := ((scanLods_spec p.FurLods r (p.FurData.length - 1)).1 l hscan).1
    simp only [hscan] at hs
    rw [hs]
    exact ⟨Int.natCast_nonneg _, by omega⟩

/-- The minimum over the candidates of a list of radii, started from `base`. -/
theorem foldr_min_range {α : Type} (f : α → Int) (rs : List α) (base lo : Int) (hbase : lo ≤ base)
    (hf : ∀ r ∈ rs, lo ≤ f r) :
    lo ≤ rs.foldr (fun r acc => min (f r) acc) base
      ∧ rs.foldr (fun r acc => min (f r) acc) base ≤ base := by
  induction rs with
  | nil => exact ⟨hbase, le_refl _⟩
  | cons r rest ih =>
    obtain ⟨h1, h2⟩ := ih (fun r' hr' => hf r' (List.mem_cons_of_mem _ hr'))
    have hr := hf r (List.mem_cons_self _ _)
    simp only [List.foldr_cons]
    exact ⟨le_min hr h1, le_trans (min_le_right _ _) h2⟩

/-- The loop over the views computes the minimum of `NewLodLevel` and of the
candidates of the visible views above the floor, once the result is clamped to
`FurData.Num() - 1`. -/
theorem lodViews_min (p : FFurSceneProxy K) (MinScreenSize : K) (V : Nat)
    (hint32 : p.FurData.length ≤ 0x7fffffff) (hN : 1 ≤ p.FurData.length)
    (Views : List K) (i : Nat) (New : Int) (hNew : 0 ≤ New) :
    min (lodViews MinScreenSize p.FurLods p.FurData.length V Views i New)
        ((p.FurData.length : Int) - 1)
      = min New (((visibleRadii V Views i).filter
            (fun r => decide (Square (MinScreenSize * (1 / 2)) < r))).foldr
          (fun r acc => min (selectLod p MinScreenSize [r] 1) acc)
          ((p.FurData.length : Int) - 1)) := by
  have hN1 : (1 : Int) ≤ (p.FurData.length : Int) := by exact_mod_cast hN
  have hN2 : (p.FurData.length : Int) ≤ 0x7fffffff := by exact_mod_cast hint32
  induction Views generalizing i New with
  | nil => simp [lodViews, visibleRadii]
  | cons r rest ih =>
    have hrange := foldr_min_range (fun r => selectLod p MinScreenSize [r] 1)
      ((visibleRadii V rest (i + 1)).filter
        (fun r => decide (Square (MinScreenSize * (1 / 2)) < r)))
      ((p.FurData.length : Int) - 1) 0 (by linarith)
      (fun r' hr' => (selectLod_single_range p MinScreenSize r' hint32 hN
        (by simpa using (List.mem_filter.mp hr').2)).1)
    by_cases hv : viewVisible V i = true
    · by_cases hfloor : Square (MinScreenSize * (1 / 2)) < r
      · have hsingle := selectLod_single p MinScreenSize r hint32 hN hfloor
        have hfilt : (visibleRadii V (r :: rest) i).filter
            (fun r => decide (Square (MinScreenSize * (1 / 2)) < r))
            = r :: (visibleRadii V rest (i + 1)).filter
              (fun r => decide (Square (MinScreenSize * (1 / 2)) < r)) := by
          simp only [visibleRadii, hv, if_true]
          exact List.filter_cons_of_pos (by simpa using hfloor)
        rw [hfilt, List.foldr_cons]
        cases hscan : scanLods p.FurLods r (p.FurData.length - 1) with
        | none =>
          simp only [hscan] at hsingle
          simp only [lodViews, hv, if_true, if_pos hfloor, hscan, hsingle]
          rw [min_eq_left (by linarith : (0 : Int) ≤ (p.FurData.length : Int) - 1),
            min_eq_left hrange.1, min_eq_right hNew]
        | some l =>
          simp only [hscan] at hsingle
          simp only [lodViews, hv, if_true, if_pos hfloor, hscan, hsingle]
          rw [ih (i + 1) (min New (l : Int)) (le_min hNew (Int.natCast_nonneg _)), min_assoc]
      · have hfilt : (visibleRadii V (r :: rest) i).filter
            (fun r => decide (Square (MinScreenSize * (1 / 2)) < r))
            = (visibleRadii V rest (i + 1)).filter
              (fun r => decide (Square (MinScreenSize * (1 / 2)) < r)) := by
          simp only [visibleRadii, hv, if_true]
          exact List.filter_cons_of_neg (by simpa using hfloor)
        rw [hfilt]
        simp only [lodViews, hv, if_true, if_neg hfloor]
        rw [ih (i + 1) (min New 0x7fffffff) (le_min hNew (by norm_num))]
        have : ((visibleRadii V rest (i + 1)).filter
            (fun r => decide (Square (MinScreenSize * (1 / 2)) < r))).foldr
            (fun r acc => min (selectLod p MinScreenSize [r] 1) acc)
            ((p.FurData.length : Int) - 1) ≤ 0x7fffffff := by linarith [hrange.2]
        rw [min_assoc, min_eq_right this]
    · have hfilt : visibleRadii V (r :: rest) i = visibleRadii V rest (i + 1) := by
        simp only [visibleRadii, hv]; rfl
      rw [hfilt]
      simp only [lodViews, hv]
      exact ih (i + 1) New hNew

/-- C11. For every list of views, every visibility mask and every number
`N >= 1` of fur LOD levels (an `int32`), the selected LOD level equals the
minimum of `N - 1` and, over the visible views above the floor, of the level
selected for that view alone; the early exit of line 109 does not change this
value, and the selected level lies in `[0, N - 1]`. -/
theorem C11_final_lod_is_min (p : FFurSceneProxy K) (MinScreenSize : K) (Views : List K)
    (V : Nat) (hint32 : p.FurData.length ≤ 0x7fffffff) (hN : 1 ≤ p.FurData.length) :
    selectLod p MinScreenSize Views V = specFinalLod p MinScreenSize Views V
    ∧ (GetDynamicMeshElements p MinScreenSize Views V).1.CurrentFurLodLevel
        = specFinalLod p MinScreenSize Views V
    ∧ 0 ≤ selectLod p MinScreenSize Views V
    ∧ selectLod p MinScreenSize Views V ≤ (p.FurData.length : Int) - 1 := by
  have hN1 : (1 : Int) ≤ (p.FurData.length : Int) := by exact_mod_cast hN
  have hN2 : (p.FurData.length : Int) ≤ 0x7fffffff := by exact_mod_cast hint32
  have hrange := foldr_min_range (fun r => selectLod p MinScreenSize [r] 1)
    ((visibleRadii V Views 0).filter (fun r => decide (Square (MinScreenSize * (1 / 2)) < r)))
    ((p.FurData.length : Int) - 1) 0 (by linarith)
    (fun r' hr' => (selectLod_single_range p MinScreenSize r' hint32 hN
      (by simpa using (List.mem_filter.mp hr').2)).1)
  have hsel : selectLod p MinScreenSize Views V = specFinalLod p MinScreenSize Views V := by
    unfold selectLod specFinalLod
    rw [lodViews_min p MinScreenSize V hint32 hN Views 0 0x7fffffff (by norm_num)]
    exact min_eq_right (by linarith [hrange.2])
  refine ⟨hsel, ?_, ?_, ?_⟩
  · simp only [GetDynamicMeshElements, applyLod_level, hsel]
  · rw [hsel]; exact hrange.1
  · rw [hsel]; exact hrange.2

/-- Witness of C11: the proxy with four levels and two visible views, one of
screen size `0.3` and one of screen size `0.1`. -/
theorem C11_final_lod_is_min_witness :
    (fourLevelProxy : FFurSceneProxy ℚ).FurData.length ≤ 0x7fffffff
    ∧ 1 ≤ (fourLevelProxy : FFurSceneProxy ℚ).FurData.length
    ∧ selectLod fourLevelProxy (1 / 100 : ℚ) [9 / 400, 1 / 400] 3
        = specFinalLod fourLevelProxy (1 / 100 : ℚ) [9 / 400, 1 / 400] 3
    ∧ (GetDynamicMeshElements fourLevelProxy (1 / 100 : ℚ) [9 / 400, 1 / 400]
          3).1.CurrentFurLodLevel
        = specFinalLod fourLevelProxy (1 / 100 : ℚ) [9 / 400, 1 / 400] 3
    ∧ 0 ≤ selectLod fourLevelProxy (1 / 100 : ℚ) [9 / 400, 1 / 400] 3
    ∧ selectLod fourLevelProxy (1 / 100 : ℚ) [9 / 400, 1 / 400] 3
        ≤ ((fourLevelProxy : FFurSceneProxy ℚ).FurData.length : Int) - 1 :=
  have h1 : (fourLevelProxy : FFurSceneProxy ℚ).FurData.length ≤ 0x7fffffff := by
    simp [fourLevelProxy, fourLevelFurData]
  have h2 : 1 ≤ (fourLevelProxy : FFurSceneProxy ℚ).FurData.length := by
    simp [fourLevelProxy, fourLevelFurData]
  ⟨h1, h2, C11_final_lod_is_min fourLevelProxy (1 / 100) [9 / 400, 1 / 400] 3 h1 h2⟩

/-- C12. Scenario 2: screen sizes `0.5`, `0.2`, `0.05` for the levels 1, 2, 3
(four fur LOD levels), one visible view of screen size `0.3`, that is of squared
radius `(0.5 * 0.3)^2`, and a `MinScreenSize` below `0.3` (and above `-0.3`, so
that its squared half is below the squared radius): the selected level is 1. -/
theorem C12_scenario_two (MinScreenSize : K) (hlo : -(3 / 10) < MinScreenSize)
    (hhi : MinScreenSize < 3 / 10) :
    selectLod fourLevelProxy MinScreenSize [Square ((1 / 2) * (3 / 10))] 1 = 1
    ∧ (GetDynamicMeshElements fourLevelProxy MinScreenSize [Square ((1 / 2) * (3 / 10))]
        1).1.CurrentFurLodLevel = 1 := by
  have hfloor : Square (MinScreenSize * (1 / 2)) < Square ((1 / 2 : K) * (3 / 10)) := by
    simp only [Square]; nlinarith
  have hvis : viewVisible 1 0 = true := by decide
  have h3 : ¬ (Square ((1 / 20 : K) * (1 / 2)) > Square ((1 / 2 : K) * (3 / 10))) := by
    simp only [Square]; norm_num
  have h2 : ¬ (Square ((1 / 5 : K) * (1 / 2)) > Square ((1 / 2 : K) * (3 / 10))) := by
    simp only [Square]; norm_num
  have h1 : Square ((1 / 2 : K) * (1 / 2)) > Square ((1 / 2 : K) * (3 / 10)) := by
    simp only [Square]; norm_num
  have hscan : scanLods (threeFurLods : List (FFurLod K)) (Square ((1 / 2 : K) * (3 / 10))) 3
      = some 1 := by
    simp only [scanLods, threeFurLods, List.getElem?_cons_succ, List.getElem?_cons_zero,
      if_neg h3, if_neg h2, if_pos h1]
  have hsel : selectLod fourLevelProxy MinScreenSize [Square ((1 / 2 : K) * (3 / 10))] 1 = 1 := by
    simp only [selectLod, lodViews, hvis, if_true, if_pos hfloor, fourLevelProxy,
      fourLevelFurData, List.length_cons, List.length_nil]
    rw [show (0 + 1 + 1 + 1 + 1 - 1 : Nat) = 3 from rfl, hscan]
    rfl
  exact ⟨hsel, by simp only [GetDynamicMeshElements, applyLod_level, hsel]⟩

/-- Witness of C12 with `MinScreenSize = 0.1`. -/
theorem C12_scenario_two_witness :
    -(3 / 10) < (1 / 10 : ℚ) ∧ (1 / 10 : ℚ) < 3 / 10
    ∧ selectLod fourLevelProxy (1 / 10 : ℚ) [Square ((1 / 2) * (3 / 10))] 1 = 1
    ∧ (GetDynamicMeshElements fourLevelProxy (1 / 10 : ℚ) [Square ((1 / 2) * (3 / 10))]
        1).1.CurrentFurLodLevel = 1 :=
  ⟨by norm_num, by norm_num, C12_scenario_two (1 / 10) (by norm_num) (by norm_num)⟩

end LodTheorems3


section ClampTheorems

variable {K : Type} [LinearOrderedField K]

end ClampTheorems

section RevisionTheorems

variable {K M Q : Type} [LinearOrderedField K]

end RevisionTheorems


section UnmappedBoneLemmas

variable {K M Q : Type}

/-- Appending flags that are false keeps a flag false. -/
theorem getD_append_replicate_false (V : List Bool) (c i : Nat)
    (h : V.getD i false = false) : (V ++ List.replicate c false).getD i false = false := by
  simp only [List.getD_eq_getElem?_getD, List.getElem?_append, List.getElem?_replicate] at h ⊢
  split_ifs <;> simp_all

/-- Setting another flag keeps a flag. -/
theorem getD_set_ne_flag (V : List Bool) (i j : Nat) (b : Bool) (h : j ≠ i) :
    (V.set j b).getD i false = V.getD i false := by
  simp only [List.getD_eq_getElem?_getD, List.getElem?_set_ne h]

/-- One iteration of the loop of lines 770-815 with a valid master does not
mark as valid a bone whose entry of the bone map is not a valid index into the
transforms of the master. -/
theorem fillBone_keeps_invalid (E : FEngine K M Q) (I : TickInput K M)
    (ThisMesh : SkeletalMeshData M) (MasterBoneMap : List Int) (Required : List Nat)
    (i : Nat)
    (hinv : ∀ mc, I.MasterPoseComponent = some mc →
      ¬ (0 ≤ MasterBoneMap.getD i (-1)
        ∧ MasterBoneMap.getD i (-1) < mc.ComponentSpaceTransforms.length))
    (b : Nat) (T : List M × List Bool) (h : T.2.getD i false = false) :
    (fillBone E I ThisMesh MasterBoneMap Required true b T).2.getD i false = false := by
  have hgrow : (if Required.getD b 0 ≥ T.2.length then
      growTemp I T (Required.getD b 0 - T.2.length + 1) else T).2.getD i false = false := by
    split_ifs
    · exact getD_append_replicate_false T.2 _ i h
    · exact h
  unfold fillBone
  simp only []
  generalize (if Required.getD b 0 ≥ T.2.length then
      growTemp I T (Required.getD b 0 - T.2.length + 1) else T) = T1 at hgrow ⊢
  split_ifs with h1
  · cases hmc : I.MasterPoseComponent with
    | none => exact hgrow
    | some mc =>
      simp only []
      split_ifs with h2 h3
      · have hne : Required.getD b 0 ≠ i := fun he => hinv mc hmc (he ▸ h2)
        rw [getD_set_ne_flag _ _ _ _ hne]; exact hgrow
      · have hne : Required.getD b 0 ≠ i := fun he => hinv mc hmc (he ▸ h2)
        rw [getD_set_ne_flag _ _ _ _ hne]; exact hgrow
      · exact hgrow
  · exact hgrow

/-- With a valid master, `ValidTempMatrices` is false for every bone whose entry
of the bone map is not a valid index into the transforms of the master. -/
theorem fillTempMatrices_invalid (E : FEngine K M Q) (I : TickInput K M)
    (ThisMesh : SkeletalMeshData M) (Num : Nat) (MasterBoneMap : List Int) (i : Nat)
    (mc : MasterPose M) (hmc : I.MasterPoseComponent = some mc)
    (hlen : MasterBoneMap.length = ThisMesh.RefSkeletonNum)
    (hinv : ¬ (0 ≤ MasterBoneMap.getD i (-1)
      ∧ MasterBoneMap.getD i (-1) < mc.ComponentSpaceTransforms.length)) :
    (fillTempMatrices E I ThisMesh Num MasterBoneMap).2.getD i false = false := by
  have hinv2 : ∀ mc2, I.MasterPoseComponent = some mc2 →
      ¬ (0 ≤ MasterBoneMap.getD i (-1)
        ∧ MasterBoneMap.getD i (-1) < mc2.ComponentSpaceTransforms.length) := by
    intro mc2 h2
    rw [hmc] at h2
    cases h2
    exact hinv
  have hvalid : (I.MasterPoseComponent.isSome && MasterBoneMap.length == ThisMesh.RefSkeletonNum)
      = true := by simp [hmc, hlen]
  have hloop : ∀ (Required : List Nat) (n : Nat) (T : List M × List Bool),
      T.2.getD i false = false →
      (forLoop n (fillBone E I ThisMesh MasterBoneMap Required true) T).2.getD i false
        = false := by
    intro Required n T hT
    induction n with
    | zero => exact hT
    | succ k ih =>
      exact fillBone_keeps_invalid E I ThisMesh MasterBoneMap Required i hinv2 k _ ih
  have h0 : (growTemp I (([], []) : List M × List Bool) Num).2.getD i false = false :=
    getD_append_replicate_false [] Num i rfl
  unfold fillTempMatrices
  simp only [hvalid]
  apply hloop
  split_ifs
  all_goals first
    | exact h0
    | exact getD_append_replicate_false _ _ i h0

end UnmappedBoneLemmas

section UnmappedBoneTheorems

variable {K M Q : Type} [LinearOrderedField K]

/-- The skinned path, in both branches: the call succeeds and stores for every
bone its new transformation and its reference-to-local matrix. -/
theorem updateFurSkinned_matrices (F : FMath K) (E : FEngine K M Q) (P : PhysicsLocals K)
    (I : TickInput K M) (ThisMesh : SkeletalMeshData M) (C : UGFurComponent K M)
    (hN : ThisMesh.RefBasesInvMatrix.length ≠ 0)
    (h : C.ReferenceToLocal.length ≠ ThisMesh.RefBasesInvMatrix.length ∨ C.TrackedSameLength) :
    ∃ C1, updateFurSkinned F E P I ThisMesh C = some C1
      ∧ C1.Transformations = (List.range ThisMesh.RefBasesInvMatrix.length).map
          (boneNewTransformation E I
            (fillTempMatrices E I ThisMesh ThisMesh.RefBasesInvMatrix.length C.MasterBoneMap))
      ∧ C1.ReferenceToLocal = (List.range ThisMesh.RefBasesInvMatrix.length).map
          (boneReferenceToLocal E ThisMesh
            (fillTempMatrices E I ThisMesh ThisMesh.RefBasesInvMatrix.length C.MasterBoneMap)) := by
  have hloops : ∀ (T : List M × List Bool) (C0 : UGFurComponent K M), C0.TrackedSameLength →
      ((forLoop C0.ReferenceToLocal.length (physicsBone F E P I ThisMesh T) C0).Transformations
          = (List.range C0.ReferenceToLocal.length).map (boneNewTransformation E I T)
        ∧ (forLoop C0.ReferenceToLocal.length (physicsBone F E P I ThisMesh T) C0).ReferenceToLocal
          = (List.range C0.ReferenceToLocal.length).map (boneReferenceToLocal E ThisMesh T))
      ∧ ((forLoop C0.ReferenceToLocal.length (resetBone E I ThisMesh T) C0).Transformations
          = (List.range C0.ReferenceToLocal.length).map (boneNewTransformation E I T)
        ∧ (forLoop C0.ReferenceToLocal.length (resetBone E I ThisMesh T) C0).ReferenceToLocal
          = (List.range C0.ReferenceToLocal.length).map (boneReferenceToLocal E ThisMesh T)) := by
    intro T C0 hwf
    exact ⟨⟨forLoop_set_all UGFurComponent.Transformations (physicsBone F E P I ThisMesh T)
          (boneNewTransformation E I T) (fun _ _ => rfl) _ _ hwf.1,
        forLoop_set_all UGFurComponent.ReferenceToLocal (physicsBone F E P I ThisMesh T)
          (boneReferenceToLocal E ThisMesh T) (fun _ _ => rfl) _ _ rfl⟩,
      ⟨forLoop_set_all UGFurComponent.Transformations (resetBone E I ThisMesh T)
          (boneNewTransformation E I T) (fun _ _ => rfl) _ _ hwf.1,
        forLoop_set_all UGFurComponent.ReferenceToLocal (resetBone E I ThisMesh T)
          (boneReferenceToLocal E ThisMesh T) (fun _ _ => rfl) _ _ rfl⟩⟩
  have hcase : ∃ C0 : UGFurComponent K M, C0.TrackedSameLength
      ∧ C0.ReferenceToLocal.length = ThisMesh.RefBasesInvMatrix.length
      ∧ C0.MasterBoneMap = C.MasterBoneMap
      ∧ updateFurSkinned F E P I ThisMesh C
        = (if C0.OldPositionValid && LodPhysicsEnabled C0 I.CurrentFurLodLevel then
            some (forLoop C0.ReferenceToLocal.length (physicsBone F E P I ThisMesh
              (fillTempMatrices E I ThisMesh C0.ReferenceToLocal.length C0.MasterBoneMap)) C0)
          else
            some { forLoop C0.ReferenceToLocal.length (resetBone E I ThisMesh
              (fillTempMatrices E I ThisMesh C0.ReferenceToLocal.length C0.MasterBoneMap)) C0
              with OldPositionValid := true }) := by
    by_cases hm : C.ReferenceToLocal.length ≠ ThisMesh.RefBasesInvMatrix.length
    · refine ⟨resetArrays I ThisMesh.RefBasesInvMatrix.length C, ?_, ?_, rfl, ?_⟩
      · simp [UGFurComponent.TrackedSameLength, resetArrays]
      · simp [resetArrays]
      · simp only [updateFurSkinned, if_neg hN, if_pos hm]
    · rcases h with h | hwf
      · exact absurd h hm
      · refine ⟨C, hwf, not_not.mp hm, rfl, ?_⟩
        simp only [updateFurSkinned, if_neg hN, if_neg hm]
  obtain ⟨C0, hwf, hlen, hmap, hupd⟩ := hcase
  obtain ⟨⟨hp1, hp2⟩, ⟨hr1, hr2⟩⟩ := hloops
    (fillTempMatrices E I ThisMesh C0.ReferenceToLocal.length C0.MasterBoneMap) C0 hwf
  rw [hupd]
  rw [hlen, hmap] at hp1 hp2 hr1 hr2
  split_ifs
  · exact ⟨_, rfl, by rw [← hp1, hlen, hmap], by rw [← hp2, hlen, hmap]⟩
  · exact ⟨_, rfl, by rw [← hr1, hlen, hmap], by rw [← hr2, hlen, hmap]⟩

/-- C15. A missing bone mapping is not fatal. On a skinned tick (mesh with a
bone, tracked arrays of equal length) with a valid master (a master pose
component, and a bone map of the length of the skeleton), for every bone whose
entry of the bone map is the sentinel `-1` or another value that is not a valid
index into the transforms of the master: the call succeeds, the
reference-to-local matrix of the bone is the identity, and so are the target
transform of the bone and the transformation stored for it, whichever of the
physics branch and the reset branch the tick takes. -/
theorem C15_unmapped_bone_identity (F : FMath K) (E : FEngine K M Q) (I : TickInput K M)
    (C : UGFurComponent K M) (ThisMesh : SkeletalMeshData M) (mc : MasterPose M) (i : Nat)
    (hproxy : I.HasSceneProxy = true) (hmesh : I.SkeletalGrowMesh = some ThisMesh)
    (hN : ThisMesh.RefBasesInvMatrix.length ≠ 0) (hwf : C.TrackedSameLength)
    (hmc : I.MasterPoseComponent = some mc)
    (hlen : C.MasterBoneMap.length = ThisMesh.RefSkeletonNum)
    (hi : i < ThisMesh.RefBasesInvMatrix.length)
    (hinv : ¬ (0 ≤ C.MasterBoneMap.getD i (-1)
      ∧ C.MasterBoneMap.getD i (-1) < mc.ComponentSpaceTransforms.length)) :
    boneNewTransformation E I
        (fillTempMatrices E I ThisMesh ThisMesh.RefBasesInvMatrix.length C.MasterBoneMap) i
      = E.Identity
    ∧ ∃ C1 d, updateFur F E I C = some (C1, d)
      ∧ C1.ReferenceToLocal[i]? = some E.Identity
      ∧ C1.Transformations[i]? = some E.Identity := by
  have hfalse := fillTempMatrices_invalid E I ThisMesh ThisMesh.RefBasesInvMatrix.length
    C.MasterBoneMap i mc hmc hlen hinv
  have hnew : boneNewTransformation E I
      (fillTempMatrices E I ThisMesh ThisMesh.RefBasesInvMatrix.length C.MasterBoneMap) i
      = E.Identity := by
    simp only [boneNewTransformation, hfalse, Bool.false_eq_true, if_false]
  have hrtl : boneReferenceToLocal E ThisMesh
      (fillTempMatrices E I ThisMesh ThisMesh.RefBasesInvMatrix.length C.MasterBoneMap) i
      = E.Identity := by
    simp only [boneReferenceToLocal, hfalse, Bool.false_eq_true, if_false]
  obtain ⟨C1, hC1, hT, hR⟩ := updateFurSkinned_matrices F E
    (physicsLocals F C.toFurPhysicsSettings I.FurLengths) I ThisMesh C hN (Or.inr hwf)
  obtain ⟨r, d, hr⟩ := updateFur_skinned F E I C C1 ThisMesh hproxy hmesh hC1
  refine ⟨hnew, _, d, hr, ?_, ?_⟩
  · show C1.ReferenceToLocal[i]? = _
    rw [hR, List.getElem?_map, List.getElem?_range hi, Option.map_some', hrtl]
  · show C1.Transformations[i]? = _
    rw [hT, List.getElem?_map, List.getElem?_range hi, Option.map_some', hnew]

/-- Witness of C15: the component whose bone 1 is unmapped, on a tick with the
master pose of two bones (physics branch). -/
theorem C15_unmapped_bone_identity_witness :
    (masterInput : TickInput ℝ (FVector ℝ)).HasSceneProxy = true
    ∧ (halfMappedComponent : UGFurComponent ℝ (FVector ℝ)).TrackedSameLength
    ∧ (halfMappedComponent : UGFurComponent ℝ (FVector ℝ)).MasterBoneMap.length
        = (twoBoneMesh : SkeletalMeshData (FVector ℝ)).RefSkeletonNum
    ∧ ¬ (0 ≤ (halfMappedComponent : UGFurComponent ℝ (FVector ℝ)).MasterBoneMap.getD 1 (-1)
        ∧ (halfMappedComponent : UGFurComponent ℝ (FVector ℝ)).MasterBoneMap.getD 1 (-1)
          < ((twoBoneMaster : MasterPose (FVector ℝ)).ComponentSpaceTransforms.length : Int))
    ∧ ∃ C1 d, updateFur (⟨Real.sin, Real.cos, Real.sqrt, fun a b => a ^ b, Real.pi⟩ : FMath ℝ)
        translationEngine masterInput halfMappedComponent = some (C1, d)
      ∧ C1.ReferenceToLocal[1]? = some ⟨0, 0, 0⟩
      ∧ C1.Transformations[1]? = some ⟨0, 0, 0⟩ :=
  have h1 : (halfMappedComponent : UGFurComponent ℝ (FVector ℝ)).TrackedSameLength := by
    simp [UGFurComponent.TrackedSameLength, halfMappedComponent]
  have h2 : ¬ (0 ≤ (halfMappedComponent : UGFurComponent ℝ (FVector ℝ)).MasterBoneMap.getD 1 (-1)
      ∧ (halfMappedComponent : UGFurComponent ℝ (FVector ℝ)).MasterBoneMap.getD 1 (-1)
        < ((twoBoneMaster : MasterPose (FVector ℝ)).ComponentSpaceTransforms.length : Int)) := by
    simp [halfMappedComponent]
  ⟨rfl, h1, rfl, h2,
    (C15_unmapped_bone_identity _ translationEngine masterInput halfMappedComponent twoBoneMesh
      twoBoneMaster 1 rfl rfl (by simp [twoBoneMesh]) h1 rfl rfl (by simp [twoBoneMesh]) h2).2⟩

end UnmappedBoneTheorems


section FrameLoopLemmas

end FrameLoopLemmas

section EnablementTheorems

variable {K M Q : Type} [LinearOrderedField K]

end EnablementTheorems

section BoneMapTheorems

variable {K M : Type}

/-- The bone map after `UpdateMasterBoneMap` when both meshes and the master
component are there. -/
theorem UpdateMasterBoneMap_some (GrowMesh ParentMesh : SkeletalMeshSkeleton)
    (uninit : Nat → Int) (C : UGFurComponent K M) :
    (UpdateMasterBoneMap (some GrowMesh) (some (some ParentMesh)) uninit C).MasterBoneMap
      = if GrowMesh.Object = ParentMesh.Object then
          (List.range GrowMesh.BoneNames.length).map (fun (i : Nat) => (i : Int))
        else
          (List.range GrowMesh.BoneNames.length).map
            (fun i => FindBoneIndex ParentMesh.BoneNames (GrowMesh.BoneNames.getD i 0)) := by
  have hlen : ((List.range GrowMesh.BoneNames.length).map uninit).length
      = GrowMesh.BoneNames.length := by simp
  simp only [UpdateMasterBoneMap]
  split_ifs
  · rw [hlen]
    exact forLoop_set_all id _ (fun (i : Nat) => (i : Int)) (fun _ _ => rfl) _ _ hlen
  · rw [hlen]
    exact forLoop_set_all id _
      (fun i => FindBoneIndex ParentMesh.BoneNames (GrowMesh.BoneNames.getD i 0))
      (fun _ _ => rfl) _ _ hlen

/-- C13. Identity bone mapping: when the skeletal mesh of the fur component and
the skeletal mesh of the master component are the same object,
`UpdateMasterBoneMap` leaves the map `[0, 1, ..., N - 1]` of the length `N` of
the skeleton: `map[i] = i` for every `i < N`. -/
theorem C13_identity_bone_map (GrowMesh ParentMesh : SkeletalMeshSkeleton)
    (uninit : Nat → Int) (C : UGFurComponent K M)
    (hsame : GrowMesh.Object = ParentMesh.Object) :
    (UpdateMasterBoneMap (some GrowMesh) (some (some ParentMesh)) uninit C).MasterBoneMap
        = (List.range GrowMesh.BoneNames.length).map (fun (i : Nat) => (i : Int))
    ∧ (UpdateMasterBoneMap (some GrowMesh) (some (some ParentMesh)) uninit C).MasterBoneMap.length
        = GrowMesh.BoneNames.length
    ∧ ∀ i, i < GrowMesh.BoneNames.length →
        (UpdateMasterBoneMap (some GrowMesh) (some (some ParentMesh)) uninit
          C).MasterBoneMap[i]? = some (i : Int) := by
  rw [UpdateMasterBoneMap_some, if_pos hsame]
  refine ⟨rfl, by simp, fun i hi => ?_⟩
  rw [List.getElem?_map, List.getElem?_range hi]
  rfl

/-- Witness of C13: the skeleton of three bones mapped to itself. -/
theorem C13_identity_bone_map_witness :
    growSkeleton.Object = growSkeleton.Object
    ∧ (UpdateMasterBoneMap (some growSkeleton) (some (some growSkeleton)) (fun _ => 99)
        (freshComponent : UGFurComponent ℚ (FVector ℚ))).MasterBoneMap = [0, 1, 2] :=
  ⟨rfl, (C13_identity_bone_map growSkeleton growSkeleton (fun _ => 99) freshComponent rfl).1⟩

/-- The result of `FindBoneIndex`: an index of a bone with the name, or `-1`
when no bone has the name. -/
theorem FindBoneIndex_spec (BoneNames : List FName) (BoneName : FName) :
    (BoneName ∈ BoneNames ∧ ∃ j : Nat, FindBoneIndex BoneNames BoneName = (j : Int)
        ∧ BoneNames[j]? = some BoneName)
    ∨ (BoneName ∉ BoneNames ∧ FindBoneIndex BoneNames BoneName = -1) := by
  by_cases h : BoneName ∈ BoneNames
  · left
    refine ⟨h, BoneNames.indexOf BoneName, by simp [FindBoneIndex, h], ?_⟩
    have hlt : BoneNames.indexOf BoneName < BoneNames.length := List.indexOf_lt_length.mpr h
    rw [List.getElem?_eq_getElem hlt]
    simp
  · right
    exact ⟨h, by simp [FindBoneIndex, h]⟩

/-- C14. Name-based bone mapping. When the master mesh is another object than
the fur mesh, `UpdateMasterBoneMap` leaves a map of the length `N` of the
skeleton of the fur mesh, in which for every bone `i < N` the entry is the index
of a bone of the master skeleton with the name of bone `i`, or `-1` when the
master skeleton has no bone of that name. Without a fur mesh, a valid master
component or a master mesh the map is empty. -/
theorem C14_name_bone_map (uninit : Nat → Int) (C : UGFurComponent K M) :
    (∀ GrowMesh ParentMesh : SkeletalMeshSkeleton, GrowMesh.Object ≠ ParentMesh.Object →
      (UpdateMasterBoneMap (some GrowMesh) (some (some ParentMesh)) uninit
          C).MasterBoneMap.length = GrowMesh.BoneNames.length
      ∧ ∀ i, i < GrowMesh.BoneNames.length →
        ∃ BoneName, GrowMesh.BoneNames[i]? = some BoneName
          ∧ ((BoneName ∈ ParentMesh.BoneNames
              ∧ ∃ j : Nat, (UpdateMasterBoneMap (some GrowMesh) (some (some ParentMesh)) uninit
                    C).MasterBoneMap[i]? = some (j : Int)
                ∧ ParentMesh.BoneNames[j]? = some BoneName)
            ∨ (BoneName ∉ ParentMesh.BoneNames
              ∧ (UpdateMasterBoneMap (some GrowMesh) (some (some ParentMesh)) uninit
                  C).MasterBoneMap[i]? = some (-1))))
    ∧ (∀ Master, (UpdateMasterBoneMap none Master uninit C).MasterBoneMap = [])
    ∧ (∀ Grow, (UpdateMasterBoneMap Grow none uninit C).MasterBoneMap = [])
    ∧ (∀ Grow, (UpdateMasterBoneMap Grow (some none) uninit C).MasterBoneMap = []) := by
  refine ⟨fun GrowMesh ParentMesh hne => ?_, fun Master => ?_, fun Grow => ?_, fun Grow => ?_⟩
  · rw [UpdateMasterBoneMap_some, if_neg hne]
    refine ⟨by simp, fun i hi => ?_⟩
    refine ⟨GrowMesh.BoneNames[i], List.getElem?_eq_getElem hi, ?_⟩
    have hget : GrowMesh.BoneNames.getD i 0 = GrowMesh.BoneNames[i] := by
      simp [List.getD_eq_getElem?_getD, List.getElem?_eq_getElem hi]
    rw [List.getElem?_map, List.getElem?_range hi, Option.map_some', hget]
    rcases FindBoneIndex_spec ParentMesh.BoneNames GrowMesh.BoneNames[i] with
      ⟨hmem, j, hj, hname⟩ | ⟨hmem, hj⟩
    · exact Or.inl ⟨hmem, j, by rw [hj], hname⟩
    · exact Or.inr ⟨hmem, by rw [hj]⟩
  · cases Master <;> rfl
  · cases Grow <;> rfl
  · cases Grow <;> rfl

/-- Witness of C14: the skeleton 10, 11, 12 against the master skeleton
11, 10, 13 gives the map `[1, 0, -1]`. -/
theorem C14_name_bone_map_witness :
    growSkeleton.Object ≠ masterSkeleton.Object
    ∧ (UpdateMasterBoneMap (some growSkeleton) (some (some masterSkeleton)) (fun _ => 99)
        (freshComponent : UGFurComponent ℚ (FVector ℚ))).MasterBoneMap.length
      = growSkeleton.BoneNames.length
    ∧ (UpdateMasterBoneMap (some growSkeleton) (some (some masterSkeleton)) (fun _ => 99)
        (freshComponent : UGFurComponent ℚ (FVector ℚ))).MasterBoneMap = [1, 0, -1] :=
  ⟨by decide,
    ((C14_name_bone_map (fun _ => 99) (freshComponent : UGFurComponent ℚ (FVector ℚ))).1
      growSkeleton masterSkeleton (by decide)).1,
    by rw [UpdateMasterBoneMap_some]; decide⟩

end BoneMapTheorems

section MorphRemapLemmas

/-- An invariant kept by every iteration of a counted loop holds after it. -/
theorem forLoop_invariant {σ : Type} (Inv : σ → Prop) (body : Nat → σ → σ) (n : Nat)
    (h : ∀ i s, i < n → Inv s → Inv (body i s)) (s : σ) (hs : Inv s) :
    Inv (forLoop n body s) := by
  induction n with
  | zero => exact hs
  | succ k ih =>
    exact h k _ (Nat.lt_succ_self k) (ih (fun i s hi => h i s (Nat.lt_succ_of_lt hi)))

/-- An invariant kept by every step of a loop over a list holds after it. -/
theorem foldl_invariant {σ α : Type} (Inv : σ → Prop) (f : σ → α → σ) (l : List α)
    (h : ∀ a ∈ l, ∀ s, Inv s → Inv (f s a)) (s : σ) (hs : Inv s) : Inv (l.foldl f s) := by
  induction l generalizing s with
  | nil => exact hs
  | cons a rest ih =>
    exact ih (fun b hb => h b (List.mem_cons_of_mem _ hb)) _
      (h a (List.mem_cons_self _ _) s hs)

/-- The indices in a chain of the hash table of a section are indices of
vertices of the section. -/
theorem hashTable_chain_mem (key : Nat → Nat) (Base N Key j : Nat)
    (h : j ∈ (forLoop N (fun t (hashTable : FHashTable) =>
      hashTable.Add (key t) (Base + t)) ⟨[]⟩).chain Key) :
    Base ≤ j ∧ j < Base + N := by
  induction N with
  | zero => simp [forLoop, FHashTable.chain] at h
  | succ k ih =>
    simp only [forLoop, FHashTable.chain, FHashTable.Add, List.filter_cons] at h
    split_ifs at h
    · rcases List.mem_map.mp h with ⟨e, he, hej⟩
      rcases List.mem_cons.mp he with he1 | he2
      · subst he1
        simp only at hej
        omega
      · have := ih (List.mem_map.mpr ⟨e, he2, hej⟩)
        omega
    · have := ih h
      omega

end MorphRemapLemmas

section MorphRemapTheorems

variable {K : Type} [LinearOrderedField K]

/-- A pair of vertices that passes `Compare` matches. -/
theorem morphCompare_sound (UVCount : Nat) (MasterLodModel LodModel : LodRenderData K)
    (i j : Nat) (h : morphCompare UVCount MasterLodModel LodModel i j = true) :
    verticesMatch UVCount MasterLodModel LodModel i j := by
  unfold morphCompare at h
  simp only [] at h
  split_ifs at h with hc
  obtain ⟨h1, h2, h3, h4⟩ := hc
  refine ⟨h1, h2, h3, h4, fun k hk => ?_⟩
  have := List.all_eq_true.mp h k (List.mem_range.mpr hk)
  exact of_decide_eq_true this

/-- The loop over a chain keeps the length of the table, and keeps it sound
when the chain holds indices of a fur section with the material index of a
master section that contains the master vertex. -/
theorem morphTryChain_sound (MasterLodModel LodModel : LodRenderData K) (i : Nat)
    (MasterSection Section : FSkelMeshRenderSection)
    (hMS : MasterSection ∈ MasterLodModel.RenderSections)
    (hS : Section ∈ LodModel.RenderSections)
    (hmat : MasterSection.MaterialIndex = Section.MaterialIndex)
    (hi : MasterSection.contains i) (chain : List Nat)
    (hchain : ∀ j ∈ chain, Section.contains j) (table : List Int) (n : Nat)
    (htable : table.length = n ∧ ∀ a v, table[a]? = some v →
      entrySound MasterLodModel LodModel a v) :
    (morphTryChain (min MasterLodModel.NumTexCoords LodModel.NumTexCoords) MasterLodModel
        LodModel i chain table).length = n
    ∧ ∀ a v, (morphTryChain (min MasterLodModel.NumTexCoords LodModel.NumTexCoords)
        MasterLodModel LodModel i chain table)[a]? = some v →
      entrySound MasterLodModel LodModel a v := by
  induction chain with
  | nil => exact htable
  | cons Idx rest ih =>
    unfold morphTryChain
    split_ifs with hc
    · refine ⟨by rw [List.length_set]; exact htable.1, fun a v hav => ?_⟩
      by_cases hia : i = a
      · subst hia
        have hlt : i < table.length := by
          have := (List.getElem?_eq_some.mp hav).1
          rwa [List.length_set] at this
        rw [List.getElem?_set_self hlt] at hav
        cases hav
        exact Or.inr ⟨Idx, rfl, morphCompare_sound _ _ _ _ _ hc, MasterSection, hMS, Section, hS,
          hmat, hi, hchain Idx (List.mem_cons_self _ _)⟩
      · rw [List.getElem?_set_ne hia] at hav
        exact htable.2 a v hav
    · exact ih (fun j hj => hchain j (List.mem_cons_of_mem _ hj))

/-- The table built by lines 985-1092 has one entry for each vertex of the
master LOD, and every entry is sound. -/
theorem buildMorphRemapTable_sound (FLT_MAX : K) (toUInt16 : K → Nat) (uninit : Nat → Int)
    (MasterLodModel LodModel : LodRenderData K) :
    (buildMorphRemapTable FLT_MAX toUInt16 uninit MasterLodModel LodModel).length
        = MasterLodModel.Vertices.length
    ∧ ∀ a v, (buildMorphRemapTable FLT_MAX toUInt16 uninit MasterLodModel LodModel)[a]? = some v →
        entrySound MasterLodModel LodModel a v := by
  have hinit : forLoop MasterLodModel.Vertices.length (fun i (table : List Int) => table.set i (-1))
      ((List.range MasterLodModel.Vertices.length).map uninit)
      = (List.range MasterLodModel.Vertices.length).map (fun _ => (-1 : Int)) :=
    forLoop_set_all id _ (fun _ => (-1 : Int)) (fun _ _ => rfl) _ _ (by simp)
  unfold buildMorphRemapTable
  simp only [hinit]
  apply foldl_invariant (fun table : List Int => table.length = MasterLodModel.Vertices.length
    ∧ ∀ a v, table[a]? = some v → entrySound MasterLodModel LodModel a v)
  · intro MasterSection hMS table htable
    apply forLoop_invariant (fun table : List Int =>
      table.length = MasterLodModel.Vertices.length
      ∧ ∀ a v, table[a]? = some v → entrySound MasterLodModel LodModel a v)
    · intro SectionIndex table hSI htable
      have hsec : LodModel.RenderSections.getD SectionIndex ⟨0, 0, 0⟩
          = LodModel.RenderSections[SectionIndex] := by
        simp [List.getD_eq_getElem?_getD, List.getElem?_eq_getElem hSI]
      split_ifs with hmat
      · apply forLoop_invariant (fun table : List Int =>
          table.length = MasterLodModel.Vertices.length
          ∧ ∀ a v, table[a]? = some v → entrySound MasterLodModel LodModel a v)
        · intro t table ht htable
          refine morphTryChain_sound MasterLodModel LodModel _ MasterSection
            LodModel.RenderSections[SectionIndex] hMS (List.getElem_mem _) (hsec ▸ hmat)
            ⟨Nat.le_add_right _ _, by omega⟩ _ (fun j hj => ?_) table _ htable
          have htab : (morphHashTables
              (morphHash toUInt16 (morphBounds FLT_MAX LodModel).1 (morphBounds FLT_MAX LodModel).2)
              LodModel).getD SectionIndex ⟨[]⟩
              = forLoop LodModel.RenderSections[SectionIndex].NumVertices
                (fun t (hashTable : FHashTable) =>
                  hashTable.Add (morphHash toUInt16 (morphBounds FLT_MAX LodModel).1
                      (morphBounds FLT_MAX LodModel).2
                      (LodModel.vertex
                        (LodModel.RenderSections[SectionIndex].BaseVertexIndex + t)).Position)
                    (LodModel.RenderSections[SectionIndex].BaseVertexIndex + t))
                ⟨[]⟩ := by
            simp [morphHashTables, List.getD_eq_getElem?_getD, List.getElem?_eq_getElem hSI]
          rw [htab] at hj
          exact hashTable_chain_mem _ _ _ _ _ hj
        · exact htable
      · exact htable
    · exact htable
  · refine ⟨by simp, fun a v hav => ?_⟩
    rw [List.getElem?_map] at hav
    cases hr : (List.range MasterLodModel.Vertices.length)[a]? with
    | none => rw [hr] at hav; cases hav
    | some b =>
      rw [hr] at hav
      cases hav
      exact Or.inl rfl

/-- C16. The morph remap table is a cache: a call of `CreateMorphRemapTable`
for a LOD whose table is not empty returns with all the tables unchanged; and a
second call with the same arguments after a call that succeeded changes
nothing. -/
theorem C16_morph_remap_cache (FLT_MAX : K) (toUInt16 : K → Nat) (uninit : Nat → Int)
    (MasterMesh : Option (List (LodRenderData K))) (Mesh : List (LodRenderData K))
    (InLod : Nat) (MorphRemapTables : List (List Int)) :
    ((MorphRemapTables.getD InLod []).length > 0 →
      CreateMorphRemapTable FLT_MAX toUInt16 uninit MasterMesh Mesh InLod MorphRemapTables
        = some MorphRemapTables)
    ∧ (∀ Tables1, CreateMorphRemapTable FLT_MAX toUInt16 uninit MasterMesh Mesh InLod
          MorphRemapTables = some Tables1 →
        CreateMorphRemapTable FLT_MAX toUInt16 uninit MasterMesh Mesh InLod Tables1
          = some Tables1) := by
  have hfirst : ∀ Tables : List (List Int), (Tables.getD InLod []).length > 0 →
      CreateMorphRemapTable FLT_MAX toUInt16 uninit MasterMesh Mesh InLod Tables
        = some Tables := by
    intro Tables h
    simp only [CreateMorphRemapTable, if_pos h]
  refine ⟨hfirst MorphRemapTables, fun Tables1 h1 => ?_⟩
  by_cases hne : (MorphRemapTables.getD InLod []).length > 0
  · rw [hfirst MorphRemapTables hne] at h1
    cases h1
    exact hfirst MorphRemapTables hne
  · simp only [CreateMorphRemapTable, if_neg hne] at h1
    cases hM : MasterMesh with
    | none => rw [hM] at h1; cases h1
    | some MasterLODRenderData =>
      rw [hM] at h1
      simp only [Option.some.injEq] at h1
      by_cases hne1 : (Tables1.getD InLod []).length > 0
      · rw [← hM]; exact hfirst Tables1 hne1
      · simp only [CreateMorphRemapTable, if_neg hne1, Option.some.injEq]
        rw [← h1, List.set_set]

/-- Witness of C16: a table with one entry at LOD 0 and an empty table at
LOD 1; the call for LOD 0 changes nothing. -/
theorem C16_morph_remap_cache_witness :
    (([[5], []] : List (List Int)).getD 0 []).length > 0
    ∧ CreateMorphRemapTable (1000 : ℚ) (fun _ => 0) (fun _ => 99) none [] 0 [[5], []]
      = some [[5], []] :=
  ⟨by decide,
    (C16_morph_remap_cache (1000 : ℚ) (fun _ => 0) (fun _ => 99) none [] 0 [[5], []]).1
      (by decide)⟩

/-- C17. Soundness of the morph remap table. When the table of the LOD is empty
(and the LOD has a table, and the render resource of the master mesh is there),
`CreateMorphRemapTable` succeeds and the table it leaves for the LOD has one
entry for each vertex of the master LOD; every entry is `-1` or the index `j`
of a vertex of the fur LOD whose position, three tangent vectors and UVs in the
compared channels equal those of the master vertex, with `j` in a section of
the fur LOD whose material index is that of a section of the master LOD that
contains the master vertex. -/
theorem C17_morph_remap_sound (FLT_MAX : K) (toUInt16 : K → Nat) (uninit : Nat → Int)
    (MasterLODRenderData Mesh : List (LodRenderData K)) (InLod : Nat)
    (MorphRemapTables : List (List Int))
    (hlod : InLod < MorphRemapTables.length)
    (hempty : (MorphRemapTables.getD InLod []).length = 0) :
    ∃ Tables1 table,
      CreateMorphRemapTable FLT_MAX toUInt16 uninit (some MasterLODRenderData) Mesh InLod
        MorphRemapTables = some Tables1
      ∧ Tables1[InLod]? = some table
      ∧ table.length = (MasterLODRenderData.getD InLod ⟨[], [], 0⟩).Vertices.length
      ∧ ∀ i v, table[i]? = some v →
          entrySound (MasterLODRenderData.getD InLod ⟨[], [], 0⟩) (Mesh.getD InLod ⟨[], [], 0⟩)
            i v := by
  obtain ⟨h1, h2⟩ := buildMorphRemapTable_sound FLT_MAX toUInt16 uninit
    (MasterLODRenderData.getD InLod ⟨[], [], 0⟩) (Mesh.getD InLod ⟨[], [], 0⟩)
  refine ⟨MorphRemapTables.set InLod (buildMorphRemapTable FLT_MAX toUInt16 uninit
      (MasterLODRenderData.getD InLod ⟨[], [], 0⟩) (Mesh.getD InLod ⟨[], [], 0⟩)),
    buildMorphRemapTable FLT_MAX toUInt16 uninit
      (MasterLODRenderData.getD InLod ⟨[], [], 0⟩) (Mesh.getD InLod ⟨[], [], 0⟩),
    ?_, List.getElem?_set_self hlod, h1, h2⟩
  simp only [CreateMorphRemapTable, hempty, gt_iff_lt, lt_self_iff_false, if_false]

/-- Witness of C17: a master LOD of three vertices against a fur LOD of two
vertices, with one empty table. -/
theorem C17_morph_remap_sound_witness :
    0 < ([[]] : List (List Int)).length
    ∧ (([[]] : List (List Int)).getD 0 []).length = 0
    ∧ ∃ Tables1 table,
      CreateMorphRemapTable (1000 : ℚ) (fun _ => 0) (fun _ => 99) (some [sampleMasterLod])
        [sampleFurLod] 0 [[]] = some Tables1
      ∧ Tables1[0]? = some table
      ∧ table.length = (([sampleMasterLod] : List (LodRenderData ℚ)).getD 0
          ⟨[], [], 0⟩).Vertices.length
      ∧ ∀ i v, table[i]? = some v →
          entrySound (([sampleMasterLod] : List (LodRenderData ℚ)).getD 0 ⟨[], [], 0⟩)
            (([sampleFurLod] : List (LodRenderData ℚ)).getD 0 ⟨[], [], 0⟩) i v :=
  ⟨by decide, by decide,
    C17_morph_remap_sound (1000 : ℚ) (fun _ => 0) (fun _ => 99) [sampleMasterLod] [sampleFurLod]
      0 [[]] (by decide) (by decide)⟩

end MorphRemapTheorems

section HarmonicTheorems

variable {K M Q : Type} [LinearOrderedField K]

end HarmonicTheorems

section LodMonotone

variable {K : Type} [LinearOrderedField K]

/-- A level that passes the test of line 98 for a squared radius passes it for
every smaller squared radius. -/
theorem lodPasses_mono (L : List (FFurLod K)) (r1 r2 : K) (h : r1 ≤ r2) (l : Nat)
    (hp : lodPasses L r2 l) : lodPasses L r1 l := by
  obtain ⟨h1, lod, hlod, hgt⟩ := hp
  exact ⟨h1, lod, hlod, lt_of_le_of_lt h hgt⟩

/-- The selection for a single visible view: `FurData.Num() - 1` clamped from
`0x7fffffff` below the floor, and above the floor the level found by the scan,
or 0 when the scan finds none, clamped to `FurData.Num() - 1`. -/
theorem selectLod_one_view (p : FFurSceneProxy K) (MinScreenSize r : K) (VisibilityMap : Nat)
    (hvis : viewVisible VisibilityMap 0 = true) :
    selectLod p MinScreenSize [r] VisibilityMap
      = if Square (MinScreenSize * (1 / 2)) < r then
          match scanLods p.FurLods r (p.FurData.length - 1) with
          | some l => min (min 0x7fffffff (l : Int)) ((p.FurData.length : Int) - 1)
          | none => min 0 ((p.FurData.length : Int) - 1)
        else min 0x7fffffff ((p.FurData.length : Int) - 1) := by
  by_cases hfloor : Square (MinScreenSize * (1 / 2)) < r
  · cases hscan : scanLods p.FurLods r (p.FurData.length - 1) with
    | none => simp only [selectLod, lodViews, hvis, if_true, if_pos hfloor, hscan]
    | some l => simp only [selectLod, lodViews, hvis, if_true, if_pos hfloor, hscan]
  · simp only [selectLod, lodViews, hvis, if_true, if_neg hfloor, min_self]

/-- C26. The LOD selection is monotone in the projected size: for a single
visible view, any list of LOD thresholds, any `MinScreenSize` and any number of
levels, if the squared screen radius `r1` is at most `r2` then the index selected
for `r1` is at least the index selected for `r2`. -/
theorem C26_lod_monotone (p : FFurSceneProxy K) (MinScreenSize r1 r2 : K) (VisibilityMap : Nat)
    (hvis : viewVisible VisibilityMap 0 = true) (h : r1 ≤ r2) :
    selectLod p MinScreenSize [r2] VisibilityMap ≤ selectLod p MinScreenSize [r1] VisibilityMap := by
  rw [selectLod_one_view p MinScreenSize r1 VisibilityMap hvis,
    selectLod_one_view p MinScreenSize r2 VisibilityMap hvis]
  have hs1 := scanLods_spec p.FurLods r1 (p.FurData.length - 1)
  have hs2 := scanLods_spec p.FurLods r2 (p.FurData.length - 1)
  by_cases hf1 : Square (MinScreenSize * (1 / 2)) < r1
  · have hf2 : Square (MinScreenSize * (1 / 2)) < r2 := lt_of_lt_of_le hf1 h
    rw [if_pos hf1, if_pos hf2]
    cases h2 : scanLods p.FurLods r2 (p.FurData.length - 1) with
    | none =>
      cases h1 : scanLods p.FurLods r1 (p.FurData.length - 1) with
      | none => exact le_refl _
      | some l1 =>
        exact min_le_min (le_min (by norm_num) (Int.natCast_nonneg _)) le_rfl
    | some l2 =>
      obtain ⟨hl2, hp2, _⟩ := hs2.1 l2 h2
      have hp1 := lodPasses_mono p.FurLods r1 r2 h l2 hp2
      cases h1 : scanLods p.FurLods r1 (p.FurData.length - 1) with
      | none => exact absurd hp1 (hs1.2 h1 l2 hl2)
      | some l1 =>
        obtain ⟨_, _, hmax⟩ := hs1.1 l1 h1
        have hle : l2 ≤ l1 := by
          by_contra hlt
          exact hmax l2 (by omega) hl2 hp1
        exact min_le_min (min_le_min le_rfl (by exact_mod_cast hle)) le_rfl
  · rw [if_neg hf1]
    by_cases hf2 : Square (MinScreenSize * (1 / 2)) < r2
    · rw [if_pos hf2]
      cases h2 : scanLods p.FurLods r2 (p.FurData.length - 1) with
      | none => exact min_le_min (by norm_num) le_rfl
      | some l2 => exact min_le_min (min_le_left _ _) le_rfl
    · rw [if_neg hf2]

/-- Witness of C26: the proxy with four levels, one visible view, and the
squared radii `1/100` and `1/10`. -/
theorem C26_lod_monotone_witness :
    viewVisible 1 0 = true
    ∧ (1 / 100 : ℚ) ≤ 1 / 10
    ∧ selectLod (fourLevelProxy : FFurSceneProxy ℚ) (1 / 100) [1 / 10] 1
        ≤ selectLod (fourLevelProxy : FFurSceneProxy ℚ) (1 / 100) [1 / 100] 1 :=
  ⟨by decide, by norm_num,
    C26_lod_monotone fourLevelProxy (1 / 100) (1 / 100) (1 / 10) 1 (by decide) (by norm_num)⟩

end LodMonotone

section BookkeepingTheorems

/-- The loop of lines 124-125 sums the section counts of the levels below
`n`. -/
theorem forLoop_sections (FurData : List FurDataInfo) (n : Nat) :
    forLoop n
      (fun i SectionOffset => SectionOffset + ((FurData.getD i ⟨0, []⟩).Sections.length : Int)) 0
      = ((FurData.take n).map (fun d => (d.Sections.length : Int))).sum := by
  induction n with
  | zero => simp [forLoop]
  | succ k ih =>
    simp only [forLoop, ih, List.take_succ, List.map_append, List.sum_append]
    cases hk : FurData[k]? with
    | none => simp [List.getD, hk]
    | some d => simp [List.getD, hk]

/-- The bookkeeping of lines 119-126 for a level that is an index of `FurData`:
it is consistent afterwards when it was consistent before or when the level
changes, `FurData` is not touched, and nothing is written when the level is the
current one. -/
theorem applyLod_bookkeeping {K : Type} (p : FFurSceneProxy K) (l : Int) (h0 : 0 ≤ l)
    (hl : l < (p.FurData.length : Int)) :
    (applyLod p l).FurData = p.FurData
    ∧ ((lodBookkeeping p ∨ l ≠ p.CurrentFurLodLevel) → lodBookkeeping (applyLod p l))
    ∧ (l = p.CurrentFurLodLevel → applyLod p l = p) := by
  by_cases h : l ≠ p.CurrentFurLodLevel
  · have hlt : l.toNat < p.FurData.length := by omega
    refine ⟨by simp only [applyLod, if_pos h], fun _ => ?_, fun e => absurd e h⟩
    simp only [applyLod, if_pos h, lodBookkeeping]
    refine ⟨h0, hl, ?_, p.FurData[l.toNat], ?_, ?_⟩
    · rw [forLoop_sections]; rfl
    · exact List.getElem?_eq_getElem hlt
    · simp [List.getD, List.getElem?_eq_getElem hlt]
  · have e : applyLod p l = p := by simp only [applyLod, if_neg h]
    rw [e]
    exact ⟨rfl, fun hp => hp.resolve_right h, fun _ => rfl⟩

variable {K : Type} [LinearOrderedField K]

/-- The loop over the views leaves a nonnegative level when entered with
one. -/
theorem lodViews_nonneg (MinScreenSize : K) (L : List (FFurLod K)) (N V : Nat) (Views : List K)
    (i : Nat) (New : Int) (hNew : 0 ≤ New) : 0 ≤ lodViews MinScreenSize L N V Views i New := by
  induction Views generalizing i New with
  | nil => exact hNew
  | cons r rest ih =>
    unfold lodViews
    split_ifs
    · cases scanLods L r (N - 1) with
      | none => exact le_refl _
      | some l => exact ih _ _ (le_min hNew (Int.natCast_nonneg _))
    · exact ih _ _ (le_min hNew (by norm_num))
    · exact ih _ _ hNew

/-- The selected level is an index of `FurData` when there is a level. -/
theorem selectLod_range (p : FFurSceneProxy K) (MinScreenSize : K) (Views : List K) (V : Nat)
    (hN : 1 ≤ p.FurData.length) :
    0 ≤ selectLod p MinScreenSize Views V
      ∧ selectLod p MinScreenSize Views V < (p.FurData.length : Int) := by
  have hN1 : (1 : Int) ≤ (p.FurData.length : Int) := by exact_mod_cast hN
  have h0 := lodViews_nonneg MinScreenSize p.FurLods p.FurData.length V Views 0 0x7fffffff
    (by norm_num)
  unfold selectLod
  refine ⟨le_min h0 (by linarith), lt_of_le_of_lt (min_le_right _ _) (by linarith)⟩

/-- C23. Invariant of the section offset bookkeeping. From the state of a new
proxy (current fur LOD level 0, mesh LOD 0, section offset 0, the first fur
data built for mesh LOD 0) with at least one level, after every sequence of LOD
evaluations over the same fur data: `FurData` is as before, the current fur LOD
level is an index of it, `SectionOffset` is the sum of the section counts of
the fur LOD levels below the current one, and `CurrentMeshLodLevel` is the mesh
LOD of the fur data of the current level. An evaluation that selects the
current level again writes nothing. -/
theorem C23_section_offset_invariant (p : FFurSceneProxy K) (frames : List (K × List K × Nat))
    (hN : 1 ≤ p.FurData.length) (hcur : p.CurrentFurLodLevel = 0)
    (hmesh : p.CurrentMeshLodLevel = 0) (hoff : p.SectionOffset = 0)
    (hfirst : ∀ d, p.FurData[0]? = some d → d.Lod = 0) :
    (renderFrames p frames).FurData = p.FurData
    ∧ lodBookkeeping (renderFrames p frames)
    ∧ ∀ (MinScreenSize : K) (Views : List K) (VisibilityMap : Nat),
        selectLod (renderFrames p frames) MinScreenSize Views VisibilityMap
          = (renderFrames p frames).CurrentFurLodLevel →
        (GetDynamicMeshElements (renderFrames p frames) MinScreenSize Views VisibilityMap).1
          = renderFrames p frames := by
  have hinit : lodBookkeeping p := by
    have hN1 : (1 : Int) ≤ (p.FurData.length : Int) := by exact_mod_cast hN
    have hlt : 0 < p.FurData.length := hN
    refine ⟨by omega, by omega, ?_, p.FurData[0], ?_, ?_⟩
    · rw [hoff, hcur]; simp [sectionsBelow]
    · rw [hcur]; exact List.getElem?_eq_getElem hlt
    · rw [hmesh]; exact (hfirst _ (List.getElem?_eq_getElem hlt)).symm
  have hpres : ∀ (fs : List (K × List K × Nat)) (q : FFurSceneProxy K),
      1 ≤ q.FurData.length → lodBookkeeping q →
      (renderFrames q fs).FurData = q.FurData ∧ lodBookkeeping (renderFrames q fs) := by
    intro fs
    induction fs with
    | nil => exact fun q _ hq => ⟨rfl, hq⟩
    | cons f rest ih =>
      intro q hq hb
      obtain ⟨r0, r1⟩ := selectLod_range q f.1 f.2.1 f.2.2 hq
      obtain ⟨a1, a2, _⟩ := applyLod_bookkeeping q _ r0 r1
      have := ih (GetDynamicMeshElements q f.1 f.2.1 f.2.2).1
        (by simp only [GetDynamicMeshElements]; rw [a1]; exact hq)
        (by simp only [GetDynamicMeshElements]; exact a2 (Or.inl hb))
      simp only [renderFrames]
      refine ⟨this.1.trans ?_, this.2⟩
      simp only [GetDynamicMeshElements]
      exact a1
  obtain ⟨e1, e2⟩ := hpres frames p hN hinit
  refine ⟨e1, e2, fun MinScreenSize Views VisibilityMap hsel => ?_⟩
  have hq : 1 ≤ (renderFrames p frames).FurData.length := by rw [e1]; exact hN
  obtain ⟨r0, r1⟩ := selectLod_range (renderFrames p frames) MinScreenSize Views VisibilityMap hq
  simp only [GetDynamicMeshElements]
  exact (applyLod_bookkeeping _ _ r0 r1).2.2 hsel

/-- Witness of C23: the new proxy with four levels and two frames, the first
with a view of squared radius `1/100` and the second with one of `1/10`. -/
theorem C23_section_offset_invariant_witness :
    1 ≤ (fourLevelProxy : FFurSceneProxy ℚ).FurData.length
    ∧ (fourLevelProxy : FFurSceneProxy ℚ).CurrentFurLodLevel = 0
    ∧ (fourLevelProxy : FFurSceneProxy ℚ).CurrentMeshLodLevel = 0
    ∧ (fourLevelProxy : FFurSceneProxy ℚ).SectionOffset = 0
    ∧ (∀ d, (fourLevelProxy : FFurSceneProxy ℚ).FurData[0]? = some d → d.Lod = 0)
    ∧ (renderFrames (fourLevelProxy : FFurSceneProxy ℚ)
        [(1 / 100, [1 / 100], 1), (1 / 100, [1 / 10], 1)]).FurData
      = (fourLevelProxy : FFurSceneProxy ℚ).FurData
    ∧ lodBookkeeping (renderFrames (fourLevelProxy : FFurSceneProxy ℚ)
        [(1 / 100, [1 / 100], 1), (1 / 100, [1 / 10], 1)])
    ∧ ∀ (MinScreenSize : ℚ) (Views : List ℚ) (VisibilityMap : Nat),
        selectLod (renderFrames (fourLevelProxy : FFurSceneProxy ℚ)
            [(1 / 100, [1 / 100], 1), (1 / 100, [1 / 10], 1)]) MinScreenSize Views VisibilityMap
          = (renderFrames (fourLevelProxy : FFurSceneProxy ℚ)
            [(1 / 100, [1 / 100], 1), (1 / 100, [1 / 10], 1)]).CurrentFurLodLevel →
        (GetDynamicMeshElements (renderFrames (fourLevelProxy : FFurSceneProxy ℚ)
            [(1 / 100, [1 / 100], 1), (1 / 100, [1 / 10], 1)])
          MinScreenSize Views VisibilityMap).1
          = renderFrames (fourLevelProxy : FFurSceneProxy ℚ)
            [(1 / 100, [1 / 100], 1), (1 / 100, [1 / 10], 1)] :=
  have hfirst : ∀ d, (fourLevelProxy : FFurSceneProxy ℚ).FurData[0]? = some d → d.Lod = 0 := by
    intro d hd
    simp [fourLevelProxy, fourLevelFurData] at hd
    rw [← hd]
  ⟨by decide, rfl, rfl, rfl, hfirst,
    C23_section_offset_invariant fourLevelProxy
      [(1 / 100, [1 / 100], 1), (1 / 100, [1 / 10], 1)] (by decide) rfl rfl rfl hfirst⟩

end BookkeepingTheorems

section AngularTheorems

variable {K M Q : Type} [LinearOrderedField K]

/-- The harmonic step of the angular channel is the one of the linear channel
with no external force. -/
theorem angularHarmonic_eq_linear (F : FMath K) (P : PhysicsLocals K) (o v : FVector K) :
    angularHarmonic F P o v = linearHarmonic F (torqueLocals P) o v := by
  simp [angularHarmonic, linearHarmonic, torqueLocals, FVector.add_def, FVector.sub_def,
    FVector.mul_def]

/-- The clamp of the angular offset is the offset of the clamp of the linear
channel with `MaxTorque` as the bound. -/
theorem angularClamp_eq_linear (F : FMath K) (P : PhysicsLocals K) (o v : FVector K) :
    angularClamp F P o = (linearClamp F (torqueLocals P) o v).1 := by
  by_cases h : o.Size F > P.MaxTorque
  · have h1 : o.Size F > (torqueLocals P).MaxForceFinal := h
    simp only [angularClamp, linearClamp, if_pos h, if_pos h1]
    split_ifs <;> rfl
  · have h1 : ¬ (o.Size F > (torqueLocals P).MaxForceFinal) := h
    simp only [angularClamp, linearClamp, if_neg h, if_neg h1]

/-- The locals of `updateFur` for the default settings with zero constant
force, delta time 0 and reference fur length 1, over the reals. -/
theorem physicsLocals_zeroDt :
    physicsLocals (⟨Real.sin, Real.cos, Real.sqrt, fun a b => a ^ b, Real.pi⟩ : FMath ℝ)
      (zeroForceSettings 0) unitLengths
    = ⟨0, 1, 1, 5, 1, 10, 15 / 2, ⟨0, 0, 0⟩, 0⟩ := by
  simp [physicsLocals, zeroForceSettings, unitLengths, FVector.mul_def, FVector.div_def]
  norm_num

/-- C22, as stated, fails. Over the reals, with the default settings,
zero constant force and delta time 0 (`ForceFactor = 1`, `MaxTorque = 7.5`, the
harmonic step is the identity). A frame at rest rotated by one radian about the
X axis gets the angular offset `(1, 0, 0)`, where the stated update gives
`(-1, 0, 0)`. A frame that is not rotated, with angular offset `(20, 0, 0)` and
angular velocity `(1, 0, 0)`, keeps the angular velocity `(1, 0, 0)` when its
offset is clamped, where the stated update removes it. -/
theorem C22_counterexample :
    (Physics (⟨Real.sin, Real.cos, Real.sqrt, fun a b => a ^ b, Real.pi⟩ : FMath ℝ)
        axisEngine
        (physicsLocals (⟨Real.sin, Real.cos, Real.sqrt, fun a b => a ^ b, Real.pi⟩ : FMath ℝ)
          (zeroForceSettings 0) unitLengths)
        ((⟨0, 0, 0⟩, 1) : FVector ℝ × ℝ) axisRestFrame).AngularOffset = ⟨1, 0, 0⟩
    ∧ (specAngularUpdate (⟨Real.sin, Real.cos, Real.sqrt, fun a b => a ^ b, Real.pi⟩ : FMath ℝ)
        (physicsLocals (⟨Real.sin, Real.cos, Real.sqrt, fun a b => a ^ b, Real.pi⟩ : FMath ℝ)
          (zeroForceSettings 0) unitLengths)
        (relativeAxisAngle (⟨Real.sin, Real.cos, Real.sqrt, fun a b => a ^ b, Real.pi⟩ : FMath ℝ) axisEngine
          ((⟨0, 0, 0⟩, 1) : FVector ℝ × ℝ) axisRestFrame).1
        (relativeAxisAngle (⟨Real.sin, Real.cos, Real.sqrt, fun a b => a ^ b, Real.pi⟩ : FMath ℝ) axisEngine
          ((⟨0, 0, 0⟩, 1) : FVector ℝ × ℝ) axisRestFrame).2
        (axisRestFrame : RigidFrame ℝ (FVector ℝ × ℝ)).AngularOffset
        (axisRestFrame : RigidFrame ℝ (FVector ℝ × ℝ)).AngularVelocity).1 = ⟨-1, 0, 0⟩
    ∧ (Physics (⟨Real.sin, Real.cos, Real.sqrt, fun a b => a ^ b, Real.pi⟩ : FMath ℝ)
        axisEngine
        (physicsLocals (⟨Real.sin, Real.cos, Real.sqrt, fun a b => a ^ b, Real.pi⟩ : FMath ℝ)
          (zeroForceSettings 0) unitLengths)
        ((⟨0, 0, 0⟩, 0) : FVector ℝ × ℝ) axisSpinningFrame).AngularVelocity = ⟨1, 0, 0⟩
    ∧ (specAngularUpdate (⟨Real.sin, Real.cos, Real.sqrt, fun a b => a ^ b, Real.pi⟩ : FMath ℝ)
        (physicsLocals (⟨Real.sin, Real.cos, Real.sqrt, fun a b => a ^ b, Real.pi⟩ : FMath ℝ)
          (zeroForceSettings 0) unitLengths)
        (relativeAxisAngle (⟨Real.sin, Real.cos, Real.sqrt, fun a b => a ^ b, Real.pi⟩ : FMath ℝ) axisEngine
          ((⟨0, 0, 0⟩, 0) : FVector ℝ × ℝ) axisSpinningFrame).1
        (relativeAxisAngle (⟨Real.sin, Real.cos, Real.sqrt, fun a b => a ^ b, Real.pi⟩ : FMath ℝ) axisEngine
          ((⟨0, 0, 0⟩, 0) : FVector ℝ × ℝ) axisSpinningFrame).2
        (axisSpinningFrame : RigidFrame ℝ (FVector ℝ × ℝ)).AngularOffset
        (axisSpinningFrame : RigidFrame ℝ (FVector ℝ × ℝ)).AngularVelocity).2 = ⟨0, 0, 0⟩ := by
  have hpi : ¬ ((1 : ℝ) > Real.pi) := not_lt.mpr (by linarith [Real.pi_gt_three])
  have hpi0 : ¬ ((0 : ℝ) > Real.pi) := not_lt.mpr Real.pi_pos.le
  have hsize1 : FVector.Size (⟨Real.sin, Real.cos, Real.sqrt, fun a b => a ^ b, Real.pi⟩ : FMath ℝ)
      (⟨1, 0, 0⟩ : FVector ℝ) = 1 := by
    simp [FVector.Size]
  have hsizem : FVector.Size (⟨Real.sin, Real.cos, Real.sqrt, fun a b => a ^ b, Real.pi⟩ : FMath ℝ)
      (⟨-1, 0, 0⟩ : FVector ℝ) = 1 := by
    simp [FVector.Size]
  have hsize20 : FVector.Size (⟨Real.sin, Real.cos, Real.sqrt, fun a b => a ^ b, Real.pi⟩ : FMath ℝ)
      (⟨20, 0, 0⟩ : FVector ℝ) = 20 := by
    have h20 : Real.sqrt (20 * 20 + 0 * 0 + 0 * 0) = 20 := by
      rw [show (20 * 20 + 0 * 0 + 0 * 0 : ℝ) = 20 * 20 by ring]
      exact Real.sqrt_mul_self (by norm_num)
    simp only [FVector.Size, FVector.DotProduct, h20]
  rw [physicsLocals_zeroDt]
  refine ⟨?_, ?_, ?_, ?_⟩
  · simp [Physics, angularForced, angularHarmonic, angularClamp, axisEngine, axisRestFrame,
      FVector.sub_def, FVector.mul_def, FVector.add_def, hsize1, hpi]
    norm_num
  · simp [specAngularUpdate, relativeAxisAngle, torqueLocals, linearHarmonic, linearClamp,
      axisEngine, axisRestFrame, FVector.sub_def, FVector.mul_def, FVector.add_def, hsizem, hpi]
    norm_num
  · simp [Physics, angularForced, angularHarmonic, axisEngine, axisSpinningFrame,
      FVector.sub_def, FVector.mul_def, FVector.add_def, hpi0]
  · simp [specAngularUpdate, relativeAxisAngle, torqueLocals, linearHarmonic, linearClamp,
      axisEngine, axisSpinningFrame, FVector.sub_def, FVector.mul_def, FVector.add_def, hsize20,
      hpi0, FVector.DotProduct]
    norm_num

/-- C22, amended. For every state and every relative rotation with axis `a`
and angle lowered by `2 * PI` when above `PI`, the angular update is the update
of the linear channel with no external force and `MaxTorque` as the bound, where
the forcing term subtracted from the offset is `a * (-angle * ForceFactor)` and
the clamp rescales the offset only: the angular velocity is the one of the
harmonic step. -/
theorem C22_angular_mirrors_linear (F : FMath K) (E : FEngine K M Q) (P : PhysicsLocals K)
    (NewTransformation : M) (s : RigidFrame K M) :
    ((Physics F E P NewTransformation s).AngularOffset,
      (Physics F E P NewTransformation s).AngularVelocity)
      = mirroredAngularUpdate F P (relativeAxisAngle F E NewTransformation s).1
          (relativeAxisAngle F E NewTransformation s).2 s.AngularOffset s.AngularVelocity := by
  simp only [Physics, mirroredAngularUpdate, relativeAxisAngle, angularHarmonic_eq_linear]
  rw [angularClamp_eq_linear F P _
    (linearHarmonic F (torqueLocals P) (angularForced F E P NewTransformation s)
      s.AngularVelocity).2]
  rfl

end AngularTheorems

section MorphCompleteLemmas

/-- A property established by one iteration of a counted loop and kept by all
of them holds after the loop, when the iterations keep the invariant under which
it is established. -/
theorem forLoop_establish {σ : Type} (P Q : σ → Prop) (body : Nat → σ → σ) (n : Nat)
    (hP : ∀ k s, k < n → P s → P (body k s)) (hQ : ∀ k s, k < n → Q s → Q (body k s))
    (t : Nat) (ht : t < n) (hest : ∀ s, P s → Q (body t s)) (s : σ) (hs : P s) :
    Q (forLoop n body s) := by
  induction n with
  | zero => omega
  | succ k ih =>
    show Q (body k (forLoop k body s))
    by_cases htk : t = k
    · subst htk
      exact hest _ (forLoop_invariant P body t (fun i s hi => hP i s (by omega)) s hs)
    · exact hQ k _ (by omega)
        (ih (fun i s hi => hP i s (by omega)) (fun i s hi => hQ i s (by omega)) (by omega))

/-- A property established by one step of a loop over a list and kept by all of
them holds after the loop, when the steps keep the invariant under which it is
established. -/
theorem foldl_establish {σ α : Type} (P Q : σ → Prop) (f : σ → α → σ) (l : List α)
    (hP : ∀ a ∈ l, ∀ s, P s → P (f s a)) (hQ : ∀ a ∈ l, ∀ s, Q s → Q (f s a))
    (a : α) (ha : a ∈ l) (hest : ∀ s, P s → Q (f s a)) (s : σ) (hs : P s) :
    Q (l.foldl f s) := by
  induction l generalizing s with
  | nil => cases ha
  | cons b rest ih =>
    show Q (rest.foldl f (f s b))
    rcases List.mem_cons.mp ha with hab | har
    · subst hab
      exact foldl_invariant Q f rest (fun c hc => hQ c (List.mem_cons_of_mem _ hc)) _ (hest s hs)
    · exact ih (fun c hc => hP c (List.mem_cons_of_mem _ hc))
        (fun c hc => hQ c (List.mem_cons_of_mem _ hc)) har _
        (hP b (List.mem_cons_self _ _) s hs)

/-- The chain of the hash table of a section under the key of one of its
vertices holds that vertex. -/
theorem hashTable_chain_complete (key : Nat → Nat) (Base N t : Nat) (ht : t < N) :
    Base + t ∈ (forLoop N (fun t (hashTable : FHashTable) =>
      hashTable.Add (key t) (Base + t)) ⟨[]⟩).chain (key t) := by
  induction N with
  | zero => omega
  | succ k ih =>
    simp only [forLoop, FHashTable.chain, FHashTable.Add, List.filter_cons]
    by_cases htk : t = k
    · subst htk
      simp
    · have hmem := ih (by omega)
      simp only [FHashTable.chain] at hmem
      split_ifs
      · exact List.mem_map.mpr (by
          obtain ⟨e, he, hej⟩ := List.mem_map.mp hmem
          exact ⟨e, List.mem_cons_of_mem _ he, hej⟩)
      · exact hmem

end MorphCompleteLemmas

section MorphCompleteTheorems

variable {K : Type} [LinearOrderedField K]

/-- A pair of vertices that matches passes `Compare`. -/
theorem morphCompare_complete (UVCount : Nat) (MasterLodModel LodModel : LodRenderData K)
    (i j : Nat) (h : verticesMatch UVCount MasterLodModel LodModel i j) :
    morphCompare UVCount MasterLodModel LodModel i j = true := by
  obtain ⟨h1, h2, h3, h4, h5⟩ := h
  unfold morphCompare
  simp only []
  rw [if_pos ⟨h1, h2, h3, h4⟩]
  exact List.all_eq_true.mpr (fun k hk => decide_eq_true (h5 k (List.mem_range.mp hk)))

/-- The loop over a chain leaves the table as it is, or writes at the master
vertex an index of the chain that passes `Compare`; it writes when the chain
holds an index that passes `Compare`. -/
theorem morphTryChain_spec (UVCount : Nat) (MasterLodModel LodModel : LodRenderData K) (i : Nat)
    (chain : List Nat) (table : List Int) :
    ((∀ j ∈ chain, morphCompare UVCount MasterLodModel LodModel i j = false)
      ∧ morphTryChain UVCount MasterLodModel LodModel i chain table = table)
    ∨ ∃ Idx ∈ chain, morphTryChain UVCount MasterLodModel LodModel i chain table
        = table.set i (Idx : Int) := by
  induction chain with
  | nil => exact Or.inl ⟨fun j hj => absurd hj (List.not_mem_nil j), rfl⟩
  | cons Idx rest ih =>
    unfold morphTryChain
    by_cases hc : morphCompare UVCount MasterLodModel LodModel i Idx = true
    · rw [if_pos hc]
      exact Or.inr ⟨Idx, List.mem_cons_self _ _, rfl⟩
    · rw [if_neg hc]
      rcases ih with ⟨hall, heq⟩ | ⟨Idx1, hmem, heq⟩
      · refine Or.inl ⟨fun j hj => ?_, heq⟩
        rcases List.mem_cons.mp hj with hj1 | hj2
        · subst hj1; simpa using hc
        · exact hall j hj2
      · exact Or.inr ⟨Idx1, List.mem_cons_of_mem _ hmem, heq⟩

/-- The loop over a chain keeps the length of the table. -/
theorem morphTryChain_length (UVCount : Nat) (MasterLodModel LodModel : LodRenderData K)
    (a : Nat) (chain : List Nat) (table : List Int) :
    (morphTryChain UVCount MasterLodModel LodModel a chain table).length = table.length := by
  rcases morphTryChain_spec UVCount MasterLodModel LodModel a chain table with
    ⟨_, heq⟩ | ⟨Idx, _, heq⟩
  · rw [heq]
  · rw [heq, List.length_set]

/-- The loop over a chain keeps an entry that holds an index. -/
theorem morphTryChain_mapped (UVCount : Nat) (MasterLodModel LodModel : LodRenderData K)
    (a : Nat) (chain : List Nat) (table : List Int) (i : Nat)
    (h : ∃ v, table[i]? = some v ∧ 0 ≤ v) :
    ∃ v, (morphTryChain UVCount MasterLodModel LodModel a chain table)[i]? = some v ∧ 0 ≤ v := by
  obtain ⟨v, hv, hv0⟩ := h
  rcases morphTryChain_spec UVCount MasterLodModel LodModel a chain table with
    ⟨_, heq⟩ | ⟨Idx, _, heq⟩
  · rw [heq]; exact ⟨v, hv, hv0⟩
  · rw [heq]
    by_cases hai : a = i
    · subst hai
      have hlt : a < table.length := (List.getElem?_eq_some.mp hv).1
      exact ⟨Idx, List.getElem?_set_self hlt, Int.natCast_nonneg _⟩
    · rw [List.getElem?_set_ne hai]
      exact ⟨v, hv, hv0⟩

/-- The loop over a chain that holds an index passing `Compare` leaves an index
at the master vertex. -/
theorem morphTryChain_found (UVCount : Nat) (MasterLodModel LodModel : LodRenderData K)
    (i : Nat) (chain : List Nat) (table : List Int) (hi : i < table.length) (j : Nat)
    (hj : j ∈ chain) (hc : morphCompare UVCount MasterLodModel LodModel i j = true) :
    ∃ v, (morphTryChain UVCount MasterLodModel LodModel i chain table)[i]? = some v ∧ 0 ≤ v := by
  rcases morphTryChain_spec UVCount MasterLodModel LodModel i chain table with
    ⟨hall, _⟩ | ⟨Idx, _, heq⟩
  · rw [hall j hj] at hc
    cases hc
  · rw [heq]
    exact ⟨Idx, List.getElem?_set_self hi, Int.natCast_nonneg _⟩

/-- The loops of lines 1033-1069 for one master section keep a property of the
table that every loop over a chain keeps. -/
theorem morphSectionLoop_keeps (R : List Int → Prop) (UVCount : Nat)
    (MasterLodModel LodModel : LodRenderData K) (Hash : FVector K → Nat)
    (HashTables : List FHashTable) (MasterSection : FSkelMeshRenderSection)
    (hR : ∀ a chain s, R s → R (morphTryChain UVCount MasterLodModel LodModel a chain s))
    (s : List Int) (hs : R s) :
    R (forLoop LodModel.RenderSections.length
        (fun SectionIndex MorphRemapTable =>
          let Section := LodModel.RenderSections.getD SectionIndex ⟨0, 0, 0⟩
          if MasterSection.MaterialIndex = Section.MaterialIndex then
            let hashTable := HashTables.getD SectionIndex ⟨[]⟩
            forLoop MasterSection.NumVertices
              (fun t MorphRemapTable =>
                let i := MasterSection.BaseVertexIndex + t
                morphTryChain UVCount MasterLodModel LodModel i
                  (hashTable.chain (Hash (MasterLodModel.vertex i).Position)) MorphRemapTable)
              MorphRemapTable
          else MorphRemapTable)
        s) := by
  apply forLoop_invariant R
  · intro SectionIndex table _ ht
    simp only []
    split_ifs
    · apply forLoop_invariant R
      · intro t table _ ht
        exact hR _ _ _ ht
      · exact ht
    · exact ht
  · exact hs

/-- The table built by lines 985-1092 holds an index at every master vertex
that lies in a master section and matches a vertex of a fur section with the
same material index. -/
theorem buildMorphRemapTable_complete (FLT_MAX : K) (toUInt16 : K → Nat) (uninit : Nat → Int)
    (MasterLodModel LodModel : LodRenderData K) (i j : Nat)
    (MasterSection Section : FSkelMeshRenderSection)
    (hi : i < MasterLodModel.Vertices.length)
    (hMS : MasterSection ∈ MasterLodModel.RenderSections)
    (hS : Section ∈ LodModel.RenderSections)
    (hmat : MasterSection.MaterialIndex = Section.MaterialIndex)
    (hci : MasterSection.contains i) (hcj : Section.contains j)
    (hmatch : verticesMatch (min MasterLodModel.NumTexCoords LodModel.NumTexCoords)
      MasterLodModel LodModel i j) :
    ∃ v, (buildMorphRemapTable FLT_MAX toUInt16 uninit MasterLodModel LodModel)[i]? = some v
      ∧ 0 ≤ v := by
  have hinit : forLoop MasterLodModel.Vertices.length (fun i (table : List Int) => table.set i (-1))
      ((List.range MasterLodModel.Vertices.length).map uninit)
      = (List.range MasterLodModel.Vertices.length).map (fun _ => (-1 : Int)) :=
    forLoop_set_all id _ (fun _ => (-1 : Int)) (fun _ _ => rfl) _ _ (by simp)
  have hcmp := morphCompare_complete _ _ _ _ _ hmatch
  have hP : ∀ a chain (s : List Int), s.length = MasterLodModel.Vertices.length →
      (morphTryChain (min MasterLodModel.NumTexCoords LodModel.NumTexCoords) MasterLodModel
        LodModel a chain s).length = MasterLodModel.Vertices.length := by
    intro a chain s hs
    rw [morphTryChain_length]; exact hs
  have hQ : ∀ a chain (s : List Int),
      (s.length = MasterLodModel.Vertices.length ∧ ∃ v, s[i]? = some v ∧ 0 ≤ v) →
      ((morphTryChain (min MasterLodModel.NumTexCoords LodModel.NumTexCoords) MasterLodModel
          LodModel a chain s).length = MasterLodModel.Vertices.length
        ∧ ∃ v, (morphTryChain (min MasterLodModel.NumTexCoords LodModel.NumTexCoords)
          MasterLodModel LodModel a chain s)[i]? = some v ∧ 0 ≤ v) := by
    intro a chain s hs
    exact ⟨hP a chain s hs.1, morphTryChain_mapped _ _ _ a chain s i hs.2⟩
  obtain ⟨SectionIndex, hSI, hget⟩ := List.getElem_of_mem hS
  have hsec : LodModel.RenderSections.getD SectionIndex ⟨0, 0, 0⟩ = Section := by
    simp [List.getD_eq_getElem?_getD, List.getElem?_eq_getElem hSI, hget]
  have htab : (morphHashTables
      (morphHash toUInt16 (morphBounds FLT_MAX LodModel).1 (morphBounds FLT_MAX LodModel).2)
      LodModel).getD SectionIndex ⟨[]⟩
      = forLoop Section.NumVertices
        (fun t (hashTable : FHashTable) =>
          hashTable.Add (morphHash toUInt16 (morphBounds FLT_MAX LodModel).1
              (morphBounds FLT_MAX LodModel).2
              (LodModel.vertex (Section.BaseVertexIndex + t)).Position)
            (Section.BaseVertexIndex + t))
        ⟨[]⟩ := by
    simp [morphHashTables, List.getD_eq_getElem?_getD, List.getElem?_eq_getElem hSI, hget]
  have hib : MasterSection.BaseVertexIndex + (i - MasterSection.BaseVertexIndex) = i := by
    have := hci.1
    omega
  have hjb : Section.BaseVertexIndex + (j - Section.BaseVertexIndex) = j := by
    have := hcj.1
    omega
  have hchain : j ∈ (forLoop Section.NumVertices
        (fun t (hashTable : FHashTable) =>
          hashTable.Add (morphHash toUInt16 (morphBounds FLT_MAX LodModel).1
              (morphBounds FLT_MAX LodModel).2
              (LodModel.vertex (Section.BaseVertexIndex + t)).Position)
            (Section.BaseVertexIndex + t))
        ⟨[]⟩).chain (morphHash toUInt16 (morphBounds FLT_MAX LodModel).1
          (morphBounds FLT_MAX LodModel).2 (MasterLodModel.vertex i).Position) := by
    have h := hashTable_chain_complete
      (fun t => morphHash toUInt16 (morphBounds FLT_MAX LodModel).1
        (morphBounds FLT_MAX LodModel).2
        (LodModel.vertex (Section.BaseVertexIndex + t)).Position)
      Section.BaseVertexIndex Section.NumVertices (j - Section.BaseVertexIndex)
      (by have := hcj.2; have := hcj.1; omega)
    simp only [hjb] at h
    rw [hmatch.1]
    exact h
  suffices h : (buildMorphRemapTable FLT_MAX toUInt16 uninit MasterLodModel LodModel).length
      = MasterLodModel.Vertices.length
      ∧ ∃ v, (buildMorphRemapTable FLT_MAX toUInt16 uninit MasterLodModel LodModel)[i]? = some v
        ∧ 0 ≤ v from h.2
  unfold buildMorphRemapTable
  simp only [hinit]
  apply foldl_establish (fun table : List Int => table.length = MasterLodModel.Vertices.length)
    (fun table : List Int => table.length = MasterLodModel.Vertices.length
      ∧ ∃ v, table[i]? = some v ∧ 0 ≤ v) _ _ _ _ MasterSection hMS
  · intro s hs
    apply forLoop_establish (fun table : List Int => table.length = MasterLodModel.Vertices.length)
      (fun table : List Int => table.length = MasterLodModel.Vertices.length
        ∧ ∃ v, table[i]? = some v ∧ 0 ≤ v) _ _ _ _ SectionIndex hSI _ s hs
    · intro k table _ ht
      split_ifs
      · exact forLoop_invariant
          (fun table : List Int => table.length = MasterLodModel.Vertices.length) _ _
          (fun t table _ ht => hP _ _ _ ht) _ ht
      · exact ht
    · intro k table _ ht
      split_ifs
      · exact forLoop_invariant
          (fun table : List Int => table.length = MasterLodModel.Vertices.length
            ∧ ∃ v, table[i]? = some v ∧ 0 ≤ v) _ _ (fun t table _ ht => hQ _ _ _ ht) _ ht
      · exact ht
    · intro table ht
      simp only [hsec, if_pos hmat, htab]
      apply forLoop_establish
        (fun table : List Int => table.length = MasterLodModel.Vertices.length)
        (fun table : List Int => table.length = MasterLodModel.Vertices.length
          ∧ ∃ v, table[i]? = some v ∧ 0 ≤ v) _ _ _ _ (i - MasterSection.BaseVertexIndex)
        (by have := hci.2; have := hci.1; omega) _ table ht
      · intro t table _ ht
        exact hP _ _ _ ht
      · intro t table _ ht
        exact hQ _ _ _ ht
      · intro table ht
        simp only [hib]
        exact ⟨hP _ _ _ ht, morphTryChain_found _ _ _ i _ table (by rw [ht]; exact hi) j hchain
          hcmp⟩
  · simp
  · intro MasterSection1 _ table ht
    exact morphSectionLoop_keeps
      (fun table : List Int => table.length = MasterLodModel.Vertices.length) _ _ _ _ _ _
      hP table ht
  · intro MasterSection1 _ table ht
    exact morphSectionLoop_keeps
      (fun table : List Int => table.length = MasterLodModel.Vertices.length
        ∧ ∃ v, table[i]? = some v ∧ 0 ≤ v) _ _ _ _ _ _ hQ table ht

/-- C25. Completeness of the morph remap table. When the table of the LOD is
empty (and the LOD has a table, and the render resource of the master mesh is
there): for every vertex `i` of the master LOD that lies in a master section,
if a vertex `j` in a section of the fur LOD with the same material index has
the position, the three tangent vectors and the UVs in the compared channels of
the master vertex, then the two positions have the same hash and
`CreateMorphRemapTable` leaves at entry `i` of the table of the LOD a value
other than `-1`. -/
theorem C25_morph_remap_complete (FLT_MAX : K) (toUInt16 : K → Nat) (uninit : Nat → Int)
    (MasterLODRenderData Mesh : List (LodRenderData K)) (InLod : Nat)
    (MorphRemapTables : List (List Int))
    (hlod : InLod < MorphRemapTables.length)
    (hempty : (MorphRemapTables.getD InLod []).length = 0)
    (i j : Nat) (MasterSection Section : FSkelMeshRenderSection)
    (hi : i < (MasterLODRenderData.getD InLod ⟨[], [], 0⟩).Vertices.length)
    (hMS : MasterSection ∈ (MasterLODRenderData.getD InLod ⟨[], [], 0⟩).RenderSections)
    (hS : Section ∈ (Mesh.getD InLod ⟨[], [], 0⟩).RenderSections)
    (hmat : MasterSection.MaterialIndex = Section.MaterialIndex)
    (hci : MasterSection.contains i) (hcj : Section.contains j)
    (hmatch : verticesMatch
      (min (MasterLODRenderData.getD InLod ⟨[], [], 0⟩).NumTexCoords
        (Mesh.getD InLod ⟨[], [], 0⟩).NumTexCoords)
      (MasterLODRenderData.getD InLod ⟨[], [], 0⟩) (Mesh.getD InLod ⟨[], [], 0⟩) i j) :
    morphHash toUInt16 (morphBounds FLT_MAX (Mesh.getD InLod ⟨[], [], 0⟩)).1
        (morphBounds FLT_MAX (Mesh.getD InLod ⟨[], [], 0⟩)).2
        ((MasterLODRenderData.getD InLod ⟨[], [], 0⟩).vertex i).Position
      = morphHash toUInt16 (morphBounds FLT_MAX (Mesh.getD InLod ⟨[], [], 0⟩)).1
        (morphBounds FLT_MAX (Mesh.getD InLod ⟨[], [], 0⟩)).2
        ((Mesh.getD InLod ⟨[], [], 0⟩).vertex j).Position
    ∧ ∃ Tables1 table v,
      CreateMorphRemapTable FLT_MAX toUInt16 uninit (some MasterLODRenderData) Mesh InLod
        MorphRemapTables = some Tables1
      ∧ Tables1[InLod]? = some table
      ∧ table[i]? = some v ∧ v ≠ -1 := by
  obtain ⟨v, hv, hv0⟩ := buildMorphRemapTable_complete FLT_MAX toUInt16 uninit
    (MasterLODRenderData.getD InLod ⟨[], [], 0⟩) (Mesh.getD InLod ⟨[], [], 0⟩) i j MasterSection Section
    hi hMS hS hmat hci hcj hmatch
  refine ⟨by rw [hmatch.1], MorphRemapTables.set InLod (buildMorphRemapTable FLT_MAX toUInt16 uninit
      (MasterLODRenderData.getD InLod ⟨[], [], 0⟩) (Mesh.getD InLod ⟨[], [], 0⟩)),
    buildMorphRemapTable FLT_MAX toUInt16 uninit
      (MasterLODRenderData.getD InLod ⟨[], [], 0⟩) (Mesh.getD InLod ⟨[], [], 0⟩), v,
    ?_, List.getElem?_set_self hlod, hv, by omega⟩
  simp only [CreateMorphRemapTable, hempty, gt_iff_lt, lt_self_iff_false, if_false]

/-- Witness of C25: a master LOD of three vertices against a fur LOD of two
vertices, with one empty table; the master vertex 0 at `x = 0` matches the fur
vertex 1. -/
theorem C25_morph_remap_complete_witness :
    0 < ([[]] : List (List Int)).length
    ∧ (([[]] : List (List Int)).getD 0 []).length = 0
    ∧ ∃ Tables1 table v,
      CreateMorphRemapTable (1000 : ℚ) (fun _ => 0) (fun _ => 99) (some [sampleMasterLod])
        [sampleFurLod] 0 [[]] = some Tables1
      ∧ Tables1[0]? = some table
      ∧ table[0]? = some v ∧ v ≠ -1 :=
  ⟨by decide, by decide,
    (C25_morph_remap_complete (1000 : ℚ) (fun _ => 0) (fun _ => 99) [sampleMasterLod]
      [sampleFurLod] 0 [[]] (by decide) (by decide) 0 1 ⟨0, 0, 3⟩ ⟨0, 0, 2⟩
      (by simp [sampleMasterLod])
      (by simp [sampleMasterLod])
      (by simp [sampleFurLod])
      rfl
      (by simp [FSkelMeshRenderSection.contains])
      (by simp [FSkelMeshRenderSection.contains])
      (by
        refine ⟨?_, ?_, ?_, ?_, fun k _ => ?_⟩ <;>
          simp [LodRenderData.vertex, sampleMasterLod, sampleFurLod, sampleVertex])).2⟩

end MorphCompleteTheorems

end GFur
